import Mathlib

/-!
# Rosegarden transport engine: a shallow embedding of `RosegardenSequencer.cpp`

The sequencer object is a record of its member variables.  The sound driver,
the stream merger (meta-iterator), the authoring side and the file system are
external collaborators: each call made to them is appended to a log kept in the
collaborator object, and what they answer is given by an environment `Env`
whose answers may depend on every call the collaborator has received so far.
Dereferencing a null `m_driver` or `m_metaIterator` has no defined behaviour in
the source; the operations return `none` there.
-/

namespace Rosegarden

/-- Modelled from the spec: RealTime (base/RealTime.h is not among the sources),
a (seconds, nanoseconds) pair with public members `sec` and `nsec`. -/
structure RealTime where
  sec : Int
  nsec : Int
deriving DecidableEq, Repr

namespace RealTime

/-- Nanoseconds in one second. -/
def nsPerS : Int := 1000000000

/-- Modelled from the spec: the constructor `RealTime(s, n)`, which keeps the
nanoseconds normalized to [0, 1e9) and carries the excess into the seconds. -/
def make (s n : Int) : RealTime := ⟨s + n / nsPerS, n % nsPerS⟩

/-- Data-model invariant of a RealTime value: nanoseconds in [0, 1e9). -/
def normalized (t : RealTime) : Prop := 0 ≤ t.nsec ∧ t.nsec < nsPerS

instance (t : RealTime) : Decidable t.normalized :=
  inferInstanceAs (Decidable (0 ≤ t.nsec ∧ t.nsec < nsPerS))

/-- The constant `RealTime::zeroTime`. -/
def zeroTime : RealTime := ⟨0, 0⟩

/-- Modelled from the spec: `operator+`, memberwise sum passed to the constructor. -/
def add (a b : RealTime) : RealTime := make (a.sec + b.sec) (a.nsec + b.nsec)

/-- Modelled from the spec: `operator-`, memberwise difference passed to the constructor. -/
def sub (a b : RealTime) : RealTime := make (a.sec - b.sec) (a.nsec - b.nsec)

instance : Add RealTime := ⟨add⟩
instance : Sub RealTime := ⟨sub⟩

/-- Modelled from the spec: `operator<`, seconds first, then nanoseconds. -/
def lt (a b : RealTime) : Prop := a.sec < b.sec ∨ (a.sec = b.sec ∧ a.nsec < b.nsec)

/-- Modelled from the spec: `operator<=`, seconds first, then nanoseconds. -/
def le (a b : RealTime) : Prop := a.sec < b.sec ∨ (a.sec = b.sec ∧ a.nsec ≤ b.nsec)

instance : LT RealTime := ⟨lt⟩
instance : LE RealTime := ⟨le⟩

instance (a b : RealTime) : Decidable (a < b) :=
  inferInstanceAs (Decidable (a.sec < b.sec ∨ (a.sec = b.sec ∧ a.nsec < b.nsec)))

instance (a b : RealTime) : Decidable (a ≤ b) :=
  inferInstanceAs (Decidable (a.sec < b.sec ∨ (a.sec = b.sec ∧ a.nsec ≤ b.nsec)))

end RealTime

/-- Instrument identifiers (`unsigned int` in the source). -/
abbrev InstrumentId := Nat

/-- Modelled from the spec: the transport states of section 3 (the enum is
declared outside the sources). -/
inductive TransportStatus where
  | STOPPED
  | STARTING_TO_PLAY
  | PLAYING
  | STARTING_TO_RECORD
  | RECORDING
  | STOPPING
  | QUIT
deriving DecidableEq, Repr

/-- Modelled from the spec: a Mapped Event (sound/MappedEvent.h is not among
the sources): instrument id, type tag, two data bytes, event time, duration,
audio start marker, and the device and channel it was recorded from. -/
structure MappedEvent where
  instrument : InstrumentId
  type : Nat
  data1 : Nat
  data2 : Nat
  eventTime : RealTime
  duration : RealTime
  audioStartMarker : RealTime
  recordedChannel : Nat
  recordedDevice : Nat
deriving DecidableEq, Repr

/-- A MappedComposition, in iteration order. -/
abbrev MappedComposition := List MappedEvent

/-- Modelled from the spec: a mapped segment stream, identified by its file name. -/
structure MmappedSegment where
  fileName : String
  events : List MappedEvent
deriving DecidableEq, Repr

/-- The table `m_mmappedSegments` (a map from file name to mapped segment). -/
abbrev mmappedsegments := List (String × MmappedSegment)

/-- Record mode passed to the driver's `record`. -/
inductive RecordStatus where
  | RECORD_OFF
  | RECORD_ON
deriving DecidableEq, Repr

/-- Calls the sequencer makes on the sound driver `m_driver`. -/
inductive DriverCall where
  | setAudioBufferSizes (mix read write : RealTime) (smallFileSize : Int)
  | setExternalTransportControl
  | stopClocks
  | startClocks
  | initialisePlayback (pos : RealTime)
  | resetPlayback (oldPosition position : RealTime)
  | stopPlayback
  | punchOut
  | setLoop (loopStart loopEnd : RealTime)
  | processEventsOut (c : MappedComposition) (sliceStart sliceEnd : RealTime)
  | initialiseAudioQueue (audioEvents : List MappedEvent)
  | record (mode : RecordStatus) (armedInstruments : List InstrumentId)
      (audioFileNames : List String)
  | runTasks
  | isPlaying
  | getSequencerTime
  | getStartPosition
  | getMaximumPlayLatency
  | getInstrumentPlayLatency (id : InstrumentId)
deriving DecidableEq, Repr

/-- The calls that only read a value from the driver. -/
def DriverCall.isQuery : DriverCall → Bool
  | .isPlaying => true
  | .getSequencerTime => true
  | .getStartPosition => true
  | .getMaximumPlayLatency => true
  | .getInstrumentPlayLatency _ => true
  | _ => false

/-- The sound driver object: the calls it has received, oldest first. -/
structure SoundDriver where
  log : List DriverCall
deriving DecidableEq, Repr

/-- Deliver one call to the driver. -/
def SoundDriver.call (d : SoundDriver) (c : DriverCall) : SoundDriver :=
  ⟨d.log ++ [c]⟩

/-- The calls of a log that are not queries. -/
def commands (log : List DriverCall) : List DriverCall :=
  log.filter (fun c => !c.isQuery)

/-- Calls the sequencer makes on the meta-iterator. -/
inductive IterCall where
  | jumpToTime (start : RealTime)
  | fillCompositionWithEventsUntil (firstFetch : Bool) (start finish : RealTime)
  | getAudioEvents
deriving DecidableEq, Repr

/-- The stream merger object `MmappedSegmentsMetaIterator`: the segment table
it was constructed over and the calls it has received, oldest first. -/
structure MmappedSegmentsMetaIterator where
  segments : mmappedsegments
  log : List IterCall
deriving DecidableEq, Repr

/-- Deliver one call to the meta-iterator. -/
def MmappedSegmentsMetaIterator.call (m : MmappedSegmentsMetaIterator) (c : IterCall) :
    MmappedSegmentsMetaIterator :=
  { m with log := m.log ++ [c] }

/-- The backend's transport token type (an unsigned integer; its width is
declared outside the sources and is taken to be unbounded). -/
abbrev TransportToken := Nat

/-- Requests queued for the scheduling context (the enum is declared in
ExternalTransport.h, outside the sources). -/
inductive TransportRequest where
  | TransportNoChange
  | TransportStop
  | TransportStart
  | TransportPlay
  | TransportRecord
  | TransportJumpToTime
  | TransportStartAtTime
  | TransportStopAtTime
deriving DecidableEq, Repr

/-- The external collaborators of the sequencer.  The answers of the sound
driver and of the meta-iterator are functions of the calls that object has
received before the call being answered. -/
structure Env where
  /-- First instrument id of the audio range. -/
  AudioInstrumentBase : InstrumentId
  /-- First instrument id of the MIDI range. -/
  MidiInstrumentBase : InstrumentId
  /-- Authoring side: `RosegardenMainWindow::getArmedInstruments`. -/
  getArmedInstruments : List InstrumentId
  /-- Authoring side: `RosegardenMainWindow::createRecordAudioFiles`. -/
  createRecordAudioFiles : List InstrumentId → List String
  /-- `QDir::tempPath()`. -/
  tempPath : String
  /-- Entries matching `segment_*` in a directory. -/
  segmentsDir : String → List String
  /-- `QFileInfo::exists`. -/
  fileExists : String → Bool
  /-- `new MmappedSegment(file)`; `none` when the constructor throws. -/
  newMmappedSegment : String → Option MmappedSegment
  /-- `SoundDriverFactory::createDriver` returns a driver. -/
  createDriver : Bool
  /-- Result of the driver's `record`. -/
  driverRecord : List DriverCall → RecordStatus → List InstrumentId → List String → Bool
  /-- Result of the driver's `isPlaying`. -/
  isPlaying : List DriverCall → Bool
  /-- Result of the driver's `getSequencerTime`. -/
  getSequencerTime : List DriverCall → RealTime
  /-- Result of the driver's `getStartPosition`. -/
  getStartPosition : List DriverCall → RealTime
  /-- Result of the driver's `getMaximumPlayLatency`. -/
  getMaximumPlayLatency : List DriverCall → RealTime
  /-- Result of the driver's `getInstrumentPlayLatency`. -/
  getInstrumentPlayLatency : List DriverCall → InstrumentId → RealTime
  /-- Result of the meta-iterator's `fillCompositionWithEventsUntil`: the
  composition after the fill and whether events remain. -/
  fillCompositionWithEventsUntil : MmappedSegmentsMetaIterator → Bool →
    MappedComposition → RealTime → RealTime → MappedComposition × Bool
  /-- Result of the meta-iterator's `getAudioEvents`. -/
  getAudioEvents : MmappedSegmentsMetaIterator → List MappedEvent

/-- The member variables of `RosegardenSequencer`, and the position pointer of
the `SequencerDataBlock` it writes to. -/
structure RosegardenSequencer where
  m_driver : Option SoundDriver
  m_transportStatus : TransportStatus
  m_songPosition : RealTime
  m_lastFetchSongPosition : RealTime
  m_readAhead : RealTime
  m_audioMix : RealTime
  m_audioRead : RealTime
  m_audioWrite : RealTime
  m_smallFileSize : Int
  m_loopStart : RealTime
  m_loopEnd : RealTime
  m_segmentFilesPath : String
  m_mmappedSegments : mmappedsegments
  m_metaIterator : Option MmappedSegmentsMetaIterator
  m_lastStartTime : RealTime
  m_transportToken : TransportToken
  m_isEndOfCompReached : Bool
  m_transportRequests : List (TransportRequest × RealTime)
  positionPointer : RealTime
deriving DecidableEq, Repr

/-- A call `m_driver->c(...)` that returns nothing the sequencer uses. -/
def driverCall (s : RosegardenSequencer) (c : DriverCall) : Option RosegardenSequencer :=
  match s.m_driver with
  | none => none
  | some d => some { s with m_driver := some (d.call c) }

/-- A call `m_driver->c(...)` whose result `answer` is computed from the calls
the driver received before it. -/
def driverQuery {α : Type} (s : RosegardenSequencer) (c : DriverCall)
    (answer : List DriverCall → α) : Option (α × RosegardenSequencer) :=
  match s.m_driver with
  | none => none
  | some d => some (answer d.log, { s with m_driver := some (d.call c) })

/-- Modelled from the spec: `isLooping()` (declared in RosegardenSequencer.h,
which is not among the sources): equal loop bounds mean no loop. -/
def isLooping (s : RosegardenSequencer) : Bool :=
  !(s.m_loopStart == s.m_loopEnd)

/-- `RosegardenSequencer::incrementTransportToken`. -/
def incrementTransportToken (s : RosegardenSequencer) : RosegardenSequencer :=
  { s with m_transportToken := s.m_transportToken + 1 }

/-- `RosegardenSequencer::cleanupMmapData`. -/
def cleanupMmapData (s : RosegardenSequencer) : RosegardenSequencer :=
  { s with m_mmappedSegments := [], m_metaIterator := none }

/-- `RosegardenSequencer::initMetaIterator`. -/
def initMetaIterator (s : RosegardenSequencer) : RosegardenSequencer :=
  { s with m_metaIterator := some ⟨s.m_mmappedSegments, []⟩ }

/-- `RosegardenSequencer::mmapSegment`: a file that cannot be mapped is skipped. -/
def mmapSegment (env : Env) (s : RosegardenSequencer) (file : String) : RosegardenSequencer :=
  match env.newMmappedSegment file with
  | none => s
  | some m =>
    { s with m_mmappedSegments :=
        (file, m) :: s.m_mmappedSegments.filter (fun p => p.1 != file) }

/-- `RosegardenSequencer::stop`. -/
def stop (s : RosegardenSequencer) : Option RosegardenSequencer := do
  let s := { s with m_transportStatus := .STOPPING }
  let s ← driverCall s .stopPlayback
  let s := { s with m_songPosition := { s.m_songPosition with sec := 0 } }
  let s := { s with m_songPosition := { s.m_songPosition with nsec := 0 } }
  let s := { s with m_lastFetchSongPosition := { s.m_lastFetchSongPosition with sec := 0 } }
  let s := { s with m_lastFetchSongPosition := { s.m_lastFetchSongPosition with nsec := 0 } }
  let s := cleanupMmapData s
  some (incrementTransportToken s)

/-- `RosegardenSequencer::punchOut`. -/
def punchOut (s : RosegardenSequencer) : Option (Bool × RosegardenSequencer) :=
  if s.m_transportStatus = .RECORDING then do
    let s ← driverCall s .punchOut
    let s := { s with m_transportStatus := .PLAYING }
    some (true, s)
  else
    some (false, s)

/-- The loop of `applyLatencyCompensation`: one latency query per event. -/
def applyLatencyCompensation.loop (env : Env) (maxLatency : RealTime) :
    SoundDriver → List MappedEvent → List MappedEvent × SoundDriver
  | d, [] => ([], d)
  | d, e :: es =>
    let instrumentLatency := env.getInstrumentPlayLatency d.log e.instrument
    let d := d.call (.getInstrumentPlayLatency e.instrument)
    let e := { e with eventTime := e.eventTime + maxLatency - instrumentLatency }
    let r := applyLatencyCompensation.loop env maxLatency d es
    (e :: r.1, r.2)

/-- `RosegardenSequencer::applyLatencyCompensation`. -/
def applyLatencyCompensation (env : Env) (s : RosegardenSequencer)
    (composition : MappedComposition) : Option (MappedComposition × RosegardenSequencer) :=
  match s.m_driver with
  | none => none
  | some d =>
    let maxLatency := env.getMaximumPlayLatency d.log
    let d := d.call .getMaximumPlayLatency
    if maxLatency = RealTime.zeroTime then
      some (composition, { s with m_driver := some d })
    else
      let r := applyLatencyCompensation.loop env maxLatency d composition
      some (r.1, { s with m_driver := some r.2 })

/-- `RosegardenSequencer::getSlice`. -/
def getSlice (env : Env) (s : RosegardenSequencer) (composition : MappedComposition)
    (start finish : RealTime) (firstFetch : Bool) :
    Option (MappedComposition × RosegardenSequencer) :=
  match s.m_metaIterator with
  | none => none
  | some it =>
    let it := if firstFetch ∨ start < s.m_lastStartTime then it.call (.jumpToTime start) else it
    let composition := (env.fillCompositionWithEventsUntil it firstFetch composition start finish).1
    let it := it.call (.fillCompositionWithEventsUntil firstFetch start finish)
    some (composition, { s with m_metaIterator := some it, m_lastStartTime := start })

/-- `RosegardenSequencer::fetchEvents`. -/
def fetchEvents (env : Env) (s : RosegardenSequencer) (composition : MappedComposition)
    (start finish : RealTime) (firstFetch : Bool) :
    Option (MappedComposition × RosegardenSequencer) :=
  if s.m_transportStatus = .STOPPED ∨ s.m_transportStatus = .STOPPING then
    some (composition, s)
  else
    match getSlice env s composition start finish firstFetch with
    | none => none
    | some (composition, s) => applyLatencyCompensation env s composition

/-- `RosegardenSequencer::jumpTo`. -/
def jumpTo (env : Env) (s : RosegardenSequencer) (pos : RealTime) :
    Option RosegardenSequencer :=
  if pos < RealTime.zeroTime then some s
  else do
    let s ← driverCall s .stopClocks
    let oldPosition := s.m_songPosition
    let s := { s with m_lastFetchSongPosition := pos }
    let s := { s with m_songPosition := s.m_lastFetchSongPosition }
    let s := { s with positionPointer := s.m_songPosition }
    let s ← driverCall s (.resetPlayback oldPosition s.m_songPosition)
    let (playing, s) ← driverQuery s .isPlaying env.isPlaying
    let s ←
      if playing then do
        let (c, s) ← fetchEvents env s [] s.m_songPosition (s.m_songPosition + s.m_readAhead) true
        driverCall s (.processEventsOut c s.m_songPosition (s.m_songPosition + s.m_readAhead))
      else some s
    let s := incrementTransportToken s
    driverCall s .startClocks

/-- `RosegardenSequencer::setLoop`. -/
def setLoop (s : RosegardenSequencer) (loopStart loopEnd : RealTime) :
    Option RosegardenSequencer :=
  let s := { s with m_loopStart := loopStart }
  let s := { s with m_loopEnd := loopEnd }
  driverCall s (.setLoop loopStart loopEnd)

/-- `RosegardenSequencer::quit`. -/
def quit (s : RosegardenSequencer) : RosegardenSequencer :=
  { s with m_transportStatus := .QUIT }

/-- The part of `RosegardenSequencer::play` that maps the segment files of the
segment directory, then the metronome, tempo and time signature segments when
their files exist. -/
def play.mapSegments (env : Env) (s : RosegardenSequencer) : RosegardenSequencer :=
  let s := (env.segmentsDir s.m_segmentFilesPath).foldl
    (fun s f => mmapSegment env s (s.m_segmentFilesPath ++ "/" ++ f)) s
  let tmpDir := env.tempPath
  let metronomeFileName := tmpDir ++ "/rosegarden_metronome"
  let s := if env.fileExists metronomeFileName then mmapSegment env s metronomeFileName else s
  let tempoSegmentFileName := tmpDir ++ "/rosegarden_tempo"
  let s :=
    if env.fileExists tempoSegmentFileName then mmapSegment env s tempoSegmentFileName else s
  let timeSigSegmentFileName := tmpDir ++ "/rosegarden_timesig"
  let s :=
    if env.fileExists timeSigSegmentFileName then mmapSegment env s timeSigSegmentFileName
    else s
  s

/-- `RosegardenSequencer::play`. -/
def play (env : Env) (s : RosegardenSequencer)
    (time readAhead audioMix audioRead audioWrite : RealTime) (smallFileSize : Int) :
    Option (Bool × RosegardenSequencer) :=
  if s.m_transportStatus = .PLAYING ∨ s.m_transportStatus = .STARTING_TO_PLAY then
    some (true, s)
  else if s.m_transportStatus = .RECORDING then
    punchOut { s with m_transportStatus := .PLAYING }
  else do
    let s := { s with m_songPosition := time }
    let s := { s with positionPointer := s.m_songPosition }
    let s :=
      if s.m_transportStatus ≠ .RECORDING ∧ s.m_transportStatus ≠ .STARTING_TO_RECORD then
        { s with m_transportStatus := .STARTING_TO_PLAY }
      else s
    let s ← driverCall s .stopClocks
    let s := { s with m_readAhead := readAhead }
    let s :=
      if s.m_readAhead = RealTime.zeroTime then
        { s with m_readAhead := { s.m_readAhead with sec := 1 } }
      else s
    let s := { s with m_audioMix := audioMix }
    let s := { s with m_audioRead := audioRead }
    let s := { s with m_audioWrite := audioWrite }
    let s := { s with m_smallFileSize := smallFileSize }
    let s ← driverCall s
      (.setAudioBufferSizes s.m_audioMix s.m_audioRead s.m_audioWrite s.m_smallFileSize)
    let s := cleanupMmapData s
    let s := play.mapSegments env s
    let s := initMetaIterator s
    some (true, s)

/-- The local `audioInstruments` of `RosegardenSequencer::record`: the armed
instruments whose id lies in the audio range. -/
def record.audioInstruments (env : Env) : List InstrumentId :=
  env.getArmedInstruments.filter
    (fun i => decide (i ≥ env.AudioInstrumentBase ∧ i < env.MidiInstrumentBase))

/-- The local `audioFileNames` of `RosegardenSequencer::record`: empty unless
there is an armed audio instrument, in which case the authoring side is asked
to create the files. -/
def record.audioFileNames (env : Env) : List String :=
  if (record.audioInstruments env).length > 0 then
    env.createRecordAudioFiles (record.audioInstruments env)
  else []

/-- `RosegardenSequencer::record`.  The record mode arrives as a `long` cast to
a TransportStatus; it is taken here as the status it names. -/
def record (env : Env) (s : RosegardenSequencer)
    (time readAhead audioMix audioRead audioWrite : RealTime) (smallFileSize : Int)
    (recordMode : TransportStatus) : Option (Bool × RosegardenSequencer) :=
  let localRecordMode : TransportStatus :=
    if s.m_transportStatus = .PLAYING ∧ recordMode = .STARTING_TO_RECORD then .RECORDING
    else recordMode
  if localRecordMode = .STARTING_TO_RECORD ∨ localRecordMode = .RECORDING then
    let armedInstruments := env.getArmedInstruments
    let audioInstruments := record.audioInstruments env
    let audioFileNames := record.audioFileNames env
    if audioInstruments.length > 0 ∧ audioFileNames.length ≠ audioInstruments.length then
      (stop s).map (fun s => (false, s))
    else
      match driverQuery s (.record .RECORD_ON armedInstruments audioFileNames)
          (fun log => env.driverRecord log .RECORD_ON armedInstruments audioFileNames) with
      | none => none
      | some (ok, s) =>
        if ok = false then
          (stop s).map (fun s => (false, s))
        else
          let s := { s with m_transportStatus := localRecordMode }
          if localRecordMode = .RECORDING then
            some (true, s)
          else
            match driverCall s (.initialisePlayback s.m_songPosition) with
            | none => none
            | some s => play env s time readAhead audioMix audioRead audioWrite smallFileSize
  else
    some (false, s)

/-- A call `m_metaIterator->getAudioEvents(audioEvents)` on an empty vector. -/
def metaIteratorGetAudioEvents (env : Env) (s : RosegardenSequencer) :
    Option (List MappedEvent × RosegardenSequencer) :=
  match s.m_metaIterator with
  | none => none
  | some it => some (env.getAudioEvents it, { s with m_metaIterator := some (it.call .getAudioEvents) })

/-- `RosegardenSequencer::startPlaying`. -/
def startPlaying (env : Env) (s : RosegardenSequencer) : Option (Bool × RosegardenSequencer) := do
  let s := { s with m_lastFetchSongPosition := s.m_songPosition + s.m_readAhead }
  let s ← driverCall s (.initialisePlayback s.m_songPosition)
  let (c, s) ← fetchEvents env s [] s.m_songPosition (s.m_songPosition + s.m_readAhead) true
  let s ← driverCall s (.processEventsOut c s.m_songPosition (s.m_songPosition + s.m_readAhead))
  let (audioEvents, s) ← metaIteratorGetAudioEvents env s
  let s ← driverCall s (.initialiseAudioQueue audioEvents)
  let s ← driverCall s .startClocks
  let s := incrementTransportToken s
  some (true, s)

/-- `RosegardenSequencer::keepPlaying`. -/
def keepPlaying (env : Env) (s : RosegardenSequencer) : Option (Bool × RosegardenSequencer) := do
  let fetchEnd := s.m_songPosition + s.m_readAhead
  let fetchEnd :=
    if isLooping s ∧ fetchEnd ≥ s.m_loopEnd then s.m_loopEnd - RealTime.make 0 1 else fetchEnd
  let (c, s) ←
    if fetchEnd > s.m_lastFetchSongPosition then
      fetchEvents env s [] s.m_lastFetchSongPosition fetchEnd false
    else some ([], s)
  let s ← driverCall s (.processEventsOut c s.m_lastFetchSongPosition fetchEnd)
  let s :=
    if fetchEnd > s.m_lastFetchSongPosition then { s with m_lastFetchSongPosition := fetchEnd }
    else s
  some (true, s)

/-- `RosegardenSequencer::updateClocks`. -/
def updateClocks (env : Env) (s : RosegardenSequencer) : Option RosegardenSequencer := do
  let s ← driverCall s .runTasks
  if s.m_transportStatus ≠ .PLAYING ∧ s.m_transportStatus ≠ .RECORDING then
    some s
  else
    let (newPosition, s) ← driverQuery s .getSequencerTime env.getSequencerTime
    let (newPosition, s) ←
      if isLooping s ∧ newPosition ≥ s.m_loopEnd then do
        let oldPosition := s.m_songPosition
        let s := { s with m_lastFetchSongPosition := s.m_loopStart }
        let s := { s with m_songPosition := s.m_lastFetchSongPosition }
        let newPosition := s.m_songPosition
        let s ← driverCall s .stopClocks
        let s ← driverCall s (.resetPlayback oldPosition s.m_songPosition)
        let (c, s) ← fetchEvents env s [] s.m_songPosition (s.m_songPosition + s.m_readAhead) true
        let s ← driverCall s
          (.processEventsOut c s.m_songPosition (s.m_songPosition + s.m_readAhead))
        let s ← driverCall s .startClocks
        some (newPosition, s)
      else do
        let s := { s with m_songPosition := newPosition }
        let (startPosition, s) ← driverQuery s .getStartPosition env.getStartPosition
        if s.m_songPosition ≤ startPosition then
          driverQuery s .getStartPosition env.getStartPosition
        else some (newPosition, s)
    let (maxLatency, s) ← driverQuery s .getMaximumPlayLatency env.getMaximumPlayLatency
    let newPosition :=
      if maxLatency ≠ RealTime.zeroTime then newPosition - maxLatency else newPosition
    some { s with positionPointer := newPosition }

/-- The constructor `RosegardenSequencer::RosegardenSequencer`. -/
def RosegardenSequencer.new (env : Env) : RosegardenSequencer :=
  let s : RosegardenSequencer :=
    { m_driver := none
      m_transportStatus := .STOPPED
      m_songPosition := RealTime.make 0 0
      m_lastFetchSongPosition := RealTime.make 0 0
      m_readAhead := RealTime.make 0 80000000
      m_audioMix := RealTime.make 0 60000000
      m_audioRead := RealTime.make 0 100000000
      m_audioWrite := RealTime.make 0 200000000
      m_smallFileSize := 128
      m_loopStart := RealTime.make 0 0
      m_loopEnd := RealTime.make 0 0
      m_segmentFilesPath := env.tempPath
      m_mmappedSegments := []
      m_metaIterator := none
      m_lastStartTime := RealTime.make 0 0
      m_transportToken := 1
      m_isEndOfCompReached := false
      m_transportRequests := []
      positionPointer := RealTime.make 0 0 }
  if env.createDriver then
    let d : SoundDriver := ⟨[]⟩
    let d := d.call
      (.setAudioBufferSizes s.m_audioMix s.m_audioRead s.m_audioWrite s.m_smallFileSize)
    let d := d.call .setExternalTransportControl
    { s with m_driver := some d }
  else
    { s with m_transportStatus := .QUIT }

/-- The local `fetchEnd` of `RosegardenSequencer::keepPlaying`: the song
position plus the read-ahead, cut back to one nanosecond before the loop end
when a loop is set and that sum reaches the loop end. -/
def keepPlaying.fetchEnd (s : RosegardenSequencer) : RealTime :=
  if isLooping s ∧ s.m_songPosition + s.m_readAhead ≥ s.m_loopEnd then
    s.m_loopEnd - RealTime.make 0 1
  else s.m_songPosition + s.m_readAhead

/-- `RosegardenSequencer::getNextTransportRequest`: the result, the two output
arguments (given with the values they hold on entry) and the state. -/
def getNextTransportRequest (s : RosegardenSequencer) (request : TransportRequest)
    (time : RealTime) : Bool × TransportRequest × RealTime × RosegardenSequencer :=
  match s.m_transportRequests with
  | [] => (false, request, time, s)
  | pair :: rest => (true, pair.1, pair.2, { s with m_transportRequests := rest })

/-- `RosegardenSequencer::transportChange`. -/
def transportChange (s : RosegardenSequencer) (request : TransportRequest) :
    TransportToken × RosegardenSequencer :=
  let pair := (request, RealTime.zeroTime)
  let s := { s with m_transportRequests := s.m_transportRequests ++ [pair] }
  if request = .TransportNoChange then (s.m_transportToken, s)
  else (s.m_transportToken + 1, s)

/-- `RosegardenSequencer::transportJump`. -/
def transportJump (s : RosegardenSequencer) (request : TransportRequest) (rt : RealTime) :
    TransportToken × RosegardenSequencer :=
  let pair := (request, rt)
  let s := { s with m_transportRequests := s.m_transportRequests ++ [pair] }
  if request = .TransportNoChange then (s.m_transportToken + 1, s)
  else (s.m_transportToken + 2, s)

/-- `RosegardenSequencer::isTransportSyncComplete`. -/
def isTransportSyncComplete (s : RosegardenSequencer) (token : TransportToken) : Bool :=
  decide (s.m_transportToken ≥ token)

/-- One call that queues a transport request. -/
inductive RequestCall where
  | transportChange (request : TransportRequest)
  | transportJump (request : TransportRequest) (rt : RealTime)
deriving DecidableEq, Repr

/-- The state after a queueing call. -/
def RequestCall.apply (s : RosegardenSequencer) : RequestCall → RosegardenSequencer
  | .transportChange request => (Rosegarden.transportChange s request).2
  | .transportJump request rt => (Rosegarden.transportJump s request rt).2

/-- The (request, time) pair a queueing call hands over. -/
def RequestCall.pair : RequestCall → TransportRequest × RealTime
  | .transportChange request => (request, RealTime.zeroTime)
  | .transportJump request rt => (request, rt)

/-- Successive calls of getNextTransportRequest on the same two output
variables: what each call returned and left in them, and the final state. -/
def getNextTransportRequests : Nat → RosegardenSequencer → TransportRequest → RealTime →
    List (Bool × TransportRequest × RealTime) × RosegardenSequencer
  | 0, s, _, _ => ([], s)
  | n + 1, s, request, time =>
    let r := getNextTransportRequest s request time
    let rest := getNextTransportRequests n r.2.2.2 r.2.1 r.2.2.1
    ((r.1, r.2.1, r.2.2.1) :: rest.1, rest.2)

/-- The operations of the engine, with their arguments. -/
inductive Operation where
  | play (time readAhead audioMix audioRead audioWrite : RealTime) (smallFileSize : Int)
  | record (time readAhead audioMix audioRead audioWrite : RealTime) (smallFileSize : Int)
      (recordMode : TransportStatus)
  | stop
  | punchOut
  | jumpTo (pos : RealTime)
  | setLoop (loopStart loopEnd : RealTime)
  | updateClocks
  | quit
  | startPlaying
  | keepPlaying
  | transportChange (request : TransportRequest)
  | transportJump (request : TransportRequest) (rt : RealTime)
  | getNextTransportRequest (request : TransportRequest) (time : RealTime)
  | isTransportSyncComplete (token : TransportToken)
deriving DecidableEq, Repr

/-- The state an operation leaves; `none` when it dereferences a null pointer. -/
def Operation.apply (env : Env) (s : RosegardenSequencer) :
    Operation → Option RosegardenSequencer
  | .play time readAhead audioMix audioRead audioWrite smallFileSize =>
    (Rosegarden.play env s time readAhead audioMix audioRead audioWrite smallFileSize).map Prod.snd
  | .record time readAhead audioMix audioRead audioWrite smallFileSize recordMode =>
    (Rosegarden.record env s time readAhead audioMix audioRead audioWrite smallFileSize recordMode).map
      Prod.snd
  | .stop => Rosegarden.stop s
  | .punchOut => (Rosegarden.punchOut s).map Prod.snd
  | .jumpTo pos => Rosegarden.jumpTo env s pos
  | .setLoop loopStart loopEnd => Rosegarden.setLoop s loopStart loopEnd
  | .updateClocks => Rosegarden.updateClocks env s
  | .quit => some (Rosegarden.quit s)
  | .startPlaying => (Rosegarden.startPlaying env s).map Prod.snd
  | .keepPlaying => (Rosegarden.keepPlaying env s).map Prod.snd
  | .transportChange request => some (Rosegarden.transportChange s request).2
  | .transportJump request rt => some (Rosegarden.transportJump s request rt).2
  | .getNextTransportRequest request time => some (Rosegarden.getNextTransportRequest s request time).2.2.2
  | .isTransportSyncComplete _ => some s

/-- A sequence of operations, one after the other. -/
def run (env : Env) (s : RosegardenSequencer) : List Operation → Option RosegardenSequencer
  | [] => some s
  | op :: ops =>
    match op.apply env s with
    | none => none
    | some s' => run env s' ops

/-! ## Loop bounds of the composition (`Composition.h`) -/

/-- Tick time `timeT`, a signed integer. -/
abbrev timeT := Int

/-- The loop members of `Composition`. -/
structure Composition where
  m_loopStart : timeT
  m_loopEnd : timeT
deriving DecidableEq, Repr

/-- `Composition::getLoopStart`. -/
def Composition.getLoopStart (c : Composition) : timeT := c.m_loopStart

/-- `Composition::getLoopEnd`. -/
def Composition.getLoopEnd (c : Composition) : timeT := c.m_loopEnd

/-- `Composition::setLoopStart`. -/
def Composition.setLoopStart (c : Composition) (lS : timeT) : Composition :=
  { c with m_loopStart := lS }

/-- `Composition::setLoopEnd`. -/
def Composition.setLoopEnd (c : Composition) (lE : timeT) : Composition :=
  { c with m_loopEnd := lE }

/-- `Composition::isLooping`. -/
def Composition.isLooping (c : Composition) : Bool :=
  c.m_loopStart != c.m_loopEnd

/-! ## Filtering of recorded events -/

/-- `RosegardenSequencer::applyFiltering`: the loop over the batch, in iteration
order.  `erase(i)` takes the event the iterator stands at out of the batch and
leaves every other event in place.  `CONTROL_DEVICE` is the constant
`Device::CONTROL_DEVICE`, declared outside the sources; the event type and the
filter are unsigned bit masks. -/
def applyFiltering (CONTROL_DEVICE : Nat) (mC : MappedComposition) (filter : Nat)
    (filterControlDevice : Bool) : MappedComposition :=
  match mC with
  | [] => []
  | i :: rest =>
    if (i.type &&& filter) ≠ 0 ∨
        (filterControlDevice = true ∧ i.recordedDevice = CONTROL_DEVICE) then
      applyFiltering CONTROL_DEVICE rest filter filterControlDevice
    else
      i :: applyFiltering CONTROL_DEVICE rest filter filterControlDevice

/-! ## The studio (`Studio.cpp`) -/

/-- Device identifiers (`unsigned int` in the source). -/
abbrev DeviceId := Nat

/-- Buss identifiers (`unsigned int` in the source). -/
abbrev BussId := Nat

/-- The kinds of device `Studio::addDevice` distinguishes. -/
inductive DeviceType where
  | Midi
  | Audio
  | SoftSynth
deriving DecidableEq, Repr

/-- An instrument, as far as the studio looks at it: its id. -/
structure Instrument where
  m_id : InstrumentId
deriving DecidableEq, Repr

/-- A device, as far as the studio looks at it: its id, its type and the list
`getAllInstruments()` returns. -/
structure Device where
  m_id : DeviceId
  m_type : DeviceType
  m_instruments : List Instrument
deriving DecidableEq, Repr

/-- A buss, as far as the studio looks at it: its id. -/
structure Buss where
  m_id : BussId
deriving DecidableEq, Repr

/-- The members of `Studio` used by the buss and device operations; the record
inputs are only counted. -/
structure Studio where
  m_busses : List Buss
  m_recordIns : Nat
  m_devices : List Device
deriving DecidableEq, Repr

/-- `Studio::addDevice`.  The instruments a device constructor creates are
decided outside the sources and given by `newInstruments`. -/
def Studio.addDevice (newInstruments : DeviceType → DeviceId → InstrumentId → List Instrument)
    (st : Studio) (id : DeviceId) (baseInstrumentId : InstrumentId) (type : DeviceType) :
    Studio :=
  { st with m_devices := st.m_devices ++ [⟨id, type, newInstruments type id baseInstrumentId⟩] }

/-- The constructor `Studio::Studio`: the master buss with id zero, one record
input, the audio device and the soft synth device. -/
def Studio.new (newInstruments : DeviceType → DeviceId → InstrumentId → List Instrument)
    (AudioInstrumentBase SoftSynthInstrumentBase : InstrumentId) : Studio :=
  let st : Studio := { m_busses := [⟨0⟩], m_recordIns := 1, m_devices := [] }
  let st := st.addDevice newInstruments AudioInstrumentBase AudioInstrumentBase .Audio
  st.addDevice newInstruments SoftSynthInstrumentBase SoftSynthInstrumentBase .SoftSynth

/-- The loop of `Studio::getBussById`: the first buss with the id, `none` for
the null pointer. -/
def Studio.getBussById.loop (id : BussId) : List Buss → Option Buss
  | [] => none
  | i :: rest => if i.m_id = id then some i else Studio.getBussById.loop id rest

/-- `Studio::getBussById`. -/
def Studio.getBussById (st : Studio) (id : BussId) : Option Buss :=
  Studio.getBussById.loop id st.m_busses

/-- `Studio::addBuss`. -/
def Studio.addBuss (st : Studio) (buss : Buss) : Studio :=
  { st with m_busses := st.m_busses ++ [buss] }

/-- The loop of `Studio::removeBuss`: the first buss with the id is erased. -/
def Studio.removeBuss.loop (id : BussId) : List Buss → List Buss
  | [] => []
  | i :: rest => if i.m_id = id then rest else i :: Studio.removeBuss.loop id rest

/-- `Studio::removeBuss`. -/
def Studio.removeBuss (st : Studio) (id : BussId) : Studio :=
  { st with m_busses := Studio.removeBuss.loop id st.m_busses }

/-- `Studio::clearBusses`. -/
def Studio.clearBusses (st : Studio) : Studio :=
  { st with m_busses := [⟨0⟩] }

/-- The inner loop of `Studio::getSpareDeviceId` over the instruments of one
MIDI device: the locals `highestMidiInstrumentId` and `foundInstrument`. -/
def Studio.getSpareDeviceId.instruments (il : List Instrument) (acc : InstrumentId × Bool) :
    InstrumentId × Bool :=
  il.foldl (fun acc i => if i.m_id > acc.1 then (i.m_id, true) else acc) acc

/-- The outer loop of `Studio::getSpareDeviceId` over the devices: the locals
`highestMidiInstrumentId`, `foundInstrument` and the set `ids`. -/
def Studio.getSpareDeviceId.devices (devices : List Device)
    (acc : InstrumentId × Bool × List DeviceId) : InstrumentId × Bool × List DeviceId :=
  devices.foldl
    (fun acc d =>
      let ids := d.m_id :: acc.2.2
      if d.m_type = .Midi then
        let r := Studio.getSpareDeviceId.instruments d.m_instruments (acc.1, acc.2.1)
        (r.1, r.2, ids)
      else (acc.1, acc.2.1, ids))
    acc

/-- The final loop of `Studio::getSpareDeviceId`:
`while (ids.find(id) != ids.end()) ++id`. -/
def Studio.getSpareDeviceId.search (ids : List DeviceId) (id : DeviceId) : DeviceId :=
  if id ∈ ids then Studio.getSpareDeviceId.search ids (id + 1) else id
termination_by (ids.foldr max 0 + 1) - id
decreasing_by
  have hmax : ∀ l : List DeviceId, id ∈ l → id ≤ l.foldr max 0 := by
    intro l
    induction l with
    | nil => intro h; simp at h
    | cons a l ih =>
      intro h
      rcases List.mem_cons.1 h with h | h
      · simp [h]
      · have := ih h
        simp only [List.foldr_cons]
        exact Nat.le_trans this (Nat.le_max_right _ _)
  have hle : id ≤ ids.foldr max 0 := hmax ids (by assumption)
  exact Nat.sub_lt_sub_left (Nat.lt_succ_of_le hle) (Nat.lt_succ_self id)

/-- `Studio::getSpareDeviceId`: the returned device id, the value written to
`baseInstrumentId`, and the studio afterwards.  `MidiInstrumentBase` is declared
outside the sources. -/
def Studio.getSpareDeviceId (MidiInstrumentBase : InstrumentId) (st : Studio) :
    DeviceId × InstrumentId × Studio :=
  let r := Studio.getSpareDeviceId.devices st.m_devices (MidiInstrumentBase, false, [])
  let highestMidiInstrumentId := r.1
  let foundInstrument := r.2.1
  let ids := r.2.2
  let baseInstrumentId :=
    if ¬ foundInstrument then MidiInstrumentBase
    else ((highestMidiInstrumentId / 128) + 1) * 128
  (Studio.getSpareDeviceId.search ids 0, baseInstrumentId, st)

/-! ## The Stream Merger, after section 4.3 of the specification -/

/-- Modelled from the spec: the cursors of the Stream Merger
(`MmappedSegmentsMetaIterator`, whose code is not among the sources), kept as
the unread part of each stream, in registration order. -/
abbrev StreamMerger := List (List MappedEvent)

/-- Modelled from the spec: the streams a merger owns, in registration order. -/
def MmappedSegmentsMetaIterator.streams (m : MmappedSegmentsMetaIterator) :
    List (List MappedEvent) :=
  m.segments.map (fun p => p.2.events)

/-- Modelled from the spec: `jumpToTime(t)` discards the per-stream cursors and
re-seeks each stream to its first event at or after `t`. -/
def StreamMerger.jumpToTime (streams : List (List MappedEvent)) (t : RealTime) : StreamMerger :=
  streams.map (fun st => st.dropWhile (fun e => decide (e.eventTime < t)))

/-- Modelled from the spec: the events one stream gives to a fill: the unread
events before `finish` are passed, those of them at or after `start` are
emitted. -/
def StreamMerger.emitted (start finish : RealTime) (st : List MappedEvent) : List MappedEvent :=
  (st.takeWhile (fun e => decide (e.eventTime < finish))).filter
    (fun e => decide (start ≤ e.eventTime))

/-- Modelled from the spec: `fillUntil(firstFetch, outBatch, start, end)`
advances every cursor past the events before `end`, emits those with time in
[start, end) into a single batch ordered by event time, ties in stream
registration order, and tells whether any stream has unread events left.  The
result is the batch, that flag and the cursors afterwards. -/
def StreamMerger.fillUntil (m : StreamMerger) (_firstFetch : Bool) (outBatch : MappedComposition)
    (start finish : RealTime) : MappedComposition × Bool × StreamMerger :=
  let rest := m.map (fun st => st.dropWhile (fun e => decide (e.eventTime < finish)))
  (List.insertionSort (fun a b => a.eventTime ≤ b.eventTime)
      (outBatch ++ (m.map (StreamMerger.emitted start finish)).flatten),
    rest.any (fun st => !st.isEmpty), rest)

/-- Modelled from the spec: the cursors after one more call; `getAudioEvents`
does not move them. -/
def StreamMerger.step (streams : List (List MappedEvent)) (m : StreamMerger) :
    IterCall → StreamMerger
  | .jumpToTime t => StreamMerger.jumpToTime streams t
  | .fillCompositionWithEventsUntil firstFetch start finish =>
    (StreamMerger.fillUntil m firstFetch [] start finish).2.2
  | .getAudioEvents => m

/-- Modelled from the spec: the cursors of a merger object after the calls it
has received, starting with every cursor at the head of its stream. -/
def MmappedSegmentsMetaIterator.cursors (m : MmappedSegmentsMetaIterator) : StreamMerger :=
  m.log.foldl (StreamMerger.step m.streams) m.streams

/-- Modelled from the spec: the answer of `fillCompositionWithEventsUntil` of a
merger object that has received the calls in its log. -/
def MmappedSegmentsMetaIterator.fillCompositionWithEventsUntil (m : MmappedSegmentsMetaIterator)
    (firstFetch : Bool) (outBatch : MappedComposition) (start finish : RealTime) :
    MappedComposition × Bool :=
  let r := StreamMerger.fillUntil m.cursors firstFetch outBatch start finish
  (r.1, r.2.1)

/-- Nanoseconds in one minute, times the tempo scale 10⁵. -/
def nsPerMinuteScaled : Int := 6000000000000000

/-- The length of a real time in nanoseconds. -/
def RealTime.toNanoseconds (t : RealTime) : Int := t.sec * RealTime.nsPerS + t.nsec

/-- Modelled from the spec: a checkpoint of the Tempo/Meter Timeline, the tick
and the real time at which a tempo event with no target (a flat region)
starts, and its tempo in quarter notes per minute times 10⁵. -/
structure TempoCheckpoint where
  tick : timeT
  time : RealTime
  tempo : Int
deriving DecidableEq, Repr

/-- Modelled from the spec: `Composition::getElapsedRealTime` (declared in
Composition.h, its body is not among the sources) for a tick inside the flat
region of a checkpoint: the checkpoint time plus the closed form
ticks · 60 s · 10⁵ / (tempo · ticks per quarter note).  The specification does
not fix how the quotient is rounded to a nanosecond: `round n d` is the integer
taken for n / d. -/
def TempoCheckpoint.getElapsedRealTime (round : Int → Int → Int) (ticksPerQuarter : Int)
    (c : TempoCheckpoint) (t : timeT) : RealTime :=
  c.time + RealTime.make 0
    (round ((t - c.tick) * nsPerMinuteScaled) (c.tempo * ticksPerQuarter))

/-- Modelled from the spec: `Composition::getElapsedTimeForRealTime` (declared
in Composition.h, its body is not among the sources) for a real time inside the
flat region of a checkpoint: the local inverse of the closed form, rounded to a
tick by `round`. -/
def TempoCheckpoint.getElapsedTimeForRealTime (round : Int → Int → Int) (ticksPerQuarter : Int)
    (c : TempoCheckpoint) (t : RealTime) : timeT :=
  c.tick + round ((t - c.time).toNanoseconds * (c.tempo * ticksPerQuarter)) nsPerMinuteScaled

/-! ## Sample collaborators and states -/

/-- A sample event on the given instrument at the given time. -/
def demoEvent (instrument : InstrumentId) (t : RealTime) : MappedEvent :=
  { instrument := instrument, type := 1, data1 := 60, data2 := 100, eventTime := t,
    duration := ⟨0, 250000000⟩, audioStartMarker := ⟨0, 0⟩, recordedChannel := 0,
    recordedDevice := 0 }

/-- A sample latency table: 10 ms for instrument 1000, 30 ms for every other. -/
def demoLatency (i : InstrumentId) : RealTime :=
  if i = 1000 then ⟨0, 10000000⟩ else ⟨0, 30000000⟩

/-- A sample environment: an audio and a MIDI instrument are armed, every file
is created and mapped, the driver accepts recording, reports that it plays and
that its clock stands at 3 s, and its maximum play latency is 30 ms.  The
merger hands over the events of its segments that lie inside the window. -/
def demoEnv : Env :=
  { AudioInstrumentBase := 1000
    MidiInstrumentBase := 2000
    getArmedInstruments := [1000, 2000]
    createRecordAudioFiles := fun l => l.map (fun _ => "take.wav")
    tempPath := "/tmp"
    segmentsDir := fun _ => ["segment_0"]
    fileExists := fun _ => true
    newMmappedSegment := fun f => some ⟨f, []⟩
    createDriver := true
    driverRecord := fun _ _ _ _ => true
    isPlaying := fun _ => true
    getSequencerTime := fun _ => ⟨3, 0⟩
    getStartPosition := fun _ => ⟨0, 0⟩
    getMaximumPlayLatency := fun _ => ⟨0, 30000000⟩
    getInstrumentPlayLatency := fun _ i => demoLatency i
    fillCompositionWithEventsUntil := fun it _ c start finish =>
      (c ++ ((it.segments.map (fun p => p.2.events)).flatten.filter
        (fun e => decide (start ≤ e.eventTime ∧ e.eventTime < finish))), false)
    getAudioEvents := fun _ => [] }

/-- The sample environment with an authoring side that creates no audio file. -/
def demoEnvNoFiles : Env :=
  { demoEnv with createRecordAudioFiles := fun _ => [] }

/-- The sample environment with a driver that refuses to record. -/
def demoEnvRefusing : Env :=
  { demoEnv with driverRecord := fun _ _ _ _ => false }

/-- The sample environment with a driver that reports it is not playing. -/
def demoEnvIdle : Env :=
  { demoEnv with isPlaying := fun _ => false }

/-- A sample mapped segment with events at 1.2 s and 1.7 s. -/
def demoSegment : MmappedSegment :=
  ⟨"/tmp/segment_0", [demoEvent 1000 ⟨1, 200000000⟩, demoEvent 2000 ⟨1, 700000000⟩]⟩

/-- A sample state: playing at 1.5 s with a loop over [1 s, 2 s), one second of
read-ahead, one mapped segment and a fresh driver log. -/
def demoPlaying : RosegardenSequencer :=
  { m_driver := some ⟨[]⟩
    m_transportStatus := .PLAYING
    m_songPosition := ⟨1, 500000000⟩
    m_lastFetchSongPosition := ⟨1, 900000000⟩
    m_readAhead := ⟨1, 0⟩
    m_audioMix := ⟨0, 60000000⟩
    m_audioRead := ⟨0, 100000000⟩
    m_audioWrite := ⟨0, 200000000⟩
    m_smallFileSize := 128
    m_loopStart := ⟨1, 0⟩
    m_loopEnd := ⟨2, 0⟩
    m_segmentFilesPath := "/tmp"
    m_mmappedSegments := [("/tmp/segment_0", demoSegment)]
    m_metaIterator := some ⟨[("/tmp/segment_0", demoSegment)], []⟩
    m_lastStartTime := ⟨1, 0⟩
    m_transportToken := 5
    m_isEndOfCompReached := false
    m_transportRequests := []
    positionPointer := ⟨1, 500000000⟩ }

/-- The sample state while recording. -/
def demoRecording : RosegardenSequencer :=
  { demoPlaying with m_transportStatus := .RECORDING }

/-- A sample stopped state: nothing mapped, positions at zero. -/
def demoStopped : RosegardenSequencer :=
  { demoPlaying with
    m_transportStatus := .STOPPED
    m_songPosition := ⟨0, 0⟩
    m_lastFetchSongPosition := ⟨0, 0⟩
    m_mmappedSegments := []
    m_metaIterator := none }

/-- The sample state after stop(): stopping, nothing mapped, positions at zero. -/
def demoStopping : RosegardenSequencer :=
  { demoStopped with m_transportStatus := .STOPPING }

/-- The sample playing state with equal loop bounds (no loop) . -/
def demoPlayingNoLoop : RosegardenSequencer :=
  { demoPlaying with m_loopEnd := ⟨1, 0⟩ }

/-- The sample environment with a driver factory that returns no driver. -/
def demoEnvNoDriver : Env :=
  { demoEnv with createDriver := false }

/-- A sample jump target, 1.25 s. -/
def demoTarget : RealTime := ⟨1, 250000000⟩

/-- A sample studio: the master buss, the audio device and one MIDI device whose
only instrument has the id 2000. -/
def demoStudio : Studio :=
  { m_busses := [⟨0⟩]
    m_recordIns := 1
    m_devices := [⟨1000, .Audio, [⟨1000⟩, ⟨1001⟩]⟩, ⟨0, .Midi, [⟨2000⟩]⟩] }

theorem commands_append (l₁ l₂ : List DriverCall) :
    commands (l₁ ++ l₂) = commands l₁ ++ commands l₂ := by
  simp [commands]

theorem RealTime.not_lt_iff_le (a b : RealTime) : ¬ a < b ↔ b ≤ a := by
  show ¬ RealTime.lt a b ↔ RealTime.le b a
  unfold RealTime.lt RealTime.le
  omega

/-- With a fixed latency table the compensation loop shifts every event time. -/
theorem applyLatencyCompensation.loop_fst (env : Env) (M : RealTime)
    (lat : InstrumentId → RealTime)
    (hlat : ∀ log i, env.getInstrumentPlayLatency log i = lat i)
    (c : List MappedEvent) (d : SoundDriver) :
    (applyLatencyCompensation.loop env M d c).1 =
      c.map (fun e => { e with eventTime := e.eventTime + M - lat e.instrument }) := by
  induction c generalizing d with
  | nil => simp [applyLatencyCompensation.loop]
  | cons e es ih => simp [applyLatencyCompensation.loop, ih, hlat]

/-- The compensation loop only sends queries to the driver. -/
theorem applyLatencyCompensation.loop_snd (env : Env) (M : RealTime)
    (c : List MappedEvent) (d : SoundDriver) :
    ∃ qs, (applyLatencyCompensation.loop env M d c).2 = ⟨d.log ++ qs⟩ ∧ commands qs = [] := by
  induction c generalizing d with
  | nil => exact ⟨[], by simp [applyLatencyCompensation.loop], rfl⟩
  | cons e es ih =>
    obtain ⟨qs, h1, h2⟩ := ih (d.call (.getInstrumentPlayLatency e.instrument))
    refine ⟨.getInstrumentPlayLatency e.instrument :: qs, ?_, ?_⟩
    · simp only [applyLatencyCompensation.loop, h1]
      simp [SoundDriver.call]
    · simpa [commands, DriverCall.isQuery] using h2

/-- Latency compensation returns a batch and only sends queries to the driver. -/
theorem applyLatencyCompensation_frame (env : Env) (s : RosegardenSequencer) (d : SoundDriver)
    (c : MappedComposition) (hd : s.m_driver = some d) :
    ∃ batch qs, applyLatencyCompensation env s c =
        some (batch, { s with m_driver := some ⟨d.log ++ qs⟩ }) ∧ commands qs = [] := by
  unfold applyLatencyCompensation
  rw [hd]
  by_cases hM : env.getMaximumPlayLatency d.log = RealTime.zeroTime
  · refine ⟨c, [.getMaximumPlayLatency], ?_, rfl⟩
    simp [hM, SoundDriver.call]
  · obtain ⟨qs, h1, h2⟩ := applyLatencyCompensation.loop_snd env
      (env.getMaximumPlayLatency d.log) c (d.call .getMaximumPlayLatency)
    refine ⟨(applyLatencyCompensation.loop env (env.getMaximumPlayLatency d.log)
      (d.call .getMaximumPlayLatency) c).1, .getMaximumPlayLatency :: qs, ?_, ?_⟩
    · simp only [hM, if_false, h1]
      simp [SoundDriver.call]
    · simpa [commands, DriverCall.isQuery] using h2

/-- When the transport is stopped or stopping, nothing is fetched. -/
theorem fetchEvents_stopped (env : Env) (s : RosegardenSequencer) (c : MappedComposition)
    (start finish : RealTime) (firstFetch : Bool)
    (hs : s.m_transportStatus = .STOPPED ∨ s.m_transportStatus = .STOPPING) :
    fetchEvents env s c start finish firstFetch = some (c, s) := by
  simp [fetchEvents, hs]

/-- While the transport runs, a fetch calls the meta-iterator and only queries the driver. -/
theorem fetchEvents_running (env : Env) (s : RosegardenSequencer) (d : SoundDriver)
    (it : MmappedSegmentsMetaIterator) (c : MappedComposition)
    (start finish : RealTime) (firstFetch : Bool)
    (hd : s.m_driver = some d) (hit : s.m_metaIterator = some it)
    (h1 : s.m_transportStatus ≠ .STOPPED) (h2 : s.m_transportStatus ≠ .STOPPING) :
    ∃ batch qs, commands qs = [] ∧
      fetchEvents env s c start finish firstFetch =
        some (batch, { s with
          m_driver := some ⟨d.log ++ qs⟩
          m_metaIterator := some
            ((if firstFetch ∨ start < s.m_lastStartTime then it.call (.jumpToTime start)
              else it).call (.fillCompositionWithEventsUntil firstFetch start finish))
          m_lastStartTime := start }) := by
  simp only [fetchEvents, h1, h2, or_self, if_false, getSlice, hit]
  obtain ⟨batch, qs, h, hq⟩ := applyLatencyCompensation_frame env
    { s with
      m_metaIterator := some
        ((if firstFetch ∨ start < s.m_lastStartTime then it.call (.jumpToTime start)
          else it).call (.fillCompositionWithEventsUntil firstFetch start finish))
      m_lastStartTime := start } d
    (env.fillCompositionWithEventsUntil
      (if firstFetch ∨ start < s.m_lastStartTime then it.call (.jumpToTime start) else it)
      firstFetch c start finish).1 hd
  exact ⟨batch, qs, hq, h⟩

/-- A fetch changes at most the driver log (by queries), the log of the
meta-iterator and the last start time. -/
theorem fetchEvents_frame (env : Env) (s : RosegardenSequencer) (d : SoundDriver)
    (c : MappedComposition) (start finish : RealTime) (firstFetch : Bool)
    (hd : s.m_driver = some d)
    (hit : s.m_metaIterator.isSome ∨ s.m_transportStatus = .STOPPED ∨
      s.m_transportStatus = .STOPPING) :
    ∃ batch qs, commands qs = [] ∧
      fetchEvents env s c start finish firstFetch =
        some (batch, { s with
          m_driver := some ⟨d.log ++ qs⟩
          m_metaIterator := s.m_metaIterator.map (fun it => ⟨it.segments, it.log ++
            if s.m_transportStatus = .STOPPED ∨ s.m_transportStatus = .STOPPING then []
            else (if firstFetch ∨ start < s.m_lastStartTime then [.jumpToTime start] else []) ++
              [.fillCompositionWithEventsUntil firstFetch start finish]⟩)
          m_lastStartTime :=
            if s.m_transportStatus = .STOPPED ∨ s.m_transportStatus = .STOPPING then
              s.m_lastStartTime
            else start }) := by
  by_cases hs : s.m_transportStatus = .STOPPED ∨ s.m_transportStatus = .STOPPING
  · refine ⟨c, [], rfl, ?_⟩
    rw [fetchEvents_stopped env s c start finish firstFetch hs]
    obtain ⟨drv, st, sp, lf, ra, am, ar, aw, sf, ls, le, pa, sg, mi, lt, tk, eo, tr, pp⟩ := s
    cases mi <;> simp_all
  · have h1 : s.m_transportStatus ≠ .STOPPED := fun h => hs (Or.inl h)
    have h2 : s.m_transportStatus ≠ .STOPPING := fun h => hs (Or.inr h)
    rcases hit with hit | hit | hit
    · obtain ⟨it, hit⟩ := Option.isSome_iff_exists.mp hit
      obtain ⟨batch, qs, hq, h⟩ :=
        fetchEvents_running env s d it c start finish firstFetch hd hit h1 h2
      refine ⟨batch, qs, hq, ?_⟩
      rw [h, hit]
      by_cases hj : firstFetch = true ∨ start < s.m_lastStartTime <;>
        simp [hs, hj, MmappedSegmentsMetaIterator.call]
    · exact absurd hit h1
    · exact absurd hit h2

/-- Mapping a segment file changes only the segment table. -/
theorem mmapSegment_frame (env : Env) (s : RosegardenSequencer) (file : String) :
    ∃ segs, mmapSegment env s file = { s with m_mmappedSegments := segs } := by
  unfold mmapSegment
  cases env.newMmappedSegment file with
  | none => exact ⟨s.m_mmappedSegments, rfl⟩
  | some m => exact ⟨_, rfl⟩

/-- Mapping every segment file of the directory changes only the segment table. -/
theorem mmapSegment_foldl_frame (env : Env) (files : List String) (s : RosegardenSequencer) :
    ∃ segs, files.foldl (fun s f => mmapSegment env s (s.m_segmentFilesPath ++ "/" ++ f)) s =
      { s with m_mmappedSegments := segs } := by
  induction files generalizing s with
  | nil => exact ⟨s.m_mmappedSegments, rfl⟩
  | cons f fs ih =>
    obtain ⟨segs₁, h₁⟩ := mmapSegment_frame env s (s.m_segmentFilesPath ++ "/" ++ f)
    obtain ⟨segs₂, h₂⟩ := ih { s with m_mmappedSegments := segs₁ }
    exact ⟨segs₂, by rw [List.foldl_cons, h₁, h₂]⟩

/-- An optional mapping of one more file changes only the segment table. -/
theorem mmapSegment_ite_frame (env : Env) (s : RosegardenSequencer) (b : Bool) (file : String) :
    ∃ segs, (if b then mmapSegment env s file else s) = { s with m_mmappedSegments := segs } := by
  cases b with
  | false => exact ⟨s.m_mmappedSegments, rfl⟩
  | true => simpa using mmapSegment_frame env s file

/-- Mapping the segments in play changes only the segment table. -/
theorem play.mapSegments_frame (env : Env) (s : RosegardenSequencer) :
    play.mapSegments env s =
      { s with m_mmappedSegments := (play.mapSegments env s).m_mmappedSegments } := by
  obtain ⟨g₀, h₀⟩ := mmapSegment_foldl_frame env (env.segmentsDir s.m_segmentFilesPath) s
  obtain ⟨g₁, h₁⟩ := mmapSegment_ite_frame env { s with m_mmappedSegments := g₀ }
    (env.fileExists (env.tempPath ++ "/rosegarden_metronome"))
    (env.tempPath ++ "/rosegarden_metronome")
  obtain ⟨g₂, h₂⟩ := mmapSegment_ite_frame env { s with m_mmappedSegments := g₁ }
    (env.fileExists (env.tempPath ++ "/rosegarden_tempo"))
    (env.tempPath ++ "/rosegarden_tempo")
  obtain ⟨g₃, h₃⟩ := mmapSegment_ite_frame env { s with m_mmappedSegments := g₂ }
    (env.fileExists (env.tempPath ++ "/rosegarden_timesig"))
    (env.tempPath ++ "/rosegarden_timesig")
  have h : play.mapSegments env s = { s with m_mmappedSegments := g₃ } := by
    unfold play.mapSegments
    simp only [h₀, h₁, h₂, h₃]
  rw [h]

/-- From a status other than PLAYING, STARTING_TO_PLAY and RECORDING, play
succeeds: it takes the start time, stops the clocks, stores the buffer sizes
and maps the segments anew. -/
theorem play_fresh (env : Env) (s : RosegardenSequencer) (d : SoundDriver)
    (time readAhead audioMix audioRead audioWrite : RealTime) (smallFileSize : Int)
    (hd : s.m_driver = some d)
    (h1 : s.m_transportStatus ≠ .PLAYING) (h2 : s.m_transportStatus ≠ .STARTING_TO_PLAY)
    (h3 : s.m_transportStatus ≠ .RECORDING) :
    ∃ segs, play env s time readAhead audioMix audioRead audioWrite smallFileSize =
      some (true, { s with
        m_driver := some ⟨d.log ++ [.stopClocks,
          .setAudioBufferSizes audioMix audioRead audioWrite smallFileSize]⟩
        m_transportStatus :=
          if s.m_transportStatus = .STARTING_TO_RECORD then .STARTING_TO_RECORD
          else .STARTING_TO_PLAY
        m_songPosition := time
        positionPointer := time
        m_readAhead :=
          if readAhead = RealTime.zeroTime then { readAhead with sec := 1 } else readAhead
        m_audioMix := audioMix
        m_audioRead := audioRead
        m_audioWrite := audioWrite
        m_smallFileSize := smallFileSize
        m_mmappedSegments := segs
        m_metaIterator := some ⟨segs, []⟩ }) := by
  unfold play
  by_cases h4 : s.m_transportStatus = .STARTING_TO_RECORD <;>
  by_cases h5 : readAhead = RealTime.zeroTime <;>
  · simp only [h1, h2, h3, h4, h5, or_self, if_false, if_true, driverCall, hd, SoundDriver.call,
      Option.bind_eq_bind, Option.some_bind, cleanupMmapData, initMetaIterator, ne_eq,
      not_false_eq_true, true_and, and_self, and_false, and_true, not_true_eq_false,
      List.append_assoc, List.singleton_append]
    rw [play.mapSegments_frame]
    exact ⟨_, rfl⟩

/-- The complete effect of startPlaying on a state with a driver and a meta-iterator. -/
theorem startPlaying_eq (env : Env) (s : RosegardenSequencer) (d : SoundDriver)
    (it : MmappedSegmentsMetaIterator)
    (hd : s.m_driver = some d) (hit : s.m_metaIterator = some it) :
    ∃ batch s₂ d₂ it₂,
      fetchEvents env
        { s with
          m_driver := some ⟨d.log ++ [.initialisePlayback s.m_songPosition]⟩
          m_lastFetchSongPosition := s.m_songPosition + s.m_readAhead }
        [] s.m_songPosition (s.m_songPosition + s.m_readAhead) true = some (batch, s₂) ∧
      s₂.m_driver = some d₂ ∧ s₂.m_metaIterator = some it₂ ∧
      commands d₂.log = commands d.log ++ [.initialisePlayback s.m_songPosition] ∧
      it₂ = ⟨it.segments, it.log ++
        if s.m_transportStatus = .STOPPED ∨ s.m_transportStatus = .STOPPING then []
        else [.jumpToTime s.m_songPosition,
          .fillCompositionWithEventsUntil true s.m_songPosition
            (s.m_songPosition + s.m_readAhead)]⟩ ∧
      startPlaying env s = some (true, { s₂ with
        m_driver := some ⟨d₂.log ++
          [.processEventsOut batch s.m_songPosition (s.m_songPosition + s.m_readAhead),
           .initialiseAudioQueue (env.getAudioEvents it₂), .startClocks]⟩
        m_metaIterator := some ⟨it₂.segments, it₂.log ++ [.getAudioEvents]⟩
        m_transportToken := s.m_transportToken + 1 }) ∧
      s₂.m_lastFetchSongPosition = s.m_songPosition + s.m_readAhead ∧
      s₂.m_songPosition = s.m_songPosition ∧
      s₂.m_transportToken = s.m_transportToken := by
  obtain ⟨batch, qs, hq, hf⟩ := fetchEvents_frame env
    { s with
      m_driver := some ⟨d.log ++ [.initialisePlayback s.m_songPosition]⟩
      m_lastFetchSongPosition := s.m_songPosition + s.m_readAhead }
    (d.log ++ [.initialisePlayback s.m_songPosition] |> SoundDriver.mk)
    [] s.m_songPosition (s.m_songPosition + s.m_readAhead) true rfl
    (Or.inl (by simp [hit]))
  refine ⟨batch, _, ⟨d.log ++ [.initialisePlayback s.m_songPosition] ++ qs⟩,
    ⟨it.segments, it.log ++
        if s.m_transportStatus = .STOPPED ∨ s.m_transportStatus = .STOPPING then []
        else [.jumpToTime s.m_songPosition,
          .fillCompositionWithEventsUntil true s.m_songPosition
            (s.m_songPosition + s.m_readAhead)]⟩, hf, rfl, ?_, ?_, rfl, ?_, rfl, rfl, rfl⟩
  · by_cases hs : s.m_transportStatus = .STOPPED ∨ s.m_transportStatus = .STOPPING <;>
      simp [hit, hs]
  · rw [commands_append, commands_append, hq, List.append_nil]
    simp [commands, DriverCall.isQuery]
  · simp only [startPlaying, driverCall, hd, SoundDriver.call, Option.bind_eq_bind,
      Option.some_bind, hf]
    by_cases hs : s.m_transportStatus = .STOPPED ∨ s.m_transportStatus = .STOPPING <;>
      simp [hs, hit, metaIteratorGetAudioEvents, incrementTransportToken,
        MmappedSegmentsMetaIterator.call]

/-- The complete effect of jumpTo at a non-negative position when the driver
reports that it is not playing. -/
theorem jumpTo_not_playing (env : Env) (s : RosegardenSequencer) (d : SoundDriver)
    (pos : RealTime) (hpos : ¬ pos < RealTime.zeroTime) (hd : s.m_driver = some d)
    (hp : env.isPlaying (d.log ++ [.stopClocks, .resetPlayback s.m_songPosition pos]) = false) :
    jumpTo env s pos = some { s with
      m_driver := some ⟨d.log ++
        [.stopClocks, .resetPlayback s.m_songPosition pos, .isPlaying, .startClocks]⟩
      m_songPosition := pos
      m_lastFetchSongPosition := pos
      positionPointer := pos
      m_transportToken := s.m_transportToken + 1 } := by
  simp only [jumpTo, hpos, if_false, driverCall, driverQuery, hd, SoundDriver.call,
    Option.bind_eq_bind, Option.some_bind, List.append_assoc, List.singleton_append,
    List.cons_append, List.nil_append, hp, incrementTransportToken, Bool.false_eq_true]

/-- The complete effect of jumpTo at a non-negative position when the driver
reports that it is playing. -/
theorem jumpTo_playing (env : Env) (s : RosegardenSequencer) (d : SoundDriver)
    (pos : RealTime) (hpos : ¬ pos < RealTime.zeroTime) (hd : s.m_driver = some d)
    (hit : s.m_metaIterator.isSome ∨ s.m_transportStatus = .STOPPED ∨
      s.m_transportStatus = .STOPPING)
    (hp : env.isPlaying (d.log ++ [.stopClocks, .resetPlayback s.m_songPosition pos]) = true) :
    ∃ batch s₂ d₂,
      fetchEvents env
        { s with
          m_driver := some ⟨d.log ++
            [.stopClocks, .resetPlayback s.m_songPosition pos, .isPlaying]⟩
          m_songPosition := pos
          m_lastFetchSongPosition := pos
          positionPointer := pos }
        [] pos (pos + s.m_readAhead) true = some (batch, s₂) ∧
      s₂.m_driver = some d₂ ∧
      commands d₂.log = commands d.log ++ [.stopClocks, .resetPlayback s.m_songPosition pos] ∧
      jumpTo env s pos = some { s₂ with
        m_driver := some ⟨d₂.log ++
          [.processEventsOut batch pos (pos + s.m_readAhead), .startClocks]⟩
        m_transportToken := s.m_transportToken + 1 } ∧
      s₂.m_songPosition = pos ∧ s₂.m_lastFetchSongPosition = pos ∧
      s₂.m_transportStatus = s.m_transportStatus ∧
      s₂.m_loopStart = s.m_loopStart ∧ s₂.m_loopEnd = s.m_loopEnd ∧
      s₂.m_readAhead = s.m_readAhead := by
  obtain ⟨batch, qs, hq, hf⟩ := fetchEvents_frame env
    { s with
      m_driver := some ⟨d.log ++ [.stopClocks, .resetPlayback s.m_songPosition pos, .isPlaying]⟩
      m_songPosition := pos
      m_lastFetchSongPosition := pos
      positionPointer := pos }
    ⟨d.log ++ [.stopClocks, .resetPlayback s.m_songPosition pos, .isPlaying]⟩
    [] pos (pos + s.m_readAhead) true rfl hit
  refine ⟨batch, _,
    ⟨d.log ++ [.stopClocks, .resetPlayback s.m_songPosition pos, .isPlaying] ++ qs⟩,
    hf, rfl, ?_, ?_, rfl, rfl, rfl, rfl, rfl, rfl⟩
  · rw [commands_append, commands_append, hq, List.append_nil]
    simp [commands, DriverCall.isQuery]
  · simp only [jumpTo, hpos, if_false, driverCall, driverQuery, hd, SoundDriver.call,
      Option.bind_eq_bind, Option.some_bind, List.append_assoc, List.singleton_append,
      List.cons_append, List.nil_append, hp, if_true]
    simp only [List.append_assoc, List.singleton_append,
      List.cons_append, List.nil_append] at hf
    simp only [hf, Option.some_bind, incrementTransportToken, List.append_assoc]
    simp

/-- The complete effect of updateClocks when the transport runs, a loop is set
and the sequencer time has reached the loop end. -/
theorem updateClocks_rewind (env : Env) (s : RosegardenSequencer) (d : SoundDriver)
    (it : MmappedSegmentsMetaIterator)
    (hs : s.m_transportStatus = .PLAYING ∨ s.m_transportStatus = .RECORDING)
    (hd : s.m_driver = some d) (hit : s.m_metaIterator = some it)
    (hloop : s.m_loopStart ≠ s.m_loopEnd)
    (htime : s.m_loopEnd ≤ env.getSequencerTime (d.log ++ [.runTasks])) :
    ∃ batch s₂ d₂,
      fetchEvents env
        { s with
          m_driver := some ⟨d.log ++ [.runTasks, .getSequencerTime, .stopClocks,
            .resetPlayback s.m_songPosition s.m_loopStart]⟩
          m_songPosition := s.m_loopStart
          m_lastFetchSongPosition := s.m_loopStart }
        [] s.m_loopStart (s.m_loopStart + s.m_readAhead) true = some (batch, s₂) ∧
      s₂.m_driver = some d₂ ∧
      commands d₂.log = commands d.log ++
        [.runTasks, .stopClocks, .resetPlayback s.m_songPosition s.m_loopStart] ∧
      s₂.m_metaIterator = some ⟨it.segments, it.log ++ [.jumpToTime s.m_loopStart,
        .fillCompositionWithEventsUntil true s.m_loopStart (s.m_loopStart + s.m_readAhead)]⟩ ∧
      updateClocks env s = some { s₂ with
        m_driver := some ⟨d₂.log ++
          [.processEventsOut batch s.m_loopStart (s.m_loopStart + s.m_readAhead),
           .startClocks, .getMaximumPlayLatency]⟩
        positionPointer :=
          if env.getMaximumPlayLatency (d₂.log ++
              [.processEventsOut batch s.m_loopStart (s.m_loopStart + s.m_readAhead),
               .startClocks]) ≠ RealTime.zeroTime then
            s.m_loopStart - env.getMaximumPlayLatency (d₂.log ++
              [.processEventsOut batch s.m_loopStart (s.m_loopStart + s.m_readAhead),
               .startClocks])
          else s.m_loopStart } ∧
      s₂.m_songPosition = s.m_loopStart ∧ s₂.m_lastFetchSongPosition = s.m_loopStart ∧
      s₂.m_transportStatus = s.m_transportStatus ∧
      s₂.m_transportToken = s.m_transportToken := by
  have h1 : s.m_transportStatus ≠ .STOPPED := by rcases hs with h | h <;> simp [h]
  have h2 : s.m_transportStatus ≠ .STOPPING := by rcases hs with h | h <;> simp [h]
  have h3 : ¬ (s.m_transportStatus ≠ .PLAYING ∧ s.m_transportStatus ≠ .RECORDING) := by
    rcases hs with h | h <;> simp [h]
  obtain ⟨batch, qs, hq, hf⟩ := fetchEvents_running env
    { s with
      m_driver := some ⟨d.log ++ [.runTasks, .getSequencerTime, .stopClocks,
        .resetPlayback s.m_songPosition s.m_loopStart]⟩
      m_songPosition := s.m_loopStart
      m_lastFetchSongPosition := s.m_loopStart }
    ⟨d.log ++ [.runTasks, .getSequencerTime, .stopClocks,
        .resetPlayback s.m_songPosition s.m_loopStart]⟩ it
    [] s.m_loopStart (s.m_loopStart + s.m_readAhead) true rfl hit h1 h2
  refine ⟨batch, _,
    ⟨d.log ++ [.runTasks, .getSequencerTime, .stopClocks,
        .resetPlayback s.m_songPosition s.m_loopStart] ++ qs⟩,
    hf, rfl, ?_, ?_, ?_, rfl, rfl, rfl, rfl⟩
  · rw [commands_append, commands_append, hq, List.append_nil]
    simp [commands, DriverCall.isQuery]
  · simp [MmappedSegmentsMetaIterator.call]
  · have hl : isLooping s = true := by simp [isLooping, hloop]
    simp only [updateClocks, driverCall, driverQuery, hd, SoundDriver.call,
      Option.bind_eq_bind, Option.some_bind, h3, if_false, List.append_assoc,
      List.singleton_append, List.cons_append, List.nil_append, isLooping] at hl ⊢
    simp only [hl, htime, ge_iff_le, and_self, if_true, Option.some_bind]
    simp only [List.append_assoc, List.singleton_append,
      List.cons_append, List.nil_append] at hf
    simp only [hf, Option.some_bind]
    simp

/-- The complete effect of stop on a state with a driver. -/
theorem stop_eq (s : RosegardenSequencer) (d : SoundDriver) (hd : s.m_driver = some d) :
    stop s = some { s with
      m_driver := some ⟨d.log ++ [.stopPlayback]⟩
      m_transportStatus := .STOPPING
      m_songPosition := ⟨0, 0⟩
      m_lastFetchSongPosition := ⟨0, 0⟩
      m_mmappedSegments := []
      m_metaIterator := none
      m_transportToken := s.m_transportToken + 1 } := by
  simp [stop, driverCall, hd, cleanupMmapData, incrementTransportToken, SoundDriver.call]

/-- There are no file names to create when no audio instrument is armed. -/
theorem record.audioFileNames_of_no_audio (env : Env)
    (h : ¬ (record.audioInstruments env).length > 0) :
    (record.audioFileNames env).length = (record.audioInstruments env).length := by
  unfold record.audioFileNames
  rw [if_neg h]
  simp at h
  simp [h]

/-- A record request whose audio files do not match the armed audio
instruments stops the transport and fails. -/
theorem record_count_mismatch (env : Env) (s : RosegardenSequencer)
    (time readAhead audioMix audioRead audioWrite : RealTime) (smallFileSize : Int)
    (recordMode : TransportStatus)
    (hmode : recordMode = .STARTING_TO_RECORD ∨ recordMode = .RECORDING)
    (hcount : (record.audioFileNames env).length ≠ (record.audioInstruments env).length) :
    record env s time readAhead audioMix audioRead audioWrite smallFileSize recordMode =
      (stop s).map (fun s => (false, s)) := by
  have hpos : (record.audioInstruments env).length > 0 := by
    by_contra h
    exact hcount (record.audioFileNames_of_no_audio env h)
  have hm : (if s.m_transportStatus = .PLAYING ∧ recordMode = .STARTING_TO_RECORD
      then TransportStatus.RECORDING else recordMode) = .STARTING_TO_RECORD ∨
      (if s.m_transportStatus = .PLAYING ∧ recordMode = .STARTING_TO_RECORD
      then TransportStatus.RECORDING else recordMode) = .RECORDING := by
    split
    · exact Or.inr rfl
    · exact hmode
  unfold record
  simp only [hm, if_true, hpos, hcount, ne_eq, not_false_eq_true, and_self]

/-- A record request that the driver refuses stops the transport and fails. -/
theorem record_driver_refuses (env : Env) (s : RosegardenSequencer) (d : SoundDriver)
    (time readAhead audioMix audioRead audioWrite : RealTime) (smallFileSize : Int)
    (recordMode : TransportStatus)
    (hmode : recordMode = .STARTING_TO_RECORD ∨ recordMode = .RECORDING)
    (hd : s.m_driver = some d)
    (hcount : (record.audioFileNames env).length = (record.audioInstruments env).length)
    (hrec : env.driverRecord d.log .RECORD_ON env.getArmedInstruments
      (record.audioFileNames env) = false) :
    record env s time readAhead audioMix audioRead audioWrite smallFileSize recordMode =
      (stop { s with m_driver := some ⟨d.log ++
        [.record .RECORD_ON env.getArmedInstruments (record.audioFileNames env)]⟩ }).map
        (fun s => (false, s)) := by
  have hm : (if s.m_transportStatus = .PLAYING ∧ recordMode = .STARTING_TO_RECORD
      then TransportStatus.RECORDING else recordMode) = .STARTING_TO_RECORD ∨
      (if s.m_transportStatus = .PLAYING ∧ recordMode = .STARTING_TO_RECORD
      then TransportStatus.RECORDING else recordMode) = .RECORDING := by
    split
    · exact Or.inr rfl
    · exact hmode
  unfold record
  simp only [hm, if_true, hcount, ne_eq, not_true_eq_false, and_false, if_false,
    driverQuery, hd, hrec, SoundDriver.call]

/-- Punch-in: a record request while PLAYING that the driver accepts only
changes the status to RECORDING. -/
theorem record_punch_in (env : Env) (s : RosegardenSequencer) (d : SoundDriver)
    (time readAhead audioMix audioRead audioWrite : RealTime) (smallFileSize : Int)
    (hs : s.m_transportStatus = .PLAYING)
    (hd : s.m_driver = some d)
    (hcount : (record.audioFileNames env).length = (record.audioInstruments env).length)
    (hrec : env.driverRecord d.log .RECORD_ON env.getArmedInstruments
      (record.audioFileNames env) = true) :
    record env s time readAhead audioMix audioRead audioWrite smallFileSize
        .STARTING_TO_RECORD =
      some (true, { s with
        m_driver := some ⟨d.log ++
          [.record .RECORD_ON env.getArmedInstruments (record.audioFileNames env)]⟩
        m_transportStatus := .RECORDING }) := by
  unfold record
  simp only [hs, and_self, if_true, or_true, hcount, ne_eq, not_true_eq_false, and_false,
    if_false, driverQuery, hd, hrec, SoundDriver.call, Bool.true_eq_false]

/-! ## Claims -/

/-- C1: in every state in which a backend driver exists, stop() returns with
the status STOPPING, both cached song positions at (0 s, 0 ns), the mapped
segment table empty, the meta-iterator null and the transport token one
greater than before; the loop bounds and the read-ahead are unchanged.  The
driver has received stopPlayback. -/
theorem stop_resets_transport (s : RosegardenSequencer) (d : SoundDriver)
    (hd : s.m_driver = some d) :
    ∃ s', stop s = some s' ∧
      s'.m_transportStatus = .STOPPING ∧
      s'.m_songPosition = ⟨0, 0⟩ ∧ s'.m_lastFetchSongPosition = ⟨0, 0⟩ ∧
      s'.m_mmappedSegments = [] ∧ s'.m_metaIterator = none ∧
      s'.m_transportToken = s.m_transportToken + 1 ∧
      s'.m_loopStart = s.m_loopStart ∧ s'.m_loopEnd = s.m_loopEnd ∧
      s'.m_readAhead = s.m_readAhead ∧
      s'.m_driver = some ⟨d.log ++ [.stopPlayback]⟩ :=
  ⟨_, stop_eq s d hd, rfl, rfl, rfl, rfl, rfl, rfl, rfl, rfl, rfl, rfl⟩

/-- Witness: instance on the sample playing state. -/
theorem stop_resets_transport_witness :
    demoPlaying.m_driver = some ⟨[]⟩ ∧
    ∃ s', stop demoPlaying = some s' ∧
      s'.m_transportStatus = .STOPPING ∧
      s'.m_songPosition = ⟨0, 0⟩ ∧ s'.m_lastFetchSongPosition = ⟨0, 0⟩ ∧
      s'.m_mmappedSegments = [] ∧ s'.m_metaIterator = none ∧
      s'.m_transportToken = demoPlaying.m_transportToken + 1 ∧
      s'.m_loopStart = demoPlaying.m_loopStart ∧ s'.m_loopEnd = demoPlaying.m_loopEnd ∧
      s'.m_readAhead = demoPlaying.m_readAhead ∧
      s'.m_driver = some ⟨[] ++ [.stopPlayback]⟩ :=
  ⟨rfl, stop_resets_transport demoPlaying ⟨[]⟩ rfl⟩

/-- C2: for every start time and read-ahead, play() called while the status is
STOPPED returns true, sets the status to STARTING_TO_PLAY and the song position
to the start time, calls the driver's stopClocks and not startClocks (the calls
made are stopClocks and setAudioBufferSizes), and leaves the transport token
unchanged. -/
theorem play_from_stopped (env : Env) (s : RosegardenSequencer) (d : SoundDriver)
    (pos r audioMix audioRead audioWrite : RealTime) (smallFileSize : Int)
    (hs : s.m_transportStatus = .STOPPED) (hd : s.m_driver = some d) :
    ∃ s' calls, play env s pos r audioMix audioRead audioWrite smallFileSize = some (true, s') ∧
      s'.m_transportStatus = .STARTING_TO_PLAY ∧
      s'.m_songPosition = pos ∧
      s'.m_transportToken = s.m_transportToken ∧
      s'.m_driver = some ⟨d.log ++ calls⟩ ∧
      calls = [.stopClocks, .setAudioBufferSizes audioMix audioRead audioWrite smallFileSize] ∧
      DriverCall.stopClocks ∈ calls ∧ DriverCall.startClocks ∉ calls := by
  obtain ⟨segs, h⟩ := play_fresh env s d pos r audioMix audioRead audioWrite smallFileSize hd
    (by simp [hs]) (by simp [hs]) (by simp [hs])
  refine ⟨_, _, h, ?_, rfl, rfl, rfl, rfl, ?_, ?_⟩
  · simp [hs]
  · simp
  · simp

/-- Witness: instance on the sample stopped state. -/
theorem play_from_stopped_witness :
    demoStopped.m_transportStatus = .STOPPED ∧ demoStopped.m_driver = some ⟨[]⟩ ∧
    ∃ s' calls, play demoEnv demoStopped ⟨0, 0⟩ ⟨1, 0⟩ ⟨0, 60000000⟩ ⟨0, 100000000⟩
        ⟨0, 200000000⟩ 128 = some (true, s') ∧
      s'.m_transportStatus = .STARTING_TO_PLAY ∧
      s'.m_songPosition = ⟨0, 0⟩ ∧
      s'.m_transportToken = demoStopped.m_transportToken ∧
      s'.m_driver = some ⟨[] ++ calls⟩ ∧
      calls = [.stopClocks,
        .setAudioBufferSizes ⟨0, 60000000⟩ ⟨0, 100000000⟩ ⟨0, 200000000⟩ 128] ∧
      DriverCall.stopClocks ∈ calls ∧ DriverCall.startClocks ∉ calls :=
  ⟨rfl, rfl, play_from_stopped demoEnv demoStopped ⟨[]⟩ ⟨0, 0⟩ ⟨1, 0⟩ ⟨0, 60000000⟩
    ⟨0, 100000000⟩ ⟨0, 200000000⟩ 128 rfl rfl⟩

/-- C3: with a driver and a meta-iterator, startPlaying() fetches the window
[pos, pos + r) with firstFetch = true (pos the song position, r the
read-ahead), sets m_lastFetchSongPosition to pos + r, and its driver calls other
than latency queries are, in order, initialisePlayback(pos),
processEventsOut(batch, pos, pos + r), initialiseAudioQueue(audioEvents) and
startClocks, which is the last call of all.  The token grows by exactly one
and the call returns true.  Unless the status is STOPPED or STOPPING the fetch
re-seeks the merger to pos and fills from it for that window. -/
theorem startPlaying_primes_then_starts (env : Env) (s : RosegardenSequencer)
    (d : SoundDriver) (it : MmappedSegmentsMetaIterator)
    (hd : s.m_driver = some d) (hit : s.m_metaIterator = some it) :
    ∃ batch s₂ it₂ s' d',
      fetchEvents env
        { s with
          m_driver := some ⟨d.log ++ [.initialisePlayback s.m_songPosition]⟩
          m_lastFetchSongPosition := s.m_songPosition + s.m_readAhead }
        [] s.m_songPosition (s.m_songPosition + s.m_readAhead) true = some (batch, s₂) ∧
      s₂.m_metaIterator = some it₂ ∧
      (s.m_transportStatus ≠ .STOPPED → s.m_transportStatus ≠ .STOPPING →
        it₂ = ⟨it.segments, it.log ++ [.jumpToTime s.m_songPosition,
          .fillCompositionWithEventsUntil true s.m_songPosition
            (s.m_songPosition + s.m_readAhead)]⟩) ∧
      startPlaying env s = some (true, s') ∧
      s'.m_lastFetchSongPosition = s.m_songPosition + s.m_readAhead ∧
      s'.m_songPosition = s.m_songPosition ∧
      s'.m_transportToken = s.m_transportToken + 1 ∧
      s'.m_driver = some d' ∧
      commands d'.log = commands d.log ++
        [.initialisePlayback s.m_songPosition,
         .processEventsOut batch s.m_songPosition (s.m_songPosition + s.m_readAhead),
         .initialiseAudioQueue (env.getAudioEvents it₂),
         .startClocks] ∧
      d'.log.getLast? = some .startClocks := by
  obtain ⟨batch, s₂, d₂, it₂, hf, hd₂, hit₂, hc, hi, hsp, h1, h2, h3⟩ :=
    startPlaying_eq env s d it hd hit
  refine ⟨batch, s₂, it₂, _, _, hf, hit₂, ?_, hsp, h1, h2, ?_, rfl, ?_, ?_⟩
  · intro hs1 hs2
    rw [hi]
    simp [hs1, hs2]
  · simp
  · rw [commands_append, hc]
    simp [commands, DriverCall.isQuery]
  · simp

/-- Witness: instance on the sample playing state. -/
theorem startPlaying_primes_then_starts_witness :
    demoPlaying.m_driver = some ⟨[]⟩ ∧
    demoPlaying.m_metaIterator = some ⟨[("/tmp/segment_0", demoSegment)], []⟩ ∧
    ∃ batch s₂ it₂ s' d',
      fetchEvents demoEnv
        { demoPlaying with
          m_driver := some ⟨[] ++ [.initialisePlayback demoPlaying.m_songPosition]⟩
          m_lastFetchSongPosition := demoPlaying.m_songPosition + demoPlaying.m_readAhead }
        [] demoPlaying.m_songPosition (demoPlaying.m_songPosition + demoPlaying.m_readAhead)
        true = some (batch, s₂) ∧
      s₂.m_metaIterator = some it₂ ∧
      (demoPlaying.m_transportStatus ≠ .STOPPED → demoPlaying.m_transportStatus ≠ .STOPPING →
        it₂ = ⟨[("/tmp/segment_0", demoSegment)], [] ++ [.jumpToTime demoPlaying.m_songPosition,
          .fillCompositionWithEventsUntil true demoPlaying.m_songPosition
            (demoPlaying.m_songPosition + demoPlaying.m_readAhead)]⟩) ∧
      startPlaying demoEnv demoPlaying = some (true, s') ∧
      s'.m_lastFetchSongPosition = demoPlaying.m_songPosition + demoPlaying.m_readAhead ∧
      s'.m_songPosition = demoPlaying.m_songPosition ∧
      s'.m_transportToken = demoPlaying.m_transportToken + 1 ∧
      s'.m_driver = some d' ∧
      commands d'.log = commands [] ++
        [.initialisePlayback demoPlaying.m_songPosition,
         .processEventsOut batch demoPlaying.m_songPosition
           (demoPlaying.m_songPosition + demoPlaying.m_readAhead),
         .initialiseAudioQueue (demoEnv.getAudioEvents it₂),
         .startClocks] ∧
      d'.log.getLast? = some .startClocks :=
  ⟨rfl, rfl, startPlaying_primes_then_starts demoEnv demoPlaying ⟨[]⟩
    ⟨[("/tmp/segment_0", demoSegment)], []⟩ rfl rfl⟩

/-- C4: for every batch and every latency table `lat` of the driver whose
maximum play latency M is not zero, applyLatencyCompensation replaces the time
t of each event on instrument i by t + M - lat i and leaves every other field
and the number of events unchanged.  In particular with M = 30 ms, an event at
a normalized time T on an instrument of latency 10 ms moves to T + 20 ms and
an event at T on an instrument of latency 30 ms keeps its time. -/
theorem applyLatencyCompensation_shifts (env : Env) (s : RosegardenSequencer)
    (d : SoundDriver) (c : MappedComposition) (M : RealTime) (lat : InstrumentId → RealTime)
    (hd : s.m_driver = some d) (hM : env.getMaximumPlayLatency d.log = M)
    (hM0 : M ≠ RealTime.zeroTime)
    (hlat : ∀ log i, env.getInstrumentPlayLatency log i = lat i) :
    (∃ c' s', applyLatencyCompensation env s c = some (c', s') ∧
      c' = c.map (fun e => { e with eventTime := e.eventTime + M - lat e.instrument }) ∧
      c'.length = c.length) ∧
    (M = ⟨0, 30000000⟩ → ∀ (T : RealTime) (ea eb : MappedEvent), T.normalized →
      lat ea.instrument = ⟨0, 10000000⟩ → lat eb.instrument = ⟨0, 30000000⟩ →
      ea.eventTime = T → eb.eventTime = T → c = [ea, eb] →
      ∃ s', applyLatencyCompensation env s c =
        some ([{ ea with eventTime := T + ⟨0, 20000000⟩ }, eb], s')) := by
  have hmain : ∃ s', applyLatencyCompensation env s c = some
      (c.map (fun e => { e with eventTime := e.eventTime + M - lat e.instrument }), s') := by
    unfold applyLatencyCompensation
    simp only [hd, hM, hM0, if_false]
    exact ⟨_, by rw [applyLatencyCompensation.loop_fst env M lat hlat]⟩
  obtain ⟨s', hs'⟩ := hmain
  refine ⟨⟨_, s', hs', rfl, by simp⟩, ?_⟩
  intro hM30 T ea eb hT ha hb hta htb hc
  refine ⟨s', ?_⟩
  rw [hs', hc]
  have e1 : T + M - (⟨0, 10000000⟩ : RealTime) = T + ⟨0, 20000000⟩ := by
    subst hM30
    show RealTime.sub (RealTime.add T _) _ = RealTime.add T _
    simp only [RealTime.sub, RealTime.add, RealTime.make, RealTime.nsPerS, RealTime.mk.injEq]
    constructor <;> omega
  have e2 : T + M - (⟨0, 30000000⟩ : RealTime) = T := by
    subst hM30
    obtain ⟨h0, h1⟩ := hT
    obtain ⟨sec, nsec⟩ := T
    show RealTime.sub (RealTime.add _ _) _ = _
    simp only [RealTime.sub, RealTime.add, RealTime.make, RealTime.nsPerS, RealTime.mk.injEq] at *
    constructor <;> omega
  obtain ⟨i1, t1, x1, y1, et1, du1, au1, rc1, rd1⟩ := ea
  obtain ⟨i2, t2, x2, y2, et2, du2, au2, rc2, rd2⟩ := eb
  simp only at ha hb hta htb
  subst hta
  subst htb
  simp [ha, hb, e1, e2]

/-- Witness: the sample latency table (10 ms for instrument 1000, 30 ms
otherwise, maximum 30 ms) applied to two events at 1.2 s. -/
theorem applyLatencyCompensation_shifts_witness :
    demoPlaying.m_driver = some ⟨[]⟩ ∧
    demoEnv.getMaximumPlayLatency [] = ⟨0, 30000000⟩ ∧
    (⟨0, 30000000⟩ : RealTime) ≠ RealTime.zeroTime ∧
    (∀ log i, demoEnv.getInstrumentPlayLatency log i = demoLatency i) ∧
    (∃ c' s', applyLatencyCompensation demoEnv demoPlaying
        [demoEvent 1000 ⟨1, 200000000⟩, demoEvent 2000 ⟨1, 200000000⟩] = some (c', s') ∧
      c' = [demoEvent 1000 ⟨1, 200000000⟩, demoEvent 2000 ⟨1, 200000000⟩].map
        (fun e => { e with
          eventTime := e.eventTime + ⟨0, 30000000⟩ - demoLatency e.instrument }) ∧
      c'.length = [demoEvent 1000 ⟨1, 200000000⟩, demoEvent 2000 ⟨1, 200000000⟩].length) ∧
    (∃ s', applyLatencyCompensation demoEnv demoPlaying
        [demoEvent 1000 ⟨1, 200000000⟩, demoEvent 2000 ⟨1, 200000000⟩] =
      some ([{ demoEvent 1000 ⟨1, 200000000⟩ with
          eventTime := (⟨1, 200000000⟩ : RealTime) + ⟨0, 20000000⟩ },
        demoEvent 2000 ⟨1, 200000000⟩], s')) :=
  ⟨rfl, rfl, by decide, fun _ _ => rfl,
    (applyLatencyCompensation_shifts demoEnv demoPlaying ⟨[]⟩
      [demoEvent 1000 ⟨1, 200000000⟩, demoEvent 2000 ⟨1, 200000000⟩] ⟨0, 30000000⟩
      demoLatency rfl rfl (by decide) (fun _ _ => rfl)).1,
    (applyLatencyCompensation_shifts demoEnv demoPlaying ⟨[]⟩
      [demoEvent 1000 ⟨1, 200000000⟩, demoEvent 2000 ⟨1, 200000000⟩] ⟨0, 30000000⟩
      demoLatency rfl rfl (by decide) (fun _ _ => rfl)).2 rfl ⟨1, 200000000⟩
      (demoEvent 1000 ⟨1, 200000000⟩) (demoEvent 2000 ⟨1, 200000000⟩)
      (by decide) rfl rfl rfl rfl rfl⟩

/-- C5: if the status is PLAYING or RECORDING, the loop bounds differ and the
driver's sequencer time is at or past the loop end, one call of updateClocks()
leaves m_songPosition and m_lastFetchSongPosition equal to the loop start,
re-seeks the merger to the loop start and fills from it for
[loopStart, loopStart + readAhead) with firstFetch = true, and its driver calls
other than queries are, in order, runTasks, stopClocks,
resetPlayback(old position, loopStart), processEventsOut(batch, loopStart,
loopStart + readAhead), startClocks. -/
theorem updateClocks_loop_rewind (env : Env) (s : RosegardenSequencer) (d : SoundDriver)
    (it : MmappedSegmentsMetaIterator)
    (hs : s.m_transportStatus = .PLAYING ∨ s.m_transportStatus = .RECORDING)
    (hd : s.m_driver = some d) (hit : s.m_metaIterator = some it)
    (hloop : s.m_loopStart ≠ s.m_loopEnd)
    (htime : env.getSequencerTime (d.log ++ [.runTasks]) ≥ s.m_loopEnd) :
    ∃ batch s₂ s' d',
      fetchEvents env
        { s with
          m_driver := some ⟨d.log ++ [.runTasks, .getSequencerTime, .stopClocks,
            .resetPlayback s.m_songPosition s.m_loopStart]⟩
          m_songPosition := s.m_loopStart
          m_lastFetchSongPosition := s.m_loopStart }
        [] s.m_loopStart (s.m_loopStart + s.m_readAhead) true = some (batch, s₂) ∧
      s₂.m_metaIterator = some ⟨it.segments, it.log ++ [.jumpToTime s.m_loopStart,
        .fillCompositionWithEventsUntil true s.m_loopStart (s.m_loopStart + s.m_readAhead)]⟩ ∧
      updateClocks env s = some s' ∧
      s'.m_songPosition = s.m_loopStart ∧
      s'.m_lastFetchSongPosition = s.m_loopStart ∧
      s'.m_transportStatus = s.m_transportStatus ∧
      s'.m_driver = some d' ∧
      commands d'.log = commands d.log ++
        [.runTasks, .stopClocks, .resetPlayback s.m_songPosition s.m_loopStart,
         .processEventsOut batch s.m_loopStart (s.m_loopStart + s.m_readAhead),
         .startClocks] := by
  obtain ⟨batch, s₂, d₂, hf, hd₂, hc, hit₂, hu, h1, h2, h3, _⟩ :=
    updateClocks_rewind env s d it hs hd hit hloop htime
  refine ⟨batch, s₂, _, _, hf, hit₂, hu, h1, h2, h3, rfl, ?_⟩
  rw [commands_append, hc]
  simp [commands, DriverCall.isQuery]

/-- Witness: the sample state loops over [1 s, 2 s) and the sample driver
clock stands at 3 s. -/
theorem updateClocks_loop_rewind_witness :
    (demoPlaying.m_transportStatus = .PLAYING ∨ demoPlaying.m_transportStatus = .RECORDING) ∧
    demoPlaying.m_driver = some ⟨[]⟩ ∧
    demoPlaying.m_metaIterator = some ⟨[("/tmp/segment_0", demoSegment)], []⟩ ∧
    demoPlaying.m_loopStart ≠ demoPlaying.m_loopEnd ∧
    demoEnv.getSequencerTime ([] ++ [.runTasks]) ≥ demoPlaying.m_loopEnd ∧
    ∃ batch s₂ s' d',
      fetchEvents demoEnv
        { demoPlaying with
          m_driver := some ⟨[] ++ [.runTasks, .getSequencerTime, .stopClocks,
            .resetPlayback demoPlaying.m_songPosition demoPlaying.m_loopStart]⟩
          m_songPosition := demoPlaying.m_loopStart
          m_lastFetchSongPosition := demoPlaying.m_loopStart }
        [] demoPlaying.m_loopStart (demoPlaying.m_loopStart + demoPlaying.m_readAhead) true =
          some (batch, s₂) ∧
      s₂.m_metaIterator = some ⟨[("/tmp/segment_0", demoSegment)],
        [] ++ [.jumpToTime demoPlaying.m_loopStart,
          .fillCompositionWithEventsUntil true demoPlaying.m_loopStart
            (demoPlaying.m_loopStart + demoPlaying.m_readAhead)]⟩ ∧
      updateClocks demoEnv demoPlaying = some s' ∧
      s'.m_songPosition = demoPlaying.m_loopStart ∧
      s'.m_lastFetchSongPosition = demoPlaying.m_loopStart ∧
      s'.m_transportStatus = demoPlaying.m_transportStatus ∧
      s'.m_driver = some d' ∧
      commands d'.log = commands [] ++
        [.runTasks, .stopClocks,
         .resetPlayback demoPlaying.m_songPosition demoPlaying.m_loopStart,
         .processEventsOut batch demoPlaying.m_loopStart
           (demoPlaying.m_loopStart + demoPlaying.m_readAhead),
         .startClocks] :=
  ⟨Or.inl rfl, rfl, rfl, by decide, by decide,
    updateClocks_loop_rewind demoEnv demoPlaying ⟨[]⟩ ⟨[("/tmp/segment_0", demoSegment)], []⟩
      (Or.inl rfl) rfl rfl (by decide) (by decide)⟩

/-- C6: for every position before zeroTime and every state, jumpTo is a no-op:
the state, including the log of calls the driver has received, is unchanged. -/
theorem jumpTo_negative_noop (env : Env) (s : RosegardenSequencer) (pos : RealTime)
    (hpos : pos < RealTime.zeroTime) :
    jumpTo env s pos = some s := by
  simp [jumpTo, hpos]

/-- Witness: a jump to -0.5 s on the sample playing state. -/
theorem jumpTo_negative_noop_witness :
    (⟨-1, 500000000⟩ : RealTime) < RealTime.zeroTime ∧
    jumpTo demoEnv demoPlaying ⟨-1, 500000000⟩ = some demoPlaying :=
  ⟨by decide, jumpTo_negative_noop demoEnv demoPlaying ⟨-1, 500000000⟩ (by decide)⟩

/-- C7: for every position at or after zeroTime, jumpTo sets m_songPosition to
it, leaves the status unchanged and increments the token by exactly one.  Its
driver calls other than queries are, in order, stopClocks,
resetPlayback(previous song position, pos), then processEventsOut(batch, pos,
pos + readAhead) exactly when the driver reports that it is playing, and
startClocks, which is the last call of all.  (A fetch needs the meta-iterator
unless the status is STOPPED or STOPPING.) -/
theorem jumpTo_reprimes_before_restart (env : Env) (s : RosegardenSequencer)
    (d : SoundDriver) (pos : RealTime)
    (hpos : pos ≥ RealTime.zeroTime) (hd : s.m_driver = some d)
    (hit : s.m_metaIterator.isSome ∨ s.m_transportStatus = .STOPPED ∨
      s.m_transportStatus = .STOPPING ∨
      env.isPlaying (d.log ++ [.stopClocks, .resetPlayback s.m_songPosition pos]) = false) :
    ∃ s' d', jumpTo env s pos = some s' ∧
      s'.m_songPosition = pos ∧
      s'.m_transportStatus = s.m_transportStatus ∧
      s'.m_transportToken = s.m_transportToken + 1 ∧
      s'.m_driver = some d' ∧
      d'.log.getLast? = some .startClocks ∧
      (env.isPlaying (d.log ++ [.stopClocks, .resetPlayback s.m_songPosition pos]) = true →
        ∃ batch s₂,
          fetchEvents env
            { s with
              m_driver := some ⟨d.log ++
                [.stopClocks, .resetPlayback s.m_songPosition pos, .isPlaying]⟩
              m_songPosition := pos
              m_lastFetchSongPosition := pos
              positionPointer := pos }
            [] pos (pos + s.m_readAhead) true = some (batch, s₂) ∧
          commands d'.log = commands d.log ++
            [.stopClocks, .resetPlayback s.m_songPosition pos,
             .processEventsOut batch pos (pos + s.m_readAhead), .startClocks]) ∧
      (env.isPlaying (d.log ++ [.stopClocks, .resetPlayback s.m_songPosition pos]) = false →
        commands d'.log = commands d.log ++
          [.stopClocks, .resetPlayback s.m_songPosition pos, .startClocks]) := by
  have hpos' : ¬ pos < RealTime.zeroTime := (RealTime.not_lt_iff_le _ _).mpr hpos
  cases hp : env.isPlaying (d.log ++ [.stopClocks, .resetPlayback s.m_songPosition pos]) with
  | false =>
    refine ⟨_, _, jumpTo_not_playing env s d pos hpos' hd hp, rfl, rfl, rfl, rfl, ?_, ?_, ?_⟩
    · simp
    · intro h
      cases h
    · intro _
      rw [commands_append]
      simp [commands, DriverCall.isQuery]
  | true =>
    have hit' : s.m_metaIterator.isSome ∨ s.m_transportStatus = .STOPPED ∨
        s.m_transportStatus = .STOPPING := by
      rcases hit with h | h | h | h
      · exact Or.inl h
      · exact Or.inr (Or.inl h)
      · exact Or.inr (Or.inr h)
      · rw [hp] at h
        cases h
    obtain ⟨batch, s₂, d₂, hf, hd₂, hc, hj, h1, _, h3, _⟩ :=
      jumpTo_playing env s d pos hpos' hd hit' hp
    refine ⟨_, _, hj, h1, h3, rfl, rfl, ?_, ?_, ?_⟩
    · simp
    · intro _
      refine ⟨batch, s₂, hf, ?_⟩
      rw [commands_append, hc]
      simp [commands, DriverCall.isQuery]
    · intro h
      cases h

/-- Witness: a jump to 1.25 s on the sample playing state. -/
theorem jumpTo_reprimes_before_restart_witness :
    (⟨1, 250000000⟩ : RealTime) ≥ RealTime.zeroTime ∧
    demoPlaying.m_driver = some ⟨[]⟩ ∧
    (demoPlaying.m_metaIterator.isSome ∨ demoPlaying.m_transportStatus = .STOPPED ∨
      demoPlaying.m_transportStatus = .STOPPING ∨
      demoEnv.isPlaying ([] ++ [.stopClocks,
        .resetPlayback demoPlaying.m_songPosition ⟨1, 250000000⟩]) = false) ∧
    ∃ s' d', jumpTo demoEnv demoPlaying ⟨1, 250000000⟩ = some s' ∧
      s'.m_songPosition = ⟨1, 250000000⟩ ∧
      s'.m_transportStatus = demoPlaying.m_transportStatus ∧
      s'.m_transportToken = demoPlaying.m_transportToken + 1 ∧
      s'.m_driver = some d' ∧
      d'.log.getLast? = some .startClocks ∧
      (demoEnv.isPlaying ([] ++ [.stopClocks,
          .resetPlayback demoPlaying.m_songPosition ⟨1, 250000000⟩]) = true →
        ∃ batch s₂,
          fetchEvents demoEnv
            { demoPlaying with
              m_driver := some ⟨[] ++
                [.stopClocks, .resetPlayback demoPlaying.m_songPosition ⟨1, 250000000⟩,
                 .isPlaying]⟩
              m_songPosition := ⟨1, 250000000⟩
              m_lastFetchSongPosition := ⟨1, 250000000⟩
              positionPointer := ⟨1, 250000000⟩ }
            [] ⟨1, 250000000⟩ (⟨1, 250000000⟩ + demoPlaying.m_readAhead) true =
              some (batch, s₂) ∧
          commands d'.log = commands [] ++
            [.stopClocks, .resetPlayback demoPlaying.m_songPosition ⟨1, 250000000⟩,
             .processEventsOut batch ⟨1, 250000000⟩ (⟨1, 250000000⟩ + demoPlaying.m_readAhead),
             .startClocks]) ∧
      (demoEnv.isPlaying ([] ++ [.stopClocks,
          .resetPlayback demoPlaying.m_songPosition ⟨1, 250000000⟩]) = false →
        commands d'.log = commands [] ++
          [.stopClocks, .resetPlayback demoPlaying.m_songPosition ⟨1, 250000000⟩,
           .startClocks]) :=
  ⟨by decide, rfl, Or.inl rfl,
    jumpTo_reprimes_before_restart demoEnv demoPlaying ⟨[]⟩ ⟨1, 250000000⟩ (by decide) rfl
      (Or.inl rfl)⟩

/-- C8: for a record() call in mode STARTING_TO_RECORD or RECORDING, if the
audio file names held do not match the armed audio instruments in number, or
the driver's record(RECORD_ON, armed instruments, audio files) returns false,
then record() returns false, play() is not entered (the driver receives no
stopClocks; its last call is stopPlayback), and the resulting state is the one
stop() produces from the entry state, up to the calls the driver has received:
status STOPPING, song positions zero, mapped segments released, token + 1. -/
theorem record_failure_stops (env : Env) (s : RosegardenSequencer) (d : SoundDriver)
    (time readAhead audioMix audioRead audioWrite : RealTime) (smallFileSize : Int)
    (recordMode : TransportStatus)
    (hmode : recordMode = .STARTING_TO_RECORD ∨ recordMode = .RECORDING)
    (hd : s.m_driver = some d)
    (hfail : (record.audioFileNames env).length ≠ (record.audioInstruments env).length ∨
      env.driverRecord d.log .RECORD_ON env.getArmedInstruments
        (record.audioFileNames env) = false) :
    ∃ s₀ s' calls, stop s = some s₀ ∧
      record env s time readAhead audioMix audioRead audioWrite smallFileSize recordMode =
        some (false, s') ∧
      s' = { s₀ with m_driver := s'.m_driver } ∧
      s'.m_driver = some ⟨d.log ++ calls⟩ ∧
      (calls = [.stopPlayback] ∨
        calls = [.record .RECORD_ON env.getArmedInstruments (record.audioFileNames env),
          .stopPlayback]) ∧
      DriverCall.stopClocks ∉ calls ∧
      s'.m_transportStatus = .STOPPING ∧
      s'.m_songPosition = ⟨0, 0⟩ ∧ s'.m_lastFetchSongPosition = ⟨0, 0⟩ ∧
      s'.m_mmappedSegments = [] ∧ s'.m_metaIterator = none ∧
      s'.m_transportToken = s.m_transportToken + 1 := by
  by_cases hcount : (record.audioFileNames env).length = (record.audioInstruments env).length
  · have hrec : env.driverRecord d.log .RECORD_ON env.getArmedInstruments
        (record.audioFileNames env) = false := by
      rcases hfail with h | h
      · exact absurd hcount h
      · exact h
    refine ⟨_, { s with
        m_driver := some ⟨d.log ++ [.record .RECORD_ON env.getArmedInstruments (record.audioFileNames env),
          .stopPlayback]⟩
        m_transportStatus := .STOPPING
        m_songPosition := ⟨0, 0⟩
        m_lastFetchSongPosition := ⟨0, 0⟩
        m_mmappedSegments := []
        m_metaIterator := none
        m_transportToken := s.m_transportToken + 1 },
      [.record .RECORD_ON env.getArmedInstruments (record.audioFileNames env),
        .stopPlayback], stop_eq s d hd, ?_, ?_, ?_, Or.inr rfl, ?_, ?_⟩
    · rw [record_driver_refuses env s d time readAhead audioMix audioRead audioWrite
        smallFileSize recordMode hmode hd hcount hrec, stop_eq _ _ rfl]
      simp
    · rfl
    · simp
    · simp
    · exact ⟨rfl, rfl, rfl, rfl, rfl, rfl⟩
  · refine ⟨_, { s with
        m_driver := some ⟨d.log ++ [.stopPlayback]⟩
        m_transportStatus := .STOPPING
        m_songPosition := ⟨0, 0⟩
        m_lastFetchSongPosition := ⟨0, 0⟩
        m_mmappedSegments := []
        m_metaIterator := none
        m_transportToken := s.m_transportToken + 1 },
      [.stopPlayback], stop_eq s d hd, ?_, ?_, ?_, Or.inl rfl, ?_, ?_⟩
    · rw [record_count_mismatch env s time readAhead audioMix audioRead audioWrite
        smallFileSize recordMode hmode hcount, stop_eq s d hd]
      rfl
    · rfl
    · rfl
    · simp
    · exact ⟨rfl, rfl, rfl, rfl, rfl, rfl⟩

/-- Witness: a request to start recording on the sample stopped state
when the authoring side creates no file for the armed audio instrument. -/
theorem record_failure_stops_witness :
    (TransportStatus.STARTING_TO_RECORD = .STARTING_TO_RECORD ∨
      TransportStatus.STARTING_TO_RECORD = .RECORDING) ∧
    demoStopped.m_driver = some ⟨[]⟩ ∧
    ((record.audioFileNames demoEnvNoFiles).length ≠
        (record.audioInstruments demoEnvNoFiles).length ∨
      demoEnvNoFiles.driverRecord [] .RECORD_ON demoEnvNoFiles.getArmedInstruments
        (record.audioFileNames demoEnvNoFiles) = false) ∧
    ∃ s₀ s' calls, stop demoStopped = some s₀ ∧
      record demoEnvNoFiles demoStopped ⟨0, 0⟩ ⟨1, 0⟩ ⟨0, 60000000⟩ ⟨0, 100000000⟩
        ⟨0, 200000000⟩ 128 .STARTING_TO_RECORD = some (false, s') ∧
      s' = { s₀ with m_driver := s'.m_driver } ∧
      s'.m_driver = some ⟨[] ++ calls⟩ ∧
      (calls = [.stopPlayback] ∨
        calls = [.record .RECORD_ON demoEnvNoFiles.getArmedInstruments
          (record.audioFileNames demoEnvNoFiles), .stopPlayback]) ∧
      DriverCall.stopClocks ∉ calls ∧
      s'.m_transportStatus = .STOPPING ∧
      s'.m_songPosition = ⟨0, 0⟩ ∧ s'.m_lastFetchSongPosition = ⟨0, 0⟩ ∧
      s'.m_mmappedSegments = [] ∧ s'.m_metaIterator = none ∧
      s'.m_transportToken = demoStopped.m_transportToken + 1 :=
  ⟨Or.inl rfl, rfl, Or.inl (by decide),
    record_failure_stops demoEnvNoFiles demoStopped ⟨[]⟩ ⟨0, 0⟩ ⟨1, 0⟩ ⟨0, 60000000⟩
      ⟨0, 100000000⟩ ⟨0, 200000000⟩ 128 .STARTING_TO_RECORD (Or.inl rfl) rfl
      (Or.inl (by decide))⟩

/-- C9: if the status is PLAYING, the requested mode is STARTING_TO_RECORD and
record preparation succeeds (the audio file names match the armed audio
instruments in number and the driver's record returns true), record() is a
punch-in: it returns true, the status becomes RECORDING and playback is not
restarted: the only driver call is record(RECORD_ON, ...), so there is no
stopClocks, startClocks or initialisePlayback call, and the song position, the
last fetch position, the read-ahead, the mapped segment table, the
meta-iterator and the token are unchanged. -/
theorem record_punch_in_keeps_playback (env : Env) (s : RosegardenSequencer)
    (d : SoundDriver)
    (time readAhead audioMix audioRead audioWrite : RealTime) (smallFileSize : Int)
    (hs : s.m_transportStatus = .PLAYING) (hd : s.m_driver = some d)
    (hcount : (record.audioFileNames env).length = (record.audioInstruments env).length)
    (hrec : env.driverRecord d.log .RECORD_ON env.getArmedInstruments
      (record.audioFileNames env) = true) :
    ∃ s' calls,
      record env s time readAhead audioMix audioRead audioWrite smallFileSize
        .STARTING_TO_RECORD = some (true, s') ∧
      s'.m_transportStatus = .RECORDING ∧
      s'.m_driver = some ⟨d.log ++ calls⟩ ∧
      calls = [.record .RECORD_ON env.getArmedInstruments (record.audioFileNames env)] ∧
      DriverCall.stopClocks ∉ calls ∧ DriverCall.startClocks ∉ calls ∧
      (∀ p, DriverCall.initialisePlayback p ∉ calls) ∧
      s'.m_songPosition = s.m_songPosition ∧
      s'.m_lastFetchSongPosition = s.m_lastFetchSongPosition ∧
      s'.m_readAhead = s.m_readAhead ∧
      s'.m_mmappedSegments = s.m_mmappedSegments ∧
      s'.m_metaIterator = s.m_metaIterator ∧
      s'.m_transportToken = s.m_transportToken := by
  refine ⟨_, _, record_punch_in env s d time readAhead audioMix audioRead audioWrite
    smallFileSize hs hd hcount hrec, rfl, rfl, rfl, ?_, ?_, ?_, rfl, rfl, rfl, rfl, rfl, rfl⟩
  · simp
  · simp
  · intro p
    simp

/-- Witness: a punch-in on the sample playing state. -/
theorem record_punch_in_keeps_playback_witness :
    demoPlaying.m_transportStatus = .PLAYING ∧ demoPlaying.m_driver = some ⟨[]⟩ ∧
    (record.audioFileNames demoEnv).length = (record.audioInstruments demoEnv).length ∧
    demoEnv.driverRecord [] .RECORD_ON demoEnv.getArmedInstruments
      (record.audioFileNames demoEnv) = true ∧
    ∃ s' calls,
      record demoEnv demoPlaying ⟨0, 0⟩ ⟨1, 0⟩ ⟨0, 60000000⟩ ⟨0, 100000000⟩ ⟨0, 200000000⟩ 128
        .STARTING_TO_RECORD = some (true, s') ∧
      s'.m_transportStatus = .RECORDING ∧
      s'.m_driver = some ⟨[] ++ calls⟩ ∧
      calls = [.record .RECORD_ON demoEnv.getArmedInstruments (record.audioFileNames demoEnv)] ∧
      DriverCall.stopClocks ∉ calls ∧ DriverCall.startClocks ∉ calls ∧
      (∀ p, DriverCall.initialisePlayback p ∉ calls) ∧
      s'.m_songPosition = demoPlaying.m_songPosition ∧
      s'.m_lastFetchSongPosition = demoPlaying.m_lastFetchSongPosition ∧
      s'.m_readAhead = demoPlaying.m_readAhead ∧
      s'.m_mmappedSegments = demoPlaying.m_mmappedSegments ∧
      s'.m_metaIterator = demoPlaying.m_metaIterator ∧
      s'.m_transportToken = demoPlaying.m_transportToken :=
  ⟨rfl, rfl, by decide, rfl,
    record_punch_in_keeps_playback demoEnv demoPlaying ⟨[]⟩ ⟨0, 0⟩ ⟨1, 0⟩ ⟨0, 60000000⟩
      ⟨0, 100000000⟩ ⟨0, 200000000⟩ 128 rfl rfl (by decide) rfl⟩
/-- C10: punchOut() returns true exactly when the status on entry is RECORDING.
In that case (with a driver) the driver receives punchOut once and the status
becomes PLAYING, nothing else changes; in every other state it returns false
and the state, including the driver log, is unchanged. -/
theorem punchOut_iff_recording (s : RosegardenSequencer) :
    (s.m_transportStatus = .RECORDING → ∀ d, s.m_driver = some d →
      punchOut s = some (true, { s with
        m_driver := some ⟨d.log ++ [.punchOut]⟩
        m_transportStatus := .PLAYING })) ∧
    (s.m_transportStatus ≠ .RECORDING → punchOut s = some (false, s)) ∧
    (∀ r s', punchOut s = some (r, s') → (r = true ↔ s.m_transportStatus = .RECORDING)) := by
  refine ⟨?_, ?_, ?_⟩
  · intro hs d hd
    simp [punchOut, driverCall, hd, hs, SoundDriver.call]
  · intro hs
    simp [punchOut, hs]
  · intro r s' h
    by_cases hs : s.m_transportStatus = .RECORDING
    · cases hdrv : s.m_driver with
      | none => simp [punchOut, driverCall, hdrv, hs] at h
      | some d =>
        simp [punchOut, driverCall, hdrv, hs] at h
        simp [hs, h.1.symm]
    · simp [punchOut, hs] at h
      simp [hs, h.1.symm]

/-- Witness: instance on the sample recording state. -/
theorem punchOut_iff_recording_witness :
    punchOut demoRecording = some (true, { demoRecording with
      m_driver := some ⟨[] ++ [.punchOut]⟩
      m_transportStatus := .PLAYING }) :=
  (punchOut_iff_recording demoRecording).1 rfl ⟨[]⟩ rfl

/-! ## Lemmas on whole operations and runs -/

/-- Called while RECORDING, play sets the status to PLAYING and then asks
punchOut, which no longer finds the status RECORDING: the result is false and
the driver receives nothing. -/
theorem play_while_recording (env : Env) (s : RosegardenSequencer)
    (time readAhead audioMix audioRead audioWrite : RealTime) (smallFileSize : Int)
    (hs : s.m_transportStatus = .RECORDING) :
    play env s time readAhead audioMix audioRead audioWrite smallFileSize =
      some (false, { s with m_transportStatus := .PLAYING }) := by
  simp [play, hs, punchOut]

/-- Called while PLAYING or STARTING_TO_PLAY, play returns true at once. -/
theorem play_while_playing (env : Env) (s : RosegardenSequencer)
    (time readAhead audioMix audioRead audioWrite : RealTime) (smallFileSize : Int)
    (hs : s.m_transportStatus = .PLAYING ∨ s.m_transportStatus = .STARTING_TO_PLAY) :
    play env s time readAhead audioMix audioRead audioWrite smallFileSize = some (true, s) := by
  simp [play, hs]

/-- The complete effect of getSlice on a state with a meta-iterator. -/
theorem getSlice_eq (env : Env) (s : RosegardenSequencer) (it : MmappedSegmentsMetaIterator)
    (c : MappedComposition) (start finish : RealTime) (firstFetch : Bool)
    (hit : s.m_metaIterator = some it) :
    getSlice env s c start finish firstFetch =
      some ((env.fillCompositionWithEventsUntil
          (if firstFetch ∨ start < s.m_lastStartTime then it.call (.jumpToTime start) else it)
          firstFetch c start finish).1,
        { s with
          m_metaIterator := some ⟨it.segments, it.log ++
            (if firstFetch ∨ start < s.m_lastStartTime then [.jumpToTime start] else []) ++
            [.fillCompositionWithEventsUntil firstFetch start finish]⟩
          m_lastStartTime := start }) := by
  simp only [getSlice, hit]
  by_cases hj : firstFetch = true ∨ start < s.m_lastStartTime <;>
    simp [hj, MmappedSegmentsMetaIterator.call]

/-- Whenever a fetch returns, it has changed at most the driver, the
meta-iterator and the last start time, and the driver is present after it
exactly when it was present before. -/
theorem fetchEvents_some (env : Env) (s : RosegardenSequencer) (c : MappedComposition)
    (start finish : RealTime) (firstFetch : Bool) (c' : MappedComposition)
    (s' : RosegardenSequencer)
    (h : fetchEvents env s c start finish firstFetch = some (c', s')) :
    ∃ dr mi lst, s' = { s with m_driver := dr, m_metaIterator := mi, m_lastStartTime := lst } ∧
      dr.isSome = s.m_driver.isSome := by
  by_cases hs : s.m_transportStatus = .STOPPED ∨ s.m_transportStatus = .STOPPING
  · rw [fetchEvents_stopped env s c start finish firstFetch hs] at h
    simp only [Option.some.injEq, Prod.mk.injEq] at h
    exact ⟨s.m_driver, s.m_metaIterator, s.m_lastStartTime, h.2.symm, rfl⟩
  · have h1 : s.m_transportStatus ≠ .STOPPED := fun h => hs (Or.inl h)
    have h2 : s.m_transportStatus ≠ .STOPPING := fun h => hs (Or.inr h)
    cases hit : s.m_metaIterator with
    | none => simp [fetchEvents, hs, getSlice, hit] at h
    | some it =>
      cases hd : s.m_driver with
      | none => simp [fetchEvents, hs, getSlice, hit, applyLatencyCompensation, hd] at h
      | some d =>
        obtain ⟨batch, qs, _, hf⟩ :=
          fetchEvents_running env s d it c start finish firstFetch hd hit h1 h2
        rw [hf] at h
        simp only [Option.some.injEq, Prod.mk.injEq] at h
        exact ⟨_, _, _, h.2.symm, rfl⟩

/-- A driver call returns exactly when the driver is present. -/
theorem driverCall_eq_some (s : RosegardenSequencer) (c : DriverCall) (d : SoundDriver)
    (hd : s.m_driver = some d) :
    driverCall s c = some { s with m_driver := some ⟨d.log ++ [c]⟩ } := by
  simp [driverCall, hd, SoundDriver.call]

/-- Without a driver, a driver call has no result. -/
theorem driverCall_eq_none (s : RosegardenSequencer) (c : DriverCall)
    (hd : s.m_driver = none) : driverCall s c = none := by
  simp [driverCall, hd]

/-- Outside PLAYING and RECORDING, updateClocks only lets the driver run its tasks. -/
theorem updateClocks_idle (env : Env) (s : RosegardenSequencer) (d : SoundDriver)
    (h1 : s.m_transportStatus ≠ .PLAYING) (h2 : s.m_transportStatus ≠ .RECORDING)
    (hd : s.m_driver = some d) :
    updateClocks env s = some { s with m_driver := some ⟨d.log ++ [.runTasks]⟩ } := by
  simp [updateClocks, driverCall, hd, h1, h2, SoundDriver.call]

/-- The effect of updateClocks when the transport runs and the loop rewind is
not due: the song position becomes the sequencer time, the driver is only
queried, and the position pointer is written. -/
theorem updateClocks_advance (env : Env) (s : RosegardenSequencer) (d : SoundDriver)
    (hs : s.m_transportStatus = .PLAYING ∨ s.m_transportStatus = .RECORDING)
    (hd : s.m_driver = some d)
    (hno : ¬ (s.m_loopStart ≠ s.m_loopEnd ∧
      env.getSequencerTime (d.log ++ [.runTasks]) ≥ s.m_loopEnd)) :
    ∃ qs pp, commands qs = [] ∧
      updateClocks env s = some { s with
        m_driver := some ⟨d.log ++ [.runTasks] ++ qs⟩
        m_songPosition := env.getSequencerTime (d.log ++ [.runTasks])
        positionPointer := pp } := by
  have h3 : ¬ (s.m_transportStatus ≠ .PLAYING ∧ s.m_transportStatus ≠ .RECORDING) := by
    rcases hs with h | h <;> simp [h]
  have hl : ¬ (isLooping s = true ∧
      env.getSequencerTime (d.log ++ [.runTasks]) ≥ s.m_loopEnd) := by
    simpa [isLooping] using hno
  by_cases hle : env.getSequencerTime (d.log ++ [.runTasks]) ≤
      env.getStartPosition (d.log ++ [.runTasks, .getSequencerTime])
  · refine ⟨[.getSequencerTime, .getStartPosition, .getStartPosition, .getMaximumPlayLatency],
      (if env.getMaximumPlayLatency (d.log ++ [.runTasks, .getSequencerTime,
          .getStartPosition, .getStartPosition]) ≠ RealTime.zeroTime then
        env.getStartPosition (d.log ++ [.runTasks, .getSequencerTime, .getStartPosition]) -
          env.getMaximumPlayLatency (d.log ++ [.runTasks, .getSequencerTime,
            .getStartPosition, .getStartPosition])
      else env.getStartPosition (d.log ++ [.runTasks, .getSequencerTime, .getStartPosition])),
      rfl, ?_⟩
    simp only [updateClocks, driverCall, driverQuery, hd, SoundDriver.call,
      Option.bind_eq_bind, Option.some_bind, h3, if_false, List.append_assoc,
      List.singleton_append, List.cons_append, List.nil_append, isLooping] at hl ⊢
    simp only [hl, if_false, Option.some_bind, hle, if_true]
  · refine ⟨[.getSequencerTime, .getStartPosition, .getMaximumPlayLatency],
      (if env.getMaximumPlayLatency (d.log ++ [.runTasks, .getSequencerTime,
          .getStartPosition]) ≠ RealTime.zeroTime then
        env.getSequencerTime (d.log ++ [.runTasks]) -
          env.getMaximumPlayLatency (d.log ++ [.runTasks, .getSequencerTime,
            .getStartPosition])
      else env.getSequencerTime (d.log ++ [.runTasks])),
      rfl, ?_⟩
    simp only [updateClocks, driverCall, driverQuery, hd, SoundDriver.call,
      Option.bind_eq_bind, Option.some_bind, h3, if_false, List.append_assoc,
      List.singleton_append, List.cons_append, List.nil_append, isLooping] at hl ⊢
    simp only [hl, if_false, Option.some_bind, hle]

/-- The body of keepPlaying, written with its local `fetchEnd`. -/
theorem keepPlaying_def (env : Env) (s : RosegardenSequencer) :
    keepPlaying env s =
      (if keepPlaying.fetchEnd s > s.m_lastFetchSongPosition then
          fetchEvents env s [] s.m_lastFetchSongPosition (keepPlaying.fetchEnd s) false
        else some ([], s)).bind
        (fun p =>
          (driverCall p.2
            (.processEventsOut p.1 p.2.m_lastFetchSongPosition (keepPlaying.fetchEnd s))).bind
          (fun s₁ => some (true,
            if keepPlaying.fetchEnd s > s₁.m_lastFetchSongPosition then
              { s₁ with m_lastFetchSongPosition := keepPlaying.fetchEnd s }
            else s₁))) := by
  unfold keepPlaying keepPlaying.fetchEnd
  simp only [Option.bind_eq_bind]
  generalize (if isLooping s = true ∧ s.m_songPosition + s.m_readAhead ≥ s.m_loopEnd then
    s.m_loopEnd - RealTime.make 0 1 else s.m_songPosition + s.m_readAhead) = fe
  by_cases h : fe > s.m_lastFetchSongPosition <;> simp only [h, if_true, if_false]

/-- The complete effect of keepPlaying on a state with a driver (and, when a
fetch is due while the transport runs, a meta-iterator). -/
theorem keepPlaying_eq (env : Env) (s : RosegardenSequencer) (d : SoundDriver)
    (hd : s.m_driver = some d)
    (hit : s.m_metaIterator.isSome ∨ s.m_transportStatus = .STOPPED ∨
      s.m_transportStatus = .STOPPING ∨
      ¬ keepPlaying.fetchEnd s > s.m_lastFetchSongPosition) :
    ∃ batch qs mi lst, commands qs = [] ∧
      keepPlaying env s = some (true, { s with
        m_driver := some ⟨d.log ++ qs ++
          [.processEventsOut batch s.m_lastFetchSongPosition (keepPlaying.fetchEnd s)]⟩
        m_metaIterator := mi
        m_lastStartTime := lst
        m_lastFetchSongPosition :=
          if keepPlaying.fetchEnd s > s.m_lastFetchSongPosition then keepPlaying.fetchEnd s
          else s.m_lastFetchSongPosition }) ∧
      (keepPlaying.fetchEnd s > s.m_lastFetchSongPosition →
        ∃ s₂, fetchEvents env s [] s.m_lastFetchSongPosition (keepPlaying.fetchEnd s) false =
          some (batch, s₂) ∧ s₂.m_metaIterator = mi ∧ s₂.m_lastStartTime = lst) ∧
      (¬ keepPlaying.fetchEnd s > s.m_lastFetchSongPosition →
        batch = [] ∧ qs = [] ∧ mi = s.m_metaIterator ∧ lst = s.m_lastStartTime) := by
  by_cases hdue : keepPlaying.fetchEnd s > s.m_lastFetchSongPosition
  · have hit' : s.m_metaIterator.isSome ∨ s.m_transportStatus = .STOPPED ∨
        s.m_transportStatus = .STOPPING := by
      rcases hit with h | h | h | h
      · exact Or.inl h
      · exact Or.inr (Or.inl h)
      · exact Or.inr (Or.inr h)
      · exact absurd hdue h
    obtain ⟨batch, qs, hq, hf⟩ := fetchEvents_frame env s d [] s.m_lastFetchSongPosition
      (keepPlaying.fetchEnd s) false hd hit'
    refine ⟨batch, qs, _, _, hq, ?_, fun _ => ⟨_, hf, rfl, rfl⟩, fun h => absurd hdue h⟩
    rw [keepPlaying_def]
    simp only [hdue, if_true, hf, Option.some_bind, driverCall, SoundDriver.call]
  · refine ⟨[], [], s.m_metaIterator, s.m_lastStartTime, rfl, ?_, fun h => absurd h hdue,
      fun _ => ⟨rfl, rfl, rfl, rfl⟩⟩
    rw [keepPlaying_def]
    simp only [hdue, if_false, Option.some_bind, driverCall, hd, SoundDriver.call,
      List.append_nil]

/-- Whenever stop returns, the token has grown by one and the status is STOPPING. -/
theorem stop_some (s s' : RosegardenSequencer) (h : stop s = some s') :
    s'.m_transportToken = s.m_transportToken + 1 ∧ s'.m_transportStatus = .STOPPING := by
  cases hd : s.m_driver with
  | none => simp [stop, driverCall, hd] at h
  | some d =>
    rw [stop_eq s d hd] at h
    simp only [Option.some.injEq] at h
    subst h
    exact ⟨rfl, rfl⟩

/-- Whenever punchOut returns, the token is unchanged. -/
theorem punchOut_some (s : RosegardenSequencer) (r : Bool) (s' : RosegardenSequencer)
    (h : punchOut s = some (r, s')) : s'.m_transportToken = s.m_transportToken := by
  by_cases hs : s.m_transportStatus = .RECORDING
  · cases hd : s.m_driver with
    | none => simp [punchOut, driverCall, hd, hs] at h
    | some d =>
      simp [punchOut, driverCall, hd, hs] at h
      rw [← h.2]
  · simp [punchOut, hs] at h
    rw [← h.2]

/-- Whenever play returns, the token is unchanged. -/
theorem play_some (env : Env) (s : RosegardenSequencer)
    (time readAhead audioMix audioRead audioWrite : RealTime) (smallFileSize : Int)
    (r : Bool) (s' : RosegardenSequencer)
    (h : play env s time readAhead audioMix audioRead audioWrite smallFileSize = some (r, s')) :
    s'.m_transportToken = s.m_transportToken := by
  by_cases h1 : s.m_transportStatus = .PLAYING ∨ s.m_transportStatus = .STARTING_TO_PLAY
  · rw [play_while_playing env s _ _ _ _ _ _ h1] at h
    simp only [Option.some.injEq, Prod.mk.injEq] at h
    rw [← h.2]
  · by_cases h2 : s.m_transportStatus = .RECORDING
    · rw [play_while_recording env s _ _ _ _ _ _ h2] at h
      simp only [Option.some.injEq, Prod.mk.injEq] at h
      rw [← h.2]
    · cases hd : s.m_driver with
      | none =>
        by_cases h4 : s.m_transportStatus = .STARTING_TO_RECORD <;>
          simp [play, h1, h2, h4, driverCall, hd] at h
      | some d =>
        obtain ⟨segs, hp⟩ := play_fresh env s d time readAhead audioMix audioRead audioWrite
          smallFileSize hd (fun h => h1 (Or.inl h)) (fun h => h1 (Or.inr h)) h2
        rw [hp] at h
        simp only [Option.some.injEq, Prod.mk.injEq] at h
        rw [← h.2]

/-- Whenever setLoop returns, only the loop bounds and the driver log have changed. -/
theorem setLoop_some (s : RosegardenSequencer) (a b : RealTime) (s' : RosegardenSequencer)
    (h : setLoop s a b = some s') :
    s'.m_transportToken = s.m_transportToken ∧ s'.m_transportStatus = s.m_transportStatus := by
  cases hd : s.m_driver with
  | none => simp [setLoop, driverCall, hd] at h
  | some d =>
    simp [setLoop, driverCall, hd] at h
    subst h
    exact ⟨rfl, rfl⟩

/-- Whenever record returns, the token is unchanged, or record has failed and
stopped the transport and the token has grown by one. -/
theorem record_some (env : Env) (s : RosegardenSequencer)
    (time readAhead audioMix audioRead audioWrite : RealTime) (smallFileSize : Int)
    (recordMode : TransportStatus) (r : Bool) (s' : RosegardenSequencer)
    (h : record env s time readAhead audioMix audioRead audioWrite smallFileSize recordMode =
      some (r, s')) :
    s'.m_transportToken = s.m_transportToken ∨
      (r = false ∧ s'.m_transportStatus = .STOPPING ∧
        s'.m_transportToken = s.m_transportToken + 1) := by
  unfold record at h
  simp only at h
  generalize (if s.m_transportStatus = .PLAYING ∧ recordMode = .STARTING_TO_RECORD then
    TransportStatus.RECORDING else recordMode) = lm at h
  by_cases hm : lm = .STARTING_TO_RECORD ∨ lm = .RECORDING
  · rw [if_pos hm] at h
    by_cases hc : (record.audioInstruments env).length > 0 ∧
        (record.audioFileNames env).length ≠ (record.audioInstruments env).length
    · rw [if_pos hc] at h
      obtain ⟨s₀, h₀, h₁⟩ := Option.map_eq_some'.mp h
      simp only [Prod.mk.injEq] at h₁
      rw [← h₁.2, ← h₁.1]
      exact Or.inr ⟨rfl, (stop_some s s₀ h₀).2, (stop_some s s₀ h₀).1⟩
    · rw [if_neg hc] at h
      cases hd : s.m_driver with
      | none => simp [driverQuery, hd] at h
      | some d =>
        simp only [driverQuery, hd] at h
        by_cases hok : env.driverRecord d.log .RECORD_ON env.getArmedInstruments
            (record.audioFileNames env) = false
        · rw [if_pos hok] at h
          obtain ⟨s₀, h₀, h₁⟩ := Option.map_eq_some'.mp h
          simp only [Prod.mk.injEq] at h₁
          rw [← h₁.2, ← h₁.1]
          exact Or.inr ⟨rfl, (stop_some _ s₀ h₀).2, (stop_some _ s₀ h₀).1⟩
        · rw [if_neg hok] at h
          by_cases hrec : lm = .RECORDING
          · rw [if_pos hrec] at h
            simp only [Option.some.injEq, Prod.mk.injEq] at h
            rw [← h.2]
            exact Or.inl rfl
          · rw [if_neg hrec] at h
            simp only [driverCall] at h
            have ht := play_some env _ _ _ _ _ _ _ r s' h
            exact Or.inl ht
  · rw [if_neg hm] at h
    simp only [Option.some.injEq, Prod.mk.injEq] at h
    rw [← h.2]
    exact Or.inl rfl

/-- While the transport runs, a fetch without a meta-iterator has no result. -/
theorem fetchEvents_no_iterator (env : Env) (s : RosegardenSequencer) (c : MappedComposition)
    (start finish : RealTime) (firstFetch : Bool)
    (h1 : s.m_transportStatus ≠ .STOPPED) (h2 : s.m_transportStatus ≠ .STOPPING)
    (hit : s.m_metaIterator = none) :
    fetchEvents env s c start finish firstFetch = none := by
  simp [fetchEvents, h1, h2, getSlice, hit]

/-- Whenever jumpTo returns, the status is unchanged and the token is unchanged
(negative position) or has grown by one. -/
theorem jumpTo_some (env : Env) (s : RosegardenSequencer) (pos : RealTime)
    (s' : RosegardenSequencer) (h : jumpTo env s pos = some s') :
    s'.m_transportStatus = s.m_transportStatus ∧
    (pos < RealTime.zeroTime → s' = s) ∧
    (¬ pos < RealTime.zeroTime → s'.m_transportToken = s.m_transportToken + 1) := by
  by_cases hpos : pos < RealTime.zeroTime
  · simp only [jumpTo, hpos, if_true, Option.some.injEq] at h
    subst h
    exact ⟨rfl, fun _ => rfl, fun hn => absurd hpos hn⟩
  · refine ⟨?_, fun hn => absurd hn hpos, fun _ => ?_⟩ <;>
    · cases hd : s.m_driver with
      | none => simp [jumpTo, hpos, driverCall, hd] at h
      | some d =>
        cases hp : env.isPlaying (d.log ++ [.stopClocks, .resetPlayback s.m_songPosition pos]) with
        | false =>
          rw [jumpTo_not_playing env s d pos hpos hd hp] at h
          simp only [Option.some.injEq] at h
          subst h
          rfl
        | true =>
          by_cases hit : s.m_metaIterator.isSome ∨ s.m_transportStatus = .STOPPED ∨
              s.m_transportStatus = .STOPPING
          · obtain ⟨batch, s₂, d₂, _, _, _, hj, _, _, hst, _, _, _⟩ :=
              jumpTo_playing env s d pos hpos hd hit hp
            rw [hj] at h
            simp only [Option.some.injEq] at h
            subst h
            first
              | exact hst
              | rfl
          · simp only [not_or] at hit
            have hnone : s.m_metaIterator = none := by
              cases hmi : s.m_metaIterator with
              | none => rfl
              | some it => simp [hmi] at hit
            simp only [jumpTo, hpos, if_false, driverCall, driverQuery, hd, SoundDriver.call,
              Option.bind_eq_bind, Option.some_bind, List.append_assoc, List.singleton_append,
              List.cons_append, List.nil_append, hp, if_true] at h
            simp [fetchEvents, getSlice, hnone, hit.2.1, hit.2.2] at h

/-- Whenever updateClocks returns, the status and the token are unchanged and
the driver is present. -/
theorem updateClocks_some (env : Env) (s s' : RosegardenSequencer)
    (h : updateClocks env s = some s') :
    s'.m_transportStatus = s.m_transportStatus ∧
    s'.m_transportToken = s.m_transportToken ∧
    s'.m_driver.isSome = true := by
  cases hd : s.m_driver with
  | none => simp [updateClocks, driverCall, hd] at h
  | some d =>
    by_cases hs : s.m_transportStatus = .PLAYING ∨ s.m_transportStatus = .RECORDING
    · by_cases hr : s.m_loopStart ≠ s.m_loopEnd ∧
          env.getSequencerTime (d.log ++ [.runTasks]) ≥ s.m_loopEnd
      · cases hit : s.m_metaIterator with
        | none =>
          have h1 : s.m_transportStatus ≠ .STOPPED := by rcases hs with h | h <;> simp [h]
          have h2 : s.m_transportStatus ≠ .STOPPING := by rcases hs with h | h <;> simp [h]
          have h3 : ¬ (s.m_transportStatus ≠ .PLAYING ∧ s.m_transportStatus ≠ .RECORDING) := by
            rcases hs with h | h <;> simp [h]
          have hl : isLooping s = true := by simp [isLooping, hr.1]
          have ht := hr.2
          simp only [updateClocks, driverCall, driverQuery, hd, SoundDriver.call,
            Option.bind_eq_bind, Option.some_bind, h3, if_false, List.append_assoc,
            List.singleton_append, List.cons_append, List.nil_append, isLooping] at hl h
          simp only [hl, ht, ge_iff_le, and_self, if_true, Option.some_bind] at h
          simp [fetchEvents, getSlice, hit, h1, h2] at h
        | some it =>
          obtain ⟨batch, s₂, d₂, _, _, _, _, hu, _, _, hst, htk⟩ :=
            updateClocks_rewind env s d it hs hd hit hr.1 hr.2
          rw [hu] at h
          simp only [Option.some.injEq] at h
          subst h
          exact ⟨hst, htk, rfl⟩
      · obtain ⟨qs, pp, _, hu⟩ := updateClocks_advance env s d hs hd hr
        rw [hu] at h
        simp only [Option.some.injEq] at h
        subst h
        exact ⟨rfl, rfl, rfl⟩
    · simp only [not_or] at hs
      rw [updateClocks_idle env s d hs.1 hs.2 hd] at h
      simp only [Option.some.injEq] at h
      subst h
      exact ⟨rfl, rfl, rfl⟩

/-- Whenever startPlaying returns, the status is unchanged, the token has
grown by one and the driver is present. -/
theorem startPlaying_some (env : Env) (s : RosegardenSequencer) (r : Bool)
    (s' : RosegardenSequencer) (h : startPlaying env s = some (r, s')) :
    s'.m_transportStatus = s.m_transportStatus ∧
    s'.m_transportToken = s.m_transportToken + 1 ∧
    s'.m_driver.isSome = true := by
  cases hd : s.m_driver with
  | none => simp [startPlaying, driverCall, hd] at h
  | some d =>
    simp only [startPlaying, driverCall, hd, SoundDriver.call, Option.bind_eq_bind,
      Option.some_bind] at h
    obtain ⟨p, hf, h⟩ := Option.bind_eq_some.mp h
    obtain ⟨c, s₁⟩ := p
    obtain ⟨dr, mi, lst, hs₁, hdr⟩ := fetchEvents_some env _ _ _ _ _ c s₁ hf
    subst hs₁
    cases dr with
    | none => simp at hdr
    | some d₁ =>
      cases mi with
      | none => simp [metaIteratorGetAudioEvents] at h
      | some it₁ =>
        simp [metaIteratorGetAudioEvents, incrementTransportToken] at h
        rw [← h.2]
        exact ⟨rfl, rfl, rfl⟩

/-- Whenever keepPlaying returns, the status and the token are unchanged and
the driver is present. -/
theorem keepPlaying_some (env : Env) (s : RosegardenSequencer) (r : Bool)
    (s' : RosegardenSequencer) (h : keepPlaying env s = some (r, s')) :
    s'.m_transportStatus = s.m_transportStatus ∧
    s'.m_transportToken = s.m_transportToken ∧
    s'.m_driver.isSome = true := by
  rw [keepPlaying_def] at h
  obtain ⟨p, hf, h⟩ := Option.bind_eq_some.mp h
  obtain ⟨c, s₁⟩ := p
  have hfr : ∃ dr mi lst,
      s₁ = { s with m_driver := dr, m_metaIterator := mi, m_lastStartTime := lst } := by
    split at hf
    · obtain ⟨dr, mi, lst, hs₁, _⟩ := fetchEvents_some env _ _ _ _ _ c s₁ hf
      exact ⟨dr, mi, lst, hs₁⟩
    · simp only [Option.some.injEq, Prod.mk.injEq] at hf
      exact ⟨s.m_driver, s.m_metaIterator, s.m_lastStartTime, hf.2.symm⟩
  obtain ⟨dr, mi, lst, hs₁⟩ := hfr
  subst hs₁
  cases dr with
  | none => simp [driverCall] at h
  | some d₁ =>
    simp only [driverCall, Option.some_bind, Option.some.injEq, Prod.mk.injEq] at h
    rw [← h.2]
    split <;> exact ⟨rfl, rfl, rfl⟩

/-- Without a driver, keepPlaying has no result. -/
theorem keepPlaying_no_driver (env : Env) (s : RosegardenSequencer)
    (hd : s.m_driver = none) : keepPlaying env s = none := by
  cases hk : keepPlaying env s with
  | none => rfl
  | some p =>
    obtain ⟨r, s'⟩ := p
    rw [keepPlaying_def] at hk
    obtain ⟨q, hf, h⟩ := Option.bind_eq_some.mp hk
    obtain ⟨c, s₁⟩ := q
    have hs₁ : s₁.m_driver = none := by
      split at hf
      · obtain ⟨dr, mi, lst, hs₁, hdr⟩ := fetchEvents_some env _ _ _ _ _ c s₁ hf
        subst hs₁
        rw [hd] at hdr
        cases dr with
        | none => rfl
        | some d₁ => simp at hdr
      · simp only [Option.some.injEq, Prod.mk.injEq] at hf
        rw [← hf.2]
        exact hd
    simp [driverCall, hs₁] at h

/-- Every operation leaves the transport token where it was or above. -/
theorem Operation.apply_token_le (env : Env) (s : RosegardenSequencer) (op : Operation)
    (s' : RosegardenSequencer) (h : op.apply env s = some s') :
    s.m_transportToken ≤ s'.m_transportToken := by
  cases op with
  | play time readAhead audioMix audioRead audioWrite smallFileSize =>
    obtain ⟨p, hp, rfl⟩ := Option.map_eq_some'.mp h
    exact Nat.le_of_eq (play_some env s _ _ _ _ _ _ p.1 p.2 hp).symm
  | record time readAhead audioMix audioRead audioWrite smallFileSize recordMode =>
    obtain ⟨p, hp, rfl⟩ := Option.map_eq_some'.mp h
    rcases record_some env s _ _ _ _ _ _ _ p.1 p.2 hp with ht | ht
    · exact Nat.le_of_eq ht.symm
    · rw [ht.2.2]
      exact Nat.le_add_right _ 1
  | stop =>
    rw [(stop_some s s' h).1]
    exact Nat.le_add_right _ 1
  | punchOut =>
    obtain ⟨p, hp, rfl⟩ := Option.map_eq_some'.mp h
    exact Nat.le_of_eq (punchOut_some s p.1 p.2 hp).symm
  | jumpTo pos =>
    obtain ⟨_, h1, h2⟩ := jumpTo_some env s pos s' h
    by_cases hpos : pos < RealTime.zeroTime
    · rw [h1 hpos]
    · rw [h2 hpos]
      exact Nat.le_add_right _ 1
  | setLoop loopStart loopEnd =>
    exact Nat.le_of_eq (setLoop_some s _ _ s' h).1.symm
  | updateClocks =>
    exact Nat.le_of_eq (updateClocks_some env s s' h).2.1.symm
  | quit =>
    simp only [Operation.apply, Option.some.injEq] at h
    subst h
    exact Nat.le_refl _
  | startPlaying =>
    obtain ⟨p, hp, rfl⟩ := Option.map_eq_some'.mp h
    rw [(startPlaying_some env s p.1 p.2 hp).2.1]
    exact Nat.le_add_right _ 1
  | keepPlaying =>
    obtain ⟨p, hp, rfl⟩ := Option.map_eq_some'.mp h
    exact Nat.le_of_eq (keepPlaying_some env s p.1 p.2 hp).2.1.symm
  | transportChange request =>
    simp only [Operation.apply, Option.some.injEq] at h
    subst h
    simp only [Rosegarden.transportChange]
    split <;> exact Nat.le_refl _
  | transportJump request rt =>
    simp only [Operation.apply, Option.some.injEq] at h
    subst h
    simp only [Rosegarden.transportJump]
    split <;> exact Nat.le_refl _
  | getNextTransportRequest request time =>
    simp only [Operation.apply, Option.some.injEq] at h
    subst h
    simp only [Rosegarden.getNextTransportRequest]
    split <;> exact Nat.le_refl _
  | isTransportSyncComplete token =>
    simp only [Operation.apply, Option.some.injEq] at h
    subst h
    exact Nat.le_refl _

/-- Every sequence of operations leaves the transport token where it was or above. -/
theorem run_token_le (env : Env) (ops : List Operation) (s s' : RosegardenSequencer)
    (h : run env s ops = some s') : s.m_transportToken ≤ s'.m_transportToken := by
  induction ops generalizing s with
  | nil =>
    simp only [run, Option.some.injEq] at h
    subst h
    exact Nat.le_refl _
  | cons op ops ih =>
    simp only [run] at h
    cases hop : op.apply env s with
    | none => simp [hop] at h
    | some s₁ =>
      rw [hop] at h
      exact Nat.le_trans (Operation.apply_token_le env s op s₁ hop) (ih s₁ h)

/-- Without a driver, record returns only when the mode is not a record mode,
and then leaves the state unchanged. -/
theorem record_no_driver (env : Env) (s : RosegardenSequencer)
    (time readAhead audioMix audioRead audioWrite : RealTime) (smallFileSize : Int)
    (recordMode : TransportStatus) (r : Bool) (s' : RosegardenSequencer)
    (hd : s.m_driver = none)
    (h : record env s time readAhead audioMix audioRead audioWrite smallFileSize recordMode =
      some (r, s')) : s' = s := by
  unfold record at h
  simp only at h
  generalize (if s.m_transportStatus = .PLAYING ∧ recordMode = .STARTING_TO_RECORD then
    TransportStatus.RECORDING else recordMode) = lm at h
  by_cases hm : lm = .STARTING_TO_RECORD ∨ lm = .RECORDING
  · rw [if_pos hm] at h
    by_cases hc : (record.audioInstruments env).length > 0 ∧
        (record.audioFileNames env).length ≠ (record.audioInstruments env).length
    · rw [if_pos hc] at h
      simp [stop, driverCall, hd] at h
    · rw [if_neg hc] at h
      simp [driverQuery, hd] at h
  · rw [if_neg hm] at h
    simp only [Option.some.injEq, Prod.mk.injEq] at h
    exact h.2.symm

/-- In a state without a driver whose status is QUIT, every operation that
returns leaves the status QUIT and the driver absent. -/
theorem Operation.apply_quit_no_driver (env : Env) (s : RosegardenSequencer) (op : Operation)
    (s' : RosegardenSequencer) (hs : s.m_transportStatus = .QUIT) (hd : s.m_driver = none)
    (h : op.apply env s = some s') :
    s'.m_transportStatus = .QUIT ∧ s'.m_driver = none := by
  cases op with
  | play time readAhead audioMix audioRead audioWrite smallFileSize =>
    obtain ⟨p, hp, rfl⟩ := Option.map_eq_some'.mp h
    simp [Rosegarden.play, hs, driverCall, hd] at hp
  | record time readAhead audioMix audioRead audioWrite smallFileSize recordMode =>
    obtain ⟨p, hp, rfl⟩ := Option.map_eq_some'.mp h
    rw [record_no_driver env s _ _ _ _ _ _ _ p.1 p.2 hd hp]
    exact ⟨hs, hd⟩
  | stop => simp [Operation.apply, Rosegarden.stop, driverCall, hd] at h
  | punchOut =>
    obtain ⟨p, hp, rfl⟩ := Option.map_eq_some'.mp h
    simp [Rosegarden.punchOut, hs] at hp
    rw [← hp]
    exact ⟨hs, hd⟩
  | jumpTo pos =>
    by_cases hpos : pos < RealTime.zeroTime
    · simp [Operation.apply, Rosegarden.jumpTo, hpos] at h
      subst h
      exact ⟨hs, hd⟩
    · simp [Operation.apply, Rosegarden.jumpTo, hpos, driverCall, hd] at h
  | setLoop loopStart loopEnd =>
    simp [Operation.apply, Rosegarden.setLoop, driverCall, hd] at h
  | updateClocks => simp [Operation.apply, Rosegarden.updateClocks, driverCall, hd] at h
  | quit =>
    simp only [Operation.apply, Option.some.injEq] at h
    subst h
    exact ⟨rfl, hd⟩
  | startPlaying =>
    simp [Operation.apply, Rosegarden.startPlaying, driverCall, hd] at h
  | keepPlaying =>
    simp [Operation.apply, keepPlaying_no_driver env s hd] at h
  | transportChange request =>
    simp only [Operation.apply, Option.some.injEq] at h
    subst h
    simp only [Rosegarden.transportChange]
    split <;> exact ⟨hs, hd⟩
  | transportJump request rt =>
    simp only [Operation.apply, Option.some.injEq] at h
    subst h
    simp only [Rosegarden.transportJump]
    split <;> exact ⟨hs, hd⟩
  | getNextTransportRequest request time =>
    simp only [Operation.apply, Option.some.injEq] at h
    subst h
    simp only [Rosegarden.getNextTransportRequest]
    split <;> exact ⟨hs, hd⟩
  | isTransportSyncComplete token =>
    simp only [Operation.apply, Option.some.injEq] at h
    subst h
    exact ⟨hs, hd⟩

/-- In a state without a driver whose status is QUIT, every sequence of
operations that returns leaves the status QUIT. -/
theorem run_quit_no_driver (env : Env) (ops : List Operation) (s s' : RosegardenSequencer)
    (hs : s.m_transportStatus = .QUIT) (hd : s.m_driver = none)
    (h : run env s ops = some s') :
    s'.m_transportStatus = .QUIT ∧ s'.m_driver = none := by
  induction ops generalizing s with
  | nil =>
    simp only [run, Option.some.injEq] at h
    subst h
    exact ⟨hs, hd⟩
  | cons op ops ih =>
    simp only [run] at h
    cases hop : op.apply env s with
    | none => simp [hop] at h
    | some s₁ =>
      rw [hop] at h
      obtain ⟨h1, h2⟩ := Operation.apply_quit_no_driver env s op s₁ hs hd hop
      exact ih s₁ h1 h2 h

/-- The order on RealTime is reflexive. -/
theorem RealTime.le_refl (a : RealTime) : a ≤ a := by
  show RealTime.le a a
  unfold RealTime.le
  omega

/-- Strictly earlier implies no later. -/
theorem RealTime.le_of_lt (a b : RealTime) (h : a < b) : a ≤ b := by
  have h' : RealTime.lt a b := h
  show RealTime.le a b
  unfold RealTime.lt at h'
  unfold RealTime.le
  omega

/-- The fetch end of keepPlaying never lies beyond the song position plus the
read-ahead, the loop end being a normalized time. -/
theorem keepPlaying.fetchEnd_le (s : RosegardenSequencer) (hn : s.m_loopEnd.normalized) :
    keepPlaying.fetchEnd s ≤ s.m_songPosition + s.m_readAhead := by
  unfold keepPlaying.fetchEnd
  split
  · rename_i hc
    have h : RealTime.le s.m_loopEnd (s.m_songPosition + s.m_readAhead) := hc.2
    show RealTime.le (RealTime.sub s.m_loopEnd (RealTime.make 0 1)) _
    generalize s.m_songPosition + s.m_readAhead = x at h ⊢
    obtain ⟨h0, h1⟩ := hn
    simp only [RealTime.le, RealTime.sub, RealTime.make, RealTime.nsPerS] at *
    omega
  · exact RealTime.le_refl _

/-- Running two sequences one after the other. -/
theorem run_append (env : Env) (ops₁ ops₂ : List Operation) (s : RosegardenSequencer) :
    run env s (ops₁ ++ ops₂) = (run env s ops₁).bind (fun s₁ => run env s₁ ops₂) := by
  induction ops₁ generalizing s with
  | nil => rfl
  | cons op ops ih =>
    simp only [List.cons_append, run]
    cases op.apply env s with
    | none => rfl
    | some s₁ => exact ih s₁

/-- Outside PLAYING and RECORDING, any number of updateClocks calls only lets
the driver run its tasks that many times. -/
theorem run_updateClocks_idle (env : Env) (n : Nat) (s : RosegardenSequencer) (d : SoundDriver)
    (h1 : s.m_transportStatus ≠ .PLAYING) (h2 : s.m_transportStatus ≠ .RECORDING)
    (hd : s.m_driver = some d) :
    run env s (List.replicate n .updateClocks) =
      some { s with m_driver := some ⟨d.log ++ List.replicate n .runTasks⟩ } := by
  induction n generalizing s d with
  | zero =>
    obtain ⟨drv, st, sp, lf, ra, am, ar, aw, sf, ls, le, pa, sg, mi, lt, tk, eo, tr, pp⟩ := s
    simp only at hd
    subst hd
    simp [run]
  | succ n ih =>
    simp only [List.replicate_succ, run, Operation.apply, updateClocks_idle env s d h1 h2 hd]
    rw [ih { s with m_driver := some ⟨d.log ++ [.runTasks]⟩ } ⟨d.log ++ [.runTasks]⟩ h1 h2 rfl]
    simp

/-- The end-to-end run: from STOPPED with a driver, play from zero with one
second of read-ahead, startPlaying, any number of updateClocks calls and stop
all return, and leave the song position at zero and the status STOPPING. -/
theorem end_to_end (env : Env) (s : RosegardenSequencer) (d : SoundDriver) (n : Nat)
    (audioMix audioRead audioWrite : RealTime) (smallFileSize : Int)
    (hs : s.m_transportStatus = .STOPPED) (hd : s.m_driver = some d) :
    ∃ s', run env s
        ([.play RealTime.zeroTime ⟨1, 0⟩ audioMix audioRead audioWrite smallFileSize,
          .startPlaying] ++ List.replicate n .updateClocks ++ [.stop]) = some s' ∧
      s'.m_songPosition = ⟨0, 0⟩ ∧ s'.m_transportStatus = .STOPPING := by
  have h₁ : ∃ s₁ d₁ it₁,
      play env s RealTime.zeroTime ⟨1, 0⟩ audioMix audioRead audioWrite smallFileSize =
        some (true, s₁) ∧
      s₁.m_transportStatus = .STARTING_TO_PLAY ∧ s₁.m_driver = some d₁ ∧
      s₁.m_metaIterator = some it₁ := by
    obtain ⟨segs, hp⟩ := play_fresh env s d RealTime.zeroTime ⟨1, 0⟩ audioMix audioRead
      audioWrite smallFileSize hd (by simp [hs]) (by simp [hs]) (by simp [hs])
    exact ⟨_, _, _, hp, by simp [hs], rfl, rfl⟩
  obtain ⟨s₁, d₁, it₁, hp, hst₁, hd₁, hit₁⟩ := h₁
  have h₂ : ∃ s₂ d₂, startPlaying env s₁ = some (true, s₂) ∧
      s₂.m_transportStatus = .STARTING_TO_PLAY ∧ s₂.m_driver = some d₂ := by
    obtain ⟨batch, s₂, d₂, it₂, _, _, _, _, _, hsp, _⟩ := startPlaying_eq env s₁ d₁ it₁ hd₁ hit₁
    have hst := (startPlaying_some env _ _ _ hsp).1
    exact ⟨_, _, hsp, hst.trans hst₁, rfl⟩
  obtain ⟨s₂, d₂, hsp, hst₂, hd₂⟩ := h₂
  have hrun := run_updateClocks_idle env n s₂ d₂ (by simp [hst₂]) (by simp [hst₂]) hd₂
  have hstop := stop_eq { s₂ with m_driver := some ⟨d₂.log ++ List.replicate n .runTasks⟩ }
    ⟨d₂.log ++ List.replicate n .runTasks⟩ rfl
  refine ⟨{ s₂ with
      m_driver := some ⟨d₂.log ++ List.replicate n .runTasks ++ [.stopPlayback]⟩
      m_transportStatus := .STOPPING
      m_songPosition := ⟨0, 0⟩
      m_lastFetchSongPosition := ⟨0, 0⟩
      m_mmappedSegments := []
      m_metaIterator := none
      m_transportToken := s₂.m_transportToken + 1 }, ?_, rfl, rfl⟩
  rw [run_append, run_append]
  simp only [run, Operation.apply, hp, Option.map_some', hsp, Option.bind_eq_bind,
    Option.some_bind]
  rw [hrun]
  simp only [Option.some_bind]
  rw [hstop]

/-! ## Claims on the transport protocol -/

/-- C11: play() called while the status is RECORDING is meant to punch out.
On the sample recording state the code sets the status to PLAYING first, so
the punchOut() it then calls finds no recording: play() returns false and the
driver receives no punchOut, whereas punchOut() called directly on the same
state returns true after one driver punchOut.  The song position and the
mapped segments are untouched. -/
theorem play_while_recording_misses_punchOut :
    demoRecording.m_transportStatus = .RECORDING ∧
    play demoEnv demoRecording ⟨0, 0⟩ ⟨1, 0⟩ ⟨0, 60000000⟩ ⟨0, 100000000⟩ ⟨0, 200000000⟩ 128 =
      some (false, { demoRecording with m_transportStatus := .PLAYING }) ∧
    punchOut demoRecording = some (true, { demoRecording with
      m_driver := some ⟨[.punchOut]⟩
      m_transportStatus := .PLAYING }) :=
  ⟨rfl, play_while_recording demoEnv demoRecording _ _ _ _ _ _ rfl, rfl⟩

/-- C12, as stated, fails: from the status STOPPING a call of play() returns
true and leaves the status STARTING_TO_PLAY. -/
theorem play_from_stopping_changes_status :
    demoStopping.m_transportStatus = .STOPPING ∧
    ∃ s', play demoEnv demoStopping ⟨0, 0⟩ ⟨1, 0⟩ ⟨0, 60000000⟩ ⟨0, 100000000⟩
        ⟨0, 200000000⟩ 128 = some (true, s') ∧
      s'.m_transportStatus = .STARTING_TO_PLAY ∧
      s'.m_transportStatus ≠ demoStopping.m_transportStatus := by
  obtain ⟨segs, h⟩ := play_fresh demoEnv demoStopping ⟨[]⟩ ⟨0, 0⟩ ⟨1, 0⟩ ⟨0, 60000000⟩
    ⟨0, 100000000⟩ ⟨0, 200000000⟩ 128 rfl (by decide) (by decide) (by decide)
  refine ⟨rfl, _, h, rfl, ?_⟩
  show TransportStatus.STARTING_TO_PLAY ≠ TransportStatus.STOPPING
  decide

/-- C12, amended: with a driver, play() leaves the status unchanged from
PLAYING and STARTING_TO_PLAY (it returns at once) and from STARTING_TO_RECORD;
from STOPPING and QUIT, as from STOPPED, it returns true and sets the status
to STARTING_TO_PLAY. -/
theorem play_status_by_entry_state (env : Env) (s : RosegardenSequencer) (d : SoundDriver)
    (time readAhead audioMix audioRead audioWrite : RealTime) (smallFileSize : Int)
    (hd : s.m_driver = some d) :
    (s.m_transportStatus = .PLAYING ∨ s.m_transportStatus = .STARTING_TO_PLAY →
      play env s time readAhead audioMix audioRead audioWrite smallFileSize = some (true, s)) ∧
    (s.m_transportStatus = .STARTING_TO_RECORD →
      ∃ s', play env s time readAhead audioMix audioRead audioWrite smallFileSize =
          some (true, s') ∧ s'.m_transportStatus = .STARTING_TO_RECORD) ∧
    (s.m_transportStatus = .STOPPING ∨ s.m_transportStatus = .QUIT ∨
        s.m_transportStatus = .STOPPED →
      ∃ s', play env s time readAhead audioMix audioRead audioWrite smallFileSize =
          some (true, s') ∧ s'.m_transportStatus = .STARTING_TO_PLAY) := by
  refine ⟨fun hs => play_while_playing env s _ _ _ _ _ _ hs, fun hs => ?_, fun hs => ?_⟩
  · obtain ⟨segs, h⟩ := play_fresh env s d time readAhead audioMix audioRead audioWrite
      smallFileSize hd (by simp [hs]) (by simp [hs]) (by simp [hs])
    exact ⟨_, h, by simp [hs]⟩
  · obtain ⟨segs, h⟩ := play_fresh env s d time readAhead audioMix audioRead audioWrite
      smallFileSize hd (by rcases hs with h | h | h <;> simp [h])
      (by rcases hs with h | h | h <;> simp [h]) (by rcases hs with h | h | h <;> simp [h])
    exact ⟨_, h, by rcases hs with h | h | h <;> simp [h]⟩

/-- Witness: the three cases on the sample playing state. -/
theorem play_status_by_entry_state_witness :
    demoPlaying.m_driver = some ⟨[]⟩ ∧
    play demoEnv demoPlaying ⟨0, 0⟩ ⟨1, 0⟩ ⟨0, 60000000⟩ ⟨0, 100000000⟩ ⟨0, 200000000⟩ 128 =
      some (true, demoPlaying) :=
  ⟨rfl, (play_status_by_entry_state demoEnv demoPlaying ⟨[]⟩ ⟨0, 0⟩ ⟨1, 0⟩ ⟨0, 60000000⟩
    ⟨0, 100000000⟩ ⟨0, 200000000⟩ 128 rfl).1 (Or.inl rfl)⟩

/-- C13, as stated, fails: the sample playing state after quit() has the status
QUIT, and a following stop() leaves the status STOPPING. -/
theorem quit_then_stop_leaves_quit :
    (quit demoPlaying).m_transportStatus = .QUIT ∧
    ∃ s', run demoEnv (quit demoPlaying) [.stop] = some s' ∧
      s'.m_transportStatus = .STOPPING :=
  ⟨rfl, _, by simp only [run, Operation.apply]; rw [stop_eq (quit demoPlaying) ⟨[]⟩ rfl], rfl⟩

/-- C13, amended: construction with a driver factory that returns no driver
yields the status QUIT and a null driver, otherwise the status STOPPED with a
driver, token 1 and both positions zero; and from a state whose status is QUIT
and whose driver is null, every sequence of operations that returns (an
operation that dereferences the null driver does not) leaves the status
QUIT. -/
theorem quit_permanent_without_driver (env : Env) :
    (env.createDriver = false →
      (RosegardenSequencer.new env).m_transportStatus = .QUIT ∧
      (RosegardenSequencer.new env).m_driver = none) ∧
    (env.createDriver = true →
      (RosegardenSequencer.new env).m_transportStatus = .STOPPED ∧
      (RosegardenSequencer.new env).m_driver.isSome = true ∧
      (RosegardenSequencer.new env).m_transportToken = 1 ∧
      (RosegardenSequencer.new env).m_songPosition = RealTime.zeroTime ∧
      (RosegardenSequencer.new env).m_lastFetchSongPosition = RealTime.zeroTime) ∧
    (∀ (ops : List Operation) (s s' : RosegardenSequencer),
      s.m_transportStatus = .QUIT → s.m_driver = none → run env s ops = some s' →
      s'.m_transportStatus = .QUIT) := by
  refine ⟨fun h => ?_, fun h => ?_, fun ops s s' hs hd hr => ?_⟩
  · simp [RosegardenSequencer.new, h]
  · simp [RosegardenSequencer.new, h, RealTime.make, RealTime.zeroTime, RealTime.nsPerS]
  · exact (run_quit_no_driver env ops s s' hs hd hr).1

/-- Witness: the sequencer constructed without a driver, then quit(),
punchOut() and a jump to a negative position. -/
theorem quit_permanent_without_driver_witness :
    demoEnvNoDriver.createDriver = false ∧
    (RosegardenSequencer.new demoEnvNoDriver).m_transportStatus = .QUIT ∧
    (RosegardenSequencer.new demoEnvNoDriver).m_driver = none ∧
    run demoEnvNoDriver (RosegardenSequencer.new demoEnvNoDriver)
      [.quit, .punchOut, .jumpTo ⟨-1, 0⟩] = some (RosegardenSequencer.new demoEnvNoDriver) ∧
    (RosegardenSequencer.new demoEnvNoDriver).m_transportStatus = .QUIT :=
  ⟨rfl, rfl, rfl, by decide,
    (quit_permanent_without_driver demoEnvNoDriver).2.2 [.quit, .punchOut, .jumpTo ⟨-1, 0⟩]
      (RosegardenSequencer.new demoEnvNoDriver) (RosegardenSequencer.new demoEnvNoDriver)
      rfl rfl (by decide)⟩

/-- C15: no operation of the engine lowers the transport token;
isTransportSyncComplete(t) is true exactly when the current token is at least
t; hence once isTransportSyncComplete(t) holds it holds after every further
sequence of operations. -/
theorem token_monotone_sync_stable (env : Env) :
    (∀ (op : Operation) (s s' : RosegardenSequencer), op.apply env s = some s' →
      s.m_transportToken ≤ s'.m_transportToken) ∧
    (∀ (s : RosegardenSequencer) (t : TransportToken),
      isTransportSyncComplete s t = true ↔ s.m_transportToken ≥ t) ∧
    (∀ (ops : List Operation) (s s' : RosegardenSequencer) (t : TransportToken),
      isTransportSyncComplete s t = true → run env s ops = some s' →
      isTransportSyncComplete s' t = true) := by
  refine ⟨fun op s s' h => Operation.apply_token_le env s op s' h, fun s t => ?_,
    fun ops s s' t ht hr => ?_⟩
  · simp [isTransportSyncComplete]
  · simp only [isTransportSyncComplete, decide_eq_true_eq] at ht ⊢
    exact Nat.le_trans ht (run_token_le env ops s s' hr)

/-- Witness: token 5 is reached on the sample playing state and stays reached
after stop() and quit(). -/
theorem token_monotone_sync_stable_witness :
    isTransportSyncComplete demoPlaying 5 = true ∧
    ∃ s', run demoEnv demoPlaying [.stop, .quit] = some s' ∧
      isTransportSyncComplete s' 5 = true := by
  have hr : ∃ s', run demoEnv demoPlaying [.stop, .quit] = some s' := by
    simp only [run, Operation.apply]
    rw [stop_eq demoPlaying ⟨[]⟩ rfl]
    exact ⟨_, rfl⟩
  obtain ⟨s', hs'⟩ := hr
  exact ⟨rfl, s', hs', (token_monotone_sync_stable demoEnv).2.2 [.stop, .quit] demoPlaying s' 5 rfl hs'⟩

/-- Queueing calls only append their pairs to the request queue. -/
theorem RequestCall.foldl_apply (calls : List RequestCall) (s : RosegardenSequencer) :
    calls.foldl RequestCall.apply s =
      { s with m_transportRequests := s.m_transportRequests ++ calls.map RequestCall.pair } := by
  induction calls generalizing s with
  | nil => simp
  | cons c cs ih =>
    rw [List.foldl_cons, ih]
    cases c with
    | transportChange request =>
      by_cases h : request = .TransportNoChange <;>
        simp [RequestCall.apply, Rosegarden.transportChange, RequestCall.pair, h]
    | transportJump request rt =>
      by_cases h : request = .TransportNoChange <;>
        simp [RequestCall.apply, Rosegarden.transportJump, RequestCall.pair, h]

/-- Draining a queue of n pairs with n calls hands them over in order and
leaves the queue empty. -/
theorem getNextTransportRequests_drain (q : List (TransportRequest × RealTime))
    (s : RosegardenSequencer) (request : TransportRequest) (time : RealTime) :
    getNextTransportRequests q.length { s with m_transportRequests := q } request time =
      (q.map (fun p => (true, p.1, p.2)), { s with m_transportRequests := [] }) := by
  induction q generalizing request time with
  | nil => rfl
  | cons p ps ih =>
    simp only [List.length_cons, getNextTransportRequests, getNextTransportRequest, List.map_cons]
    rw [ih]

/-- C16: the transport request queue is a FIFO.  After any sequence of n
transportChange / transportJump calls on an empty queue, the next n calls of
getNextTransportRequest return true and hand over the queued (request, time)
pairs in the order of the calls (time zero for transportChange), and the call
after them returns false and leaves its two output arguments as they were; the
state after the n + 1 calls is the state before the first queueing call, so
neither the status nor the token has changed, nor have they after queueing. -/
theorem transport_requests_fifo (calls : List RequestCall) (s : RosegardenSequencer)
    (request : TransportRequest) (time : RealTime) (hq : s.m_transportRequests = []) :
    (getNextTransportRequests calls.length (calls.foldl RequestCall.apply s) request time).1 =
      calls.map (fun c => (true, c.pair.1, c.pair.2)) ∧
    (getNextTransportRequests calls.length (calls.foldl RequestCall.apply s) request time).2 =
      s ∧
    (∀ rq tm, getNextTransportRequest s rq tm = (false, rq, tm, s)) ∧
    (calls.foldl RequestCall.apply s).m_transportStatus = s.m_transportStatus ∧
    (calls.foldl RequestCall.apply s).m_transportToken = s.m_transportToken := by
  have hd := getNextTransportRequests_drain (calls.map RequestCall.pair) s request time
  rw [List.length_map] at hd
  rw [RequestCall.foldl_apply, hq, List.nil_append, hd]
  refine ⟨?_, ?_, ?_, rfl, rfl⟩
  · simp [List.map_map, Function.comp_def]
  · obtain ⟨drv, st, sp, lf, ra, am, ar, aw, sf, ls, le, pa, sg, mi, lt, tk, eo, tr, pp⟩ := s
    simp only at hq
    subst hq
    rfl
  · intro rq tm
    simp [getNextTransportRequest, hq]

/-- Witness: a transportChange and a transportJump queued on the sample
stopped state. -/
theorem transport_requests_fifo_witness :
    demoStopped.m_transportRequests = [] ∧
    (getNextTransportRequests 2
        ([RequestCall.transportChange .TransportPlay,
          RequestCall.transportJump .TransportJumpToTime ⟨2, 0⟩].foldl
          RequestCall.apply demoStopped) .TransportNoChange ⟨7, 0⟩).1 =
      [(true, .TransportPlay, RealTime.zeroTime), (true, .TransportJumpToTime, ⟨2, 0⟩)] ∧
    getNextTransportRequest demoStopped .TransportJumpToTime ⟨2, 0⟩ =
      (false, .TransportJumpToTime, ⟨2, 0⟩, demoStopped) :=
  ⟨rfl,
    (transport_requests_fifo [.transportChange .TransportPlay,
      .transportJump .TransportJumpToTime ⟨2, 0⟩] demoStopped .TransportNoChange ⟨7, 0⟩ rfl).1,
    (transport_requests_fifo [.transportChange .TransportPlay,
      .transportJump .TransportJumpToTime ⟨2, 0⟩] demoStopped .TransportNoChange ⟨7, 0⟩
      rfl).2.2.1 .TransportJumpToTime ⟨2, 0⟩⟩

/-- C18, as stated, fails: on the sample stopped state the end-to-end run
play(0, 1 s), startPlaying(), two updateClocks() calls and stop() ends with
the song position zero and the status STOPPING, not STOPPED. -/
theorem end_to_end_ends_stopping :
    demoStopped.m_transportStatus = .STOPPED ∧
    ∃ s', run demoEnv demoStopped
        ([.play RealTime.zeroTime ⟨1, 0⟩ ⟨0, 60000000⟩ ⟨0, 100000000⟩ ⟨0, 200000000⟩ 128,
          .startPlaying] ++ List.replicate 2 .updateClocks ++ [.stop]) = some s' ∧
      s'.m_songPosition = ⟨0, 0⟩ ∧ s'.m_transportStatus = .STOPPING ∧
      s'.m_transportStatus ≠ .STOPPED := by
  obtain ⟨s', hr, hp, hst⟩ := end_to_end demoEnv demoStopped ⟨[]⟩ 2 ⟨0, 60000000⟩
    ⟨0, 100000000⟩ ⟨0, 200000000⟩ 128 rfl rfl
  exact ⟨rfl, s', hr, hp, hst, by rw [hst]; decide⟩

/-- C18, amended: starting from the status STOPPED (with a driver), play from
position zero with one second of read-ahead, startPlaying(), any number of
updateClocks() calls and then stop() all return, and leave the song position
at zero and the transport status STOPPING. -/
theorem end_to_end_stop_resets (env : Env) (s : RosegardenSequencer) (d : SoundDriver)
    (n : Nat) (audioMix audioRead audioWrite : RealTime) (smallFileSize : Int)
    (hs : s.m_transportStatus = .STOPPED) (hd : s.m_driver = some d) :
    ∃ s', run env s
        ([.play RealTime.zeroTime ⟨1, 0⟩ audioMix audioRead audioWrite smallFileSize,
          .startPlaying] ++ List.replicate n .updateClocks ++ [.stop]) = some s' ∧
      s'.m_songPosition = ⟨0, 0⟩ ∧ s'.m_transportStatus = .STOPPING :=
  end_to_end env s d n audioMix audioRead audioWrite smallFileSize hs hd

/-- Witness: three updateClocks() calls on the sample stopped state. -/
theorem end_to_end_stop_resets_witness :
    demoStopped.m_transportStatus = .STOPPED ∧ demoStopped.m_driver = some ⟨[]⟩ ∧
    ∃ s', run demoEnv demoStopped
        ([.play RealTime.zeroTime ⟨1, 0⟩ ⟨0, 60000000⟩ ⟨0, 100000000⟩ ⟨0, 200000000⟩ 128,
          .startPlaying] ++ List.replicate 3 .updateClocks ++ [.stop]) = some s' ∧
      s'.m_songPosition = ⟨0, 0⟩ ∧ s'.m_transportStatus = .STOPPING :=
  ⟨rfl, rfl, end_to_end_stop_resets demoEnv demoStopped ⟨[]⟩ 3 ⟨0, 60000000⟩ ⟨0, 100000000⟩
    ⟨0, 200000000⟩ 128 rfl rfl⟩

/-- C19: on a state with a meta-iterator, for every fetch request (start,
finish, firstFetch) getSlice calls jumpToTime(start) on the merger exactly
when firstFetch is true or start is strictly earlier than m_lastStartTime,
then calls fillCompositionWithEventsUntil(firstFetch, batch, start, finish)
exactly once, returns the batch the merger filled and records
m_lastStartTime = start; nothing else in the state changes. -/
theorem getSlice_reseeks_when_needed (env : Env) (s : RosegardenSequencer)
    (it : MmappedSegmentsMetaIterator) (c : MappedComposition) (start finish : RealTime)
    (firstFetch : Bool) (hit : s.m_metaIterator = some it) :
    ∃ calls, getSlice env s c start finish firstFetch =
        some ((env.fillCompositionWithEventsUntil
            (if firstFetch ∨ start < s.m_lastStartTime then it.call (.jumpToTime start) else it)
            firstFetch c start finish).1,
          { s with
            m_metaIterator := some ⟨it.segments, it.log ++ calls⟩
            m_lastStartTime := start }) ∧
      (firstFetch = true ∨ start < s.m_lastStartTime →
        calls = [.jumpToTime start,
          .fillCompositionWithEventsUntil firstFetch start finish]) ∧
      (¬ (firstFetch = true ∨ start < s.m_lastStartTime) →
        calls = [.fillCompositionWithEventsUntil firstFetch start finish]) ∧
      (IterCall.jumpToTime start ∈ calls ↔ (firstFetch = true ∨ start < s.m_lastStartTime)) ∧
      calls.count (.fillCompositionWithEventsUntil firstFetch start finish) = 1 := by
  refine ⟨(if firstFetch ∨ start < s.m_lastStartTime then [.jumpToTime start] else []) ++
    [.fillCompositionWithEventsUntil firstFetch start finish], ?_, ?_, ?_, ?_, ?_⟩
  · rw [getSlice_eq env s it c start finish firstFetch hit]
    simp
  · intro h
    simp [h]
  · intro h
    simp [h]
  · by_cases h : firstFetch = true ∨ start < s.m_lastStartTime <;> simp [h]
  · by_cases h : firstFetch = true ∨ start < s.m_lastStartTime <;> simp [h]

/-- Witness: a later slice of the sample playing state, which needs no re-seek. -/
theorem getSlice_reseeks_when_needed_witness :
    demoPlaying.m_metaIterator = some ⟨[("/tmp/segment_0", demoSegment)], []⟩ ∧
    ∃ calls, getSlice demoEnv demoPlaying [] ⟨1, 500000000⟩ ⟨2, 0⟩ false =
        some ((demoEnv.fillCompositionWithEventsUntil
            (if false = true ∨ (⟨1, 500000000⟩ : RealTime) < demoPlaying.m_lastStartTime then
              MmappedSegmentsMetaIterator.call ⟨[("/tmp/segment_0", demoSegment)], []⟩
                (.jumpToTime ⟨1, 500000000⟩)
            else ⟨[("/tmp/segment_0", demoSegment)], []⟩)
            false [] ⟨1, 500000000⟩ ⟨2, 0⟩).1,
          { demoPlaying with
            m_metaIterator := some ⟨[("/tmp/segment_0", demoSegment)], [] ++ calls⟩
            m_lastStartTime := ⟨1, 500000000⟩ }) ∧
      (false = true ∨ (⟨1, 500000000⟩ : RealTime) < demoPlaying.m_lastStartTime →
        calls = [.jumpToTime ⟨1, 500000000⟩,
          .fillCompositionWithEventsUntil false ⟨1, 500000000⟩ ⟨2, 0⟩]) ∧
      (¬ (false = true ∨ (⟨1, 500000000⟩ : RealTime) < demoPlaying.m_lastStartTime) →
        calls = [.fillCompositionWithEventsUntil false ⟨1, 500000000⟩ ⟨2, 0⟩]) ∧
      (IterCall.jumpToTime ⟨1, 500000000⟩ ∈ calls ↔
        (false = true ∨ (⟨1, 500000000⟩ : RealTime) < demoPlaying.m_lastStartTime)) ∧
      calls.count (.fillCompositionWithEventsUntil false ⟨1, 500000000⟩ ⟨2, 0⟩) = 1 :=
  ⟨rfl, getSlice_reseeks_when_needed demoEnv demoPlaying ⟨[("/tmp/segment_0", demoSegment)], []⟩
    [] ⟨1, 500000000⟩ ⟨2, 0⟩ false rfl⟩

/-- C20: read-ahead is capped.  On a state with a driver (and a
meta-iterator, if a fetch is due while the transport runs) whose loop end is a
normalized time, keepPlaying() returns true; its fetch end, the end of the
only window it requests from fetchEvents and hands to the driver, is at most
m_songPosition + m_readAhead; m_lastFetchSongPosition afterwards is that fetch
end if it lay beyond the previous value and the previous value otherwise, so
it never decreases and is at most the larger of its previous value and
m_songPosition + m_readAhead. -/
theorem keepPlaying_read_ahead_capped (env : Env) (s : RosegardenSequencer) (d : SoundDriver)
    (hd : s.m_driver = some d)
    (hit : s.m_metaIterator.isSome ∨ s.m_transportStatus = .STOPPED ∨
      s.m_transportStatus = .STOPPING ∨
      ¬ keepPlaying.fetchEnd s > s.m_lastFetchSongPosition)
    (hn : s.m_loopEnd.normalized) :
    ∃ batch s' d', keepPlaying env s = some (true, s') ∧
      keepPlaying.fetchEnd s ≤ s.m_songPosition + s.m_readAhead ∧
      (keepPlaying.fetchEnd s > s.m_lastFetchSongPosition →
        ∃ s₂, fetchEvents env s [] s.m_lastFetchSongPosition (keepPlaying.fetchEnd s) false =
          some (batch, s₂) ∧ s'.m_metaIterator = s₂.m_metaIterator) ∧
      (¬ keepPlaying.fetchEnd s > s.m_lastFetchSongPosition →
        batch = [] ∧ s'.m_metaIterator = s.m_metaIterator) ∧
      s'.m_driver = some d' ∧
      commands d'.log = commands d.log ++
        [.processEventsOut batch s.m_lastFetchSongPosition (keepPlaying.fetchEnd s)] ∧
      s'.m_lastFetchSongPosition =
        (if keepPlaying.fetchEnd s > s.m_lastFetchSongPosition then keepPlaying.fetchEnd s
          else s.m_lastFetchSongPosition) ∧
      s.m_lastFetchSongPosition ≤ s'.m_lastFetchSongPosition ∧
      (s'.m_lastFetchSongPosition ≤ s.m_lastFetchSongPosition ∨
        s'.m_lastFetchSongPosition ≤ s.m_songPosition + s.m_readAhead) := by
  obtain ⟨batch, qs, mi, lst, hq, hk, hdue, hnot⟩ := keepPlaying_eq env s d hd hit
  have hle := keepPlaying.fetchEnd_le s hn
  refine ⟨batch, _, _, hk, hle, ?_, ?_, rfl, ?_, rfl, ?_, ?_⟩
  · intro h
    obtain ⟨s₂, hf, hmi, _⟩ := hdue h
    exact ⟨s₂, hf, hmi.symm⟩
  · intro h
    exact ⟨(hnot h).1, (hnot h).2.2.1⟩
  · rw [commands_append, commands_append, hq, List.append_nil]
    simp [commands, DriverCall.isQuery]
  · show s.m_lastFetchSongPosition ≤
      (if keepPlaying.fetchEnd s > s.m_lastFetchSongPosition then keepPlaying.fetchEnd s
        else s.m_lastFetchSongPosition)
    split
    · rename_i h
      exact RealTime.le_of_lt _ _ h
    · exact RealTime.le_refl _
  · show (if keepPlaying.fetchEnd s > s.m_lastFetchSongPosition then keepPlaying.fetchEnd s
        else s.m_lastFetchSongPosition) ≤ s.m_lastFetchSongPosition ∨
      (if keepPlaying.fetchEnd s > s.m_lastFetchSongPosition then keepPlaying.fetchEnd s
        else s.m_lastFetchSongPosition) ≤ s.m_songPosition + s.m_readAhead
    split
    · exact Or.inr hle
    · exact Or.inl (RealTime.le_refl _)

/-- Witness: the sample playing state, whose read-ahead reaches past the loop
end, so that the fetch end is cut back to 1.999999999 s. -/
theorem keepPlaying_read_ahead_capped_witness :
    demoPlaying.m_driver = some ⟨[]⟩ ∧
    (demoPlaying.m_metaIterator.isSome ∨ demoPlaying.m_transportStatus = .STOPPED ∨
      demoPlaying.m_transportStatus = .STOPPING ∨
      ¬ keepPlaying.fetchEnd demoPlaying > demoPlaying.m_lastFetchSongPosition) ∧
    demoPlaying.m_loopEnd.normalized ∧
    keepPlaying.fetchEnd demoPlaying = ⟨1, 999999999⟩ ∧
    ∃ batch s' d', keepPlaying demoEnv demoPlaying = some (true, s') ∧
      keepPlaying.fetchEnd demoPlaying ≤ demoPlaying.m_songPosition + demoPlaying.m_readAhead ∧
      (keepPlaying.fetchEnd demoPlaying > demoPlaying.m_lastFetchSongPosition →
        ∃ s₂, fetchEvents demoEnv demoPlaying [] demoPlaying.m_lastFetchSongPosition
            (keepPlaying.fetchEnd demoPlaying) false = some (batch, s₂) ∧
          s'.m_metaIterator = s₂.m_metaIterator) ∧
      (¬ keepPlaying.fetchEnd demoPlaying > demoPlaying.m_lastFetchSongPosition →
        batch = [] ∧ s'.m_metaIterator = demoPlaying.m_metaIterator) ∧
      s'.m_driver = some d' ∧
      commands d'.log = commands [] ++
        [.processEventsOut batch demoPlaying.m_lastFetchSongPosition
          (keepPlaying.fetchEnd demoPlaying)] ∧
      s'.m_lastFetchSongPosition =
        (if keepPlaying.fetchEnd demoPlaying > demoPlaying.m_lastFetchSongPosition then
          keepPlaying.fetchEnd demoPlaying
        else demoPlaying.m_lastFetchSongPosition) ∧
      demoPlaying.m_lastFetchSongPosition ≤ s'.m_lastFetchSongPosition ∧
      (s'.m_lastFetchSongPosition ≤ demoPlaying.m_lastFetchSongPosition ∨
        s'.m_lastFetchSongPosition ≤ demoPlaying.m_songPosition + demoPlaying.m_readAhead) :=
  ⟨rfl, Or.inl rfl, by decide, by decide,
    keepPlaying_read_ahead_capped demoEnv demoPlaying ⟨[]⟩ rfl (Or.inl rfl) (by decide)⟩

/-! ## Lemmas on loop bounds and fetch windows -/

theorem RealTime.sub_one_ns_lt (t : RealTime) (hn : t.normalized) :
    t - RealTime.make 0 1 < t := by
  obtain ⟨h0, h1⟩ := hn
  show RealTime.lt (RealTime.sub t (RealTime.make 0 1)) t
  unfold RealTime.lt RealTime.sub RealTime.make RealTime.nsPerS at *
  simp only
  omega

/-- While a loop is set, the fetch end of keepPlaying lies strictly before the
loop end, the loop end being a normalized time. -/
theorem keepPlaying.fetchEnd_lt_loopEnd (s : RosegardenSequencer)
    (hloop : s.m_loopStart ≠ s.m_loopEnd) (hn : s.m_loopEnd.normalized) :
    keepPlaying.fetchEnd s < s.m_loopEnd := by
  unfold keepPlaying.fetchEnd
  by_cases h : isLooping s = true ∧ s.m_songPosition + s.m_readAhead ≥ s.m_loopEnd
  · rw [if_pos h]
    exact RealTime.sub_one_ns_lt _ hn
  · rw [if_neg h]
    have hl : isLooping s = true := by simp [isLooping, hloop]
    have h' : ¬ s.m_loopEnd ≤ s.m_songPosition + s.m_readAhead := fun hle => h ⟨hl, hle⟩
    by_contra hlt
    exact h' ((RealTime.not_lt_iff_le _ _).mp hlt)

/-- While a loop is set and the read-ahead reaches the loop end, the fetch end of
keepPlaying is the loop end minus one nanosecond. -/
theorem keepPlaying.fetchEnd_capped (s : RosegardenSequencer)
    (hloop : s.m_loopStart ≠ s.m_loopEnd)
    (h : s.m_songPosition + s.m_readAhead ≥ s.m_loopEnd) :
    keepPlaying.fetchEnd s = s.m_loopEnd - RealTime.make 0 1 := by
  unfold keepPlaying.fetchEnd
  have hl : isLooping s = true := by simp [isLooping, hloop]
  rw [if_pos ⟨hl, h⟩]

/-! ## Claims on loop bounds and fetch windows -/

/-- C21: `Composition::isLooping()` is true exactly when the loop start and the
loop end differ.  In the sequencer, after setLoop(a, a), an updateClocks() in
status PLAYING or RECORDING never rewinds: whatever time the driver reports, it
becomes m_songPosition, the only driver calls that are not queries are setLoop
and runTasks (no stopClocks, no resetPlayback, no processEventsOut), and
m_lastFetchSongPosition, the meta-iterator and the token are as before. -/
theorem equal_loop_bounds_mean_no_loop (env : Env) (s : RosegardenSequencer)
    (d : SoundDriver) (a : RealTime)
    (hs : s.m_transportStatus = .PLAYING ∨ s.m_transportStatus = .RECORDING)
    (hd : s.m_driver = some d) :
    (∀ c : Composition, c.isLooping = true ↔ c.m_loopStart ≠ c.m_loopEnd) ∧
    ∃ s₁ s₂ d₂, setLoop s a a = some s₁ ∧ isLooping s₁ = false ∧
      updateClocks env s₁ = some s₂ ∧
      s₂.m_songPosition = env.getSequencerTime (d.log ++ [.setLoop a a, .runTasks]) ∧
      s₂.m_driver = some d₂ ∧
      commands d₂.log = commands d.log ++ [.setLoop a a, .runTasks] ∧
      DriverCall.stopClocks ∉ d₂.log.drop d.log.length ∧
      (∀ p q, DriverCall.resetPlayback p q ∉ d₂.log.drop d.log.length) ∧
      s₂.m_lastFetchSongPosition = s.m_lastFetchSongPosition ∧
      s₂.m_metaIterator = s.m_metaIterator ∧
      s₂.m_transportToken = s.m_transportToken ∧
      s₂.m_loopStart = a ∧ s₂.m_loopEnd = a := by
  constructor
  · intro c
    simp [Composition.isLooping]
  · have h1 : setLoop s a a = some
        { s with m_loopStart := a, m_loopEnd := a, m_driver := some ⟨d.log ++ [.setLoop a a]⟩ } := by
      simp [setLoop, driverCall, hd, SoundDriver.call]
    obtain ⟨qs, pp, hq, hu⟩ := updateClocks_advance env
      { s with m_loopStart := a, m_loopEnd := a, m_driver := some ⟨d.log ++ [.setLoop a a]⟩ }
      ⟨d.log ++ [.setLoop a a]⟩ hs rfl (fun h => h.1 rfl)
    have hmem : ∀ c : DriverCall, c.isQuery = false → c ≠ DriverCall.setLoop a a →
        c ≠ DriverCall.runTasks →
        c ∉ (d.log ++ [DriverCall.setLoop a a] ++ [DriverCall.runTasks] ++ qs).drop
          d.log.length := by
      intro c hc h1 h2 hin
      rw [List.append_assoc, List.append_assoc, List.drop_left] at hin
      have : c ∈ commands ([DriverCall.setLoop a a] ++ ([DriverCall.runTasks] ++ qs)) := by
        unfold commands
        exact List.mem_filter.2 ⟨hin, by simp [hc]⟩
      rw [commands_append, commands_append, hq] at this
      simp [commands, DriverCall.isQuery] at this
      rcases this with h | h
      · exact h1 h
      · exact h2 h
    refine ⟨_, _, _, h1, ?_, hu, ?_, rfl, ?_, ?_, ?_, rfl, rfl, rfl, rfl, rfl⟩
    · simp [isLooping]
    · simp [List.append_assoc]
    · rw [commands_append, commands_append, hq]
      simp [commands, DriverCall.isQuery]
    · exact hmem DriverCall.stopClocks rfl (by simp) (by simp)
    · intro p q
      exact hmem (DriverCall.resetPlayback p q) rfl (by simp) (by simp)

/-- Witness: the sample playing state, loop set to (1 s, 1 s). -/
theorem equal_loop_bounds_mean_no_loop_witness :
    (demoPlaying.m_transportStatus = .PLAYING ∨ demoPlaying.m_transportStatus = .RECORDING) ∧
    demoPlaying.m_driver = some ⟨[]⟩ ∧
    (∀ c : Composition, c.isLooping = true ↔ c.m_loopStart ≠ c.m_loopEnd) ∧
    ∃ s₁ s₂ d₂, setLoop demoPlaying ⟨1, 0⟩ ⟨1, 0⟩ = some s₁ ∧ isLooping s₁ = false ∧
      updateClocks demoEnv s₁ = some s₂ ∧
      s₂.m_songPosition =
        demoEnv.getSequencerTime ([] ++ [.setLoop ⟨1, 0⟩ ⟨1, 0⟩, .runTasks]) ∧
      s₂.m_driver = some d₂ ∧
      commands d₂.log = commands [] ++ [.setLoop ⟨1, 0⟩ ⟨1, 0⟩, .runTasks] ∧
      DriverCall.stopClocks ∉ d₂.log.drop ([] : List DriverCall).length ∧
      (∀ p q, DriverCall.resetPlayback p q ∉ d₂.log.drop ([] : List DriverCall).length) ∧
      s₂.m_lastFetchSongPosition = demoPlaying.m_lastFetchSongPosition ∧
      s₂.m_metaIterator = demoPlaying.m_metaIterator ∧
      s₂.m_transportToken = demoPlaying.m_transportToken ∧
      s₂.m_loopStart = ⟨1, 0⟩ ∧ s₂.m_loopEnd = ⟨1, 0⟩ :=
  ⟨Or.inl rfl, rfl, equal_loop_bounds_mean_no_loop demoEnv demoPlaying ⟨[]⟩ ⟨1, 0⟩ (Or.inl rfl) rfl⟩

/-- C22: while the transport status is STOPPED or STOPPING, fetchEvents hands
back the batch it was given (an empty batch stays empty) for every start, end
and firstFetch, and the engine state is the one it started from: the
meta-iterator has received no call (neither a re-seek nor a fill),
m_lastStartTime is unchanged and the driver has received no call (no latency
query). -/
theorem fetchEvents_stopped_returns_batch (env : Env) (s : RosegardenSequencer)
    (batch : MappedComposition) (start finish : RealTime) (firstFetch : Bool)
    (hs : s.m_transportStatus = .STOPPED ∨ s.m_transportStatus = .STOPPING) :
    ∃ s', fetchEvents env s batch start finish firstFetch = some (batch, s') ∧
      s' = s ∧
      s'.m_metaIterator = s.m_metaIterator ∧
      s'.m_lastStartTime = s.m_lastStartTime ∧
      s'.m_driver = s.m_driver :=
  ⟨s, fetchEvents_stopped env s batch start finish firstFetch hs, rfl, rfl, rfl, rfl⟩

/-- Witness: a first fetch of [1 s, 2 s) into a batch of one event on the sample
stopping state. -/
theorem fetchEvents_stopped_returns_batch_witness :
    (demoStopping.m_transportStatus = .STOPPED ∨ demoStopping.m_transportStatus = .STOPPING) ∧
    ∃ s', fetchEvents demoEnv demoStopping [demoEvent 1000 ⟨1, 0⟩] ⟨1, 0⟩ ⟨2, 0⟩ true =
        some ([demoEvent 1000 ⟨1, 0⟩], s') ∧
      s' = demoStopping ∧
      s'.m_metaIterator = demoStopping.m_metaIterator ∧
      s'.m_lastStartTime = demoStopping.m_lastStartTime ∧
      s'.m_driver = demoStopping.m_driver :=
  ⟨Or.inr rfl, fetchEvents_stopped_returns_batch demoEnv demoStopping [demoEvent 1000 ⟨1, 0⟩]
    ⟨1, 0⟩ ⟨2, 0⟩ true (Or.inr rfl)⟩

/-- C27: while a loop is set (loop start and loop end differ, the loop end a
normalized time), the end of the window keepPlaying() works with lies strictly
before the loop end, and it is the loop end minus one nanosecond whenever
m_songPosition + m_readAhead has reached the loop end.  That end is the one
keepPlaying() passes to fetchEvents, when a fetch is due, and to
processEventsOut. -/
theorem keepPlaying_stays_before_loop_end (env : Env) (s : RosegardenSequencer)
    (d : SoundDriver)
    (hloop : s.m_loopStart ≠ s.m_loopEnd) (hn : s.m_loopEnd.normalized)
    (hd : s.m_driver = some d)
    (hit : s.m_metaIterator.isSome ∨ s.m_transportStatus = .STOPPED ∨
      s.m_transportStatus = .STOPPING ∨
      ¬ keepPlaying.fetchEnd s > s.m_lastFetchSongPosition) :
    keepPlaying.fetchEnd s < s.m_loopEnd ∧
    (s.m_songPosition + s.m_readAhead ≥ s.m_loopEnd →
      keepPlaying.fetchEnd s = s.m_loopEnd - RealTime.make 0 1) ∧
    ∃ batch s' d', keepPlaying env s = some (true, s') ∧
      s'.m_driver = some d' ∧
      commands d'.log = commands d.log ++
        [.processEventsOut batch s.m_lastFetchSongPosition (keepPlaying.fetchEnd s)] ∧
      (keepPlaying.fetchEnd s > s.m_lastFetchSongPosition →
        ∃ s₂, fetchEvents env s [] s.m_lastFetchSongPosition (keepPlaying.fetchEnd s) false =
          some (batch, s₂)) ∧
      (¬ keepPlaying.fetchEnd s > s.m_lastFetchSongPosition →
        batch = [] ∧ s'.m_metaIterator = s.m_metaIterator) ∧
      (s'.m_lastFetchSongPosition < s.m_loopEnd ∨
        s'.m_lastFetchSongPosition = s.m_lastFetchSongPosition) := by
  obtain ⟨batch, qs, mi, lst, hq, hk, hdue, hnot⟩ := keepPlaying_eq env s d hd hit
  have hlt := keepPlaying.fetchEnd_lt_loopEnd s hloop hn
  refine ⟨hlt, keepPlaying.fetchEnd_capped s hloop, batch, _, _, hk, rfl, ?_, ?_, ?_, ?_⟩
  · rw [commands_append, commands_append, hq, List.append_nil]
    simp [commands, DriverCall.isQuery]
  · intro h
    obtain ⟨s₂, hf, _, _⟩ := hdue h
    exact ⟨s₂, hf⟩
  · intro h
    exact ⟨(hnot h).1, (hnot h).2.2.1⟩
  · show (if keepPlaying.fetchEnd s > s.m_lastFetchSongPosition then keepPlaying.fetchEnd s
        else s.m_lastFetchSongPosition) < s.m_loopEnd ∨
      (if keepPlaying.fetchEnd s > s.m_lastFetchSongPosition then keepPlaying.fetchEnd s
        else s.m_lastFetchSongPosition) = s.m_lastFetchSongPosition
    split
    · exact Or.inl hlt
    · exact Or.inr rfl

/-- Witness: the sample playing state, whose read-ahead reaches past the loop
end at 2 s, so that the window ends at 1.999999999 s. -/
theorem keepPlaying_stays_before_loop_end_witness :
    demoPlaying.m_loopStart ≠ demoPlaying.m_loopEnd ∧
    demoPlaying.m_loopEnd.normalized ∧
    demoPlaying.m_driver = some ⟨[]⟩ ∧
    (demoPlaying.m_metaIterator.isSome ∨ demoPlaying.m_transportStatus = .STOPPED ∨
      demoPlaying.m_transportStatus = .STOPPING ∨
      ¬ keepPlaying.fetchEnd demoPlaying > demoPlaying.m_lastFetchSongPosition) ∧
    demoPlaying.m_songPosition + demoPlaying.m_readAhead ≥ demoPlaying.m_loopEnd ∧
    keepPlaying.fetchEnd demoPlaying < demoPlaying.m_loopEnd ∧
    (demoPlaying.m_songPosition + demoPlaying.m_readAhead ≥ demoPlaying.m_loopEnd →
      keepPlaying.fetchEnd demoPlaying = demoPlaying.m_loopEnd - RealTime.make 0 1) ∧
    ∃ batch s' d', keepPlaying demoEnv demoPlaying = some (true, s') ∧
      s'.m_driver = some d' ∧
      commands d'.log = commands [] ++
        [.processEventsOut batch demoPlaying.m_lastFetchSongPosition
          (keepPlaying.fetchEnd demoPlaying)] ∧
      (keepPlaying.fetchEnd demoPlaying > demoPlaying.m_lastFetchSongPosition →
        ∃ s₂, fetchEvents demoEnv demoPlaying [] demoPlaying.m_lastFetchSongPosition
          (keepPlaying.fetchEnd demoPlaying) false = some (batch, s₂)) ∧
      (¬ keepPlaying.fetchEnd demoPlaying > demoPlaying.m_lastFetchSongPosition →
        batch = [] ∧ s'.m_metaIterator = demoPlaying.m_metaIterator) ∧
      (s'.m_lastFetchSongPosition < demoPlaying.m_loopEnd ∨
        s'.m_lastFetchSongPosition = demoPlaying.m_lastFetchSongPosition) :=
  ⟨by decide, by decide, rfl, Or.inl rfl, by decide,
    keepPlaying_stays_before_loop_end demoEnv demoPlaying ⟨[]⟩ (by decide) (by decide) rfl
      (Or.inl rfl)⟩

/-! ## Claims on re-priming -/

/-- C23, counterexample: on the sample playing state (no loop, read-ahead 1 s,
a driver that reports it is playing) jumpTo(1.25 s) leaves
m_lastFetchSongPosition at 1.25 s, while startPlaying() at song position 1.25 s
leaves it at 2.25 s; after the jump the window [1.25 s, 2.25 s) still lies
beyond the fetch position. -/
theorem jumpTo_leaves_fetch_position_at_target :
    ∃ s' s'', jumpTo demoEnv demoPlayingNoLoop ⟨1, 250000000⟩ = some s' ∧
      startPlaying demoEnv { demoPlayingNoLoop with m_songPosition := ⟨1, 250000000⟩ } =
        some (true, s'') ∧
      s'.m_songPosition = ⟨1, 250000000⟩ ∧ s''.m_songPosition = ⟨1, 250000000⟩ ∧
      s'.m_readAhead = ⟨1, 0⟩ ∧ s''.m_readAhead = ⟨1, 0⟩ ∧
      s'.m_lastFetchSongPosition = ⟨1, 250000000⟩ ∧
      s''.m_lastFetchSongPosition = ⟨2, 250000000⟩ ∧
      s'.m_lastFetchSongPosition ≠ s'.m_songPosition + s'.m_readAhead ∧
      s'.m_lastFetchSongPosition < s'.m_songPosition + s'.m_readAhead := by
  obtain ⟨batch, s₂, d₂, hf, _, _, hj, h1, h2, _, _, _, h6⟩ :=
    jumpTo_playing demoEnv demoPlayingNoLoop ⟨[]⟩ ⟨1, 250000000⟩ (by decide) rfl (Or.inl rfl) rfl
  obtain ⟨batch', t₂, e₂, it₂, hf', _, _, _, _, hs, g1, g2, _⟩ :=
    startPlaying_eq demoEnv { demoPlayingNoLoop with m_songPosition := ⟨1, 250000000⟩ } ⟨[]⟩
      ⟨[("/tmp/segment_0", demoSegment)], []⟩ rfl rfl
  obtain ⟨dr, mi, lst, ht, _⟩ := fetchEvents_some _ _ _ _ _ _ _ _ hf'
  have g3 : t₂.m_readAhead = ⟨1, 0⟩ := by rw [ht]; rfl
  have h6' : s₂.m_readAhead = ⟨1, 0⟩ := h6
  refine ⟨_, _, hj, hs, h1, g2, h6', g3, h2, ?_, ?_, ?_⟩
  · show t₂.m_lastFetchSongPosition = _
    rw [g1]
    decide
  · show s₂.m_lastFetchSongPosition ≠ s₂.m_songPosition + s₂.m_readAhead
    rw [h1, h2, h6']
    decide
  · show s₂.m_lastFetchSongPosition < s₂.m_songPosition + s₂.m_readAhead
    rw [h1, h2, h6']
    decide

/-- The window keepPlaying hands to processEventsOut starts at
m_lastFetchSongPosition. -/
theorem keepPlaying_window_start (env : Env) (s : RosegardenSequencer) (d : SoundDriver)
    (hd : s.m_driver = some d)
    (hit : s.m_metaIterator.isSome ∨ s.m_transportStatus = .STOPPED ∨
      s.m_transportStatus = .STOPPING) :
    ∃ batch s' d', keepPlaying env s = some (true, s') ∧ s'.m_driver = some d' ∧
      commands d'.log = commands d.log ++
        [.processEventsOut batch s.m_lastFetchSongPosition (keepPlaying.fetchEnd s)] := by
  have hit' : s.m_metaIterator.isSome ∨ s.m_transportStatus = .STOPPED ∨
      s.m_transportStatus = .STOPPING ∨
      ¬ keepPlaying.fetchEnd s > s.m_lastFetchSongPosition := by
    rcases hit with h | h | h
    · exact Or.inl h
    · exact Or.inr (Or.inl h)
    · exact Or.inr (Or.inr (Or.inl h))
  obtain ⟨batch, qs, mi, lst, hq, hk, _, _⟩ := keepPlaying_eq env s d hd hit'
  refine ⟨batch, _, _, hk, rfl, ?_⟩
  rw [commands_append, commands_append, hq, List.append_nil]
  simp [commands, DriverCall.isQuery]

/-- A fetch that returns leaves a meta-iterator where there was one. -/
theorem fetchEvents_keeps_iterator (env : Env) (s : RosegardenSequencer)
    (c : MappedComposition) (start finish : RealTime) (firstFetch : Bool)
    (c' : MappedComposition) (s' : RosegardenSequencer)
    (hit : s.m_metaIterator.isSome)
    (h : fetchEvents env s c start finish firstFetch = some (c', s')) :
    s'.m_metaIterator.isSome := by
  cases hd : s.m_driver with
  | none =>
    unfold fetchEvents at h
    by_cases hs : s.m_transportStatus = .STOPPED ∨ s.m_transportStatus = .STOPPING
    · rw [if_pos hs] at h
      cases h
      exact hit
    · rw [if_neg hs] at h
      cases hi : s.m_metaIterator with
      | none => rw [hi] at hit; cases hit
      | some it =>
        rw [getSlice_eq env s it c start finish firstFetch hi] at h
        simp [applyLatencyCompensation, driverQuery, hd] at h
  | some d =>
    obtain ⟨batch, qs, _, hf⟩ := fetchEvents_frame env s d c start finish firstFetch hd (Or.inl hit)
    rw [hf] at h
    cases h
    cases hi : s.m_metaIterator with
    | none => rw [hi] at hit; cases hit
    | some it => rfl

/-- C23, amended: jumpTo(pos), when the driver reports that it is playing, and
the loop rewind of updateClocks() fetch the window [pos, pos + readAhead)
(pos = loop start for the rewind) with firstFetch = true and hand the batch to
processEventsOut with that window, as startPlaying() does at the song position.
The bookkeeping differs: startPlaying() leaves m_lastFetchSongPosition at song
position + readAhead, jumpTo leaves it at pos and the rewind at the loop start,
so the window the next keepPlaying() hands on starts at pos (at the loop start)
again; with no loop set it is the window [pos, pos + readAhead) once more. -/
theorem reprime_windows_and_bookkeeping (env : Env) (s : RosegardenSequencer)
    (d : SoundDriver) (it : MmappedSegmentsMetaIterator) (pos : RealTime)
    (hd : s.m_driver = some d) (hit : s.m_metaIterator = some it) :
    (∃ batch s₂ audio s' d',
      fetchEvents env
        { s with
          m_driver := some ⟨d.log ++ [.initialisePlayback s.m_songPosition]⟩
          m_lastFetchSongPosition := s.m_songPosition + s.m_readAhead }
        [] s.m_songPosition (s.m_songPosition + s.m_readAhead) true = some (batch, s₂) ∧
      startPlaying env s = some (true, s') ∧ s'.m_driver = some d' ∧
      commands d'.log = commands d.log ++
        [.initialisePlayback s.m_songPosition,
         .processEventsOut batch s.m_songPosition (s.m_songPosition + s.m_readAhead),
         .initialiseAudioQueue audio, .startClocks] ∧
      s'.m_lastFetchSongPosition = s.m_songPosition + s.m_readAhead) ∧
    (pos ≥ RealTime.zeroTime →
      env.isPlaying (d.log ++ [.stopClocks, .resetPlayback s.m_songPosition pos]) = true →
      ∃ batch s₂ s' d',
        fetchEvents env
          { s with
            m_driver := some ⟨d.log ++
              [.stopClocks, .resetPlayback s.m_songPosition pos, .isPlaying]⟩
            m_songPosition := pos
            m_lastFetchSongPosition := pos
            positionPointer := pos }
          [] pos (pos + s.m_readAhead) true = some (batch, s₂) ∧
        jumpTo env s pos = some s' ∧ s'.m_driver = some d' ∧
        commands d'.log = commands d.log ++
          [.stopClocks, .resetPlayback s.m_songPosition pos,
           .processEventsOut batch pos (pos + s.m_readAhead), .startClocks] ∧
        s'.m_songPosition = pos ∧ s'.m_lastFetchSongPosition = pos ∧
        (s.m_loopStart = s.m_loopEnd → keepPlaying.fetchEnd s' = pos + s.m_readAhead) ∧
        ∃ batch₂ s'' d'', keepPlaying env s' = some (true, s'') ∧ s''.m_driver = some d'' ∧
          commands d''.log = commands d'.log ++
            [.processEventsOut batch₂ pos (keepPlaying.fetchEnd s')]) ∧
    ((s.m_transportStatus = .PLAYING ∨ s.m_transportStatus = .RECORDING) →
      s.m_loopStart ≠ s.m_loopEnd →
      s.m_loopEnd ≤ env.getSequencerTime (d.log ++ [.runTasks]) →
      ∃ batch s₂ s' d',
        fetchEvents env
          { s with
            m_driver := some ⟨d.log ++ [.runTasks, .getSequencerTime, .stopClocks,
              .resetPlayback s.m_songPosition s.m_loopStart]⟩
            m_songPosition := s.m_loopStart
            m_lastFetchSongPosition := s.m_loopStart }
          [] s.m_loopStart (s.m_loopStart + s.m_readAhead) true = some (batch, s₂) ∧
        updateClocks env s = some s' ∧ s'.m_driver = some d' ∧
        commands d'.log = commands d.log ++
          [.runTasks, .stopClocks, .resetPlayback s.m_songPosition s.m_loopStart,
           .processEventsOut batch s.m_loopStart (s.m_loopStart + s.m_readAhead),
           .startClocks] ∧
        s'.m_songPosition = s.m_loopStart ∧ s'.m_lastFetchSongPosition = s.m_loopStart ∧
        ∃ batch₂ s'' d'', keepPlaying env s' = some (true, s'') ∧ s''.m_driver = some d'' ∧
          commands d''.log = commands d'.log ++
            [.processEventsOut batch₂ s.m_loopStart (keepPlaying.fetchEnd s')]) := by
  refine ⟨?_, ?_, ?_⟩
  · obtain ⟨batch, s₂, d₂, it₂, hf, hd₂, _, hc, _, hs, h1, _, _⟩ :=
      startPlaying_eq env s d it hd hit
    refine ⟨batch, s₂, env.getAudioEvents it₂, _, _, hf, hs, rfl, ?_, h1⟩
    rw [commands_append, hc]
    simp [commands, DriverCall.isQuery]
  · intro hpos hp
    have hpos' : ¬ pos < RealTime.zeroTime := (RealTime.not_lt_iff_le _ _).mpr hpos
    obtain ⟨batch, s₂, d₂, hf, hd₂, hc, hj, h1, h2, h3, h4, h5, h6⟩ :=
      jumpTo_playing env s d pos hpos' hd (Or.inl (by rw [hit]; rfl)) hp
    have hsome : s₂.m_metaIterator.isSome :=
      fetchEvents_keeps_iterator env _ _ _ _ _ _ _ (by show s.m_metaIterator.isSome; rw [hit]; rfl) hf
    obtain ⟨batch₂, s'', d'', hk, hd'', hc''⟩ := keepPlaying_window_start env
      { s₂ with
        m_driver := some ⟨d₂.log ++
          [.processEventsOut batch pos (pos + s.m_readAhead), .startClocks]⟩
        m_transportToken := s.m_transportToken + 1 }
      ⟨d₂.log ++ [.processEventsOut batch pos (pos + s.m_readAhead), .startClocks]⟩
      rfl (Or.inl hsome)
    refine ⟨batch, s₂, _, _, hf, hj, rfl, ?_, h1, h2, ?_, batch₂, s'', d'', hk, hd'', ?_⟩
    · rw [commands_append, hc]
      simp [commands, DriverCall.isQuery]
    · intro hno
      unfold keepPlaying.fetchEnd isLooping
      simp only
      rw [h4, h5, h1, h6, hno]
      simp
    · rw [hc'']
      show _ ++ [DriverCall.processEventsOut batch₂ s₂.m_lastFetchSongPosition _] = _
      rw [h2]
  · intro hs hloop htime
    obtain ⟨batch, s₂, d₂, hf, hd₂, hc, hmi, hu, h1, h2, _, _⟩ :=
      updateClocks_rewind env s d it hs hd hit hloop htime
    obtain ⟨batch₂, s'', d'', hk, hd'', hc''⟩ := keepPlaying_window_start env
      { s₂ with
        m_driver := some ⟨d₂.log ++
          [.processEventsOut batch s.m_loopStart (s.m_loopStart + s.m_readAhead),
           .startClocks, .getMaximumPlayLatency]⟩
        positionPointer :=
          if env.getMaximumPlayLatency (d₂.log ++
              [.processEventsOut batch s.m_loopStart (s.m_loopStart + s.m_readAhead),
               .startClocks]) ≠ RealTime.zeroTime then
            s.m_loopStart - env.getMaximumPlayLatency (d₂.log ++
              [.processEventsOut batch s.m_loopStart (s.m_loopStart + s.m_readAhead),
               .startClocks])
          else s.m_loopStart }
      ⟨d₂.log ++
          [.processEventsOut batch s.m_loopStart (s.m_loopStart + s.m_readAhead),
           .startClocks, .getMaximumPlayLatency]⟩
      rfl (Or.inl (by show s₂.m_metaIterator.isSome; rw [hmi]; rfl))
    refine ⟨batch, s₂, _, _, hf, hu, rfl, ?_, h1, h2, batch₂, s'', d'', hk, hd'', ?_⟩
    · rw [commands_append, hc]
      simp [commands, DriverCall.isQuery]
    · rw [hc'']
      show _ ++ [DriverCall.processEventsOut batch₂ s₂.m_lastFetchSongPosition _] = _
      rw [h2]

/-- Witness: the sample playing state (loop over [1 s, 2 s), driver clock at
3 s, a driver that reports it is playing) and a jump to 1.25 s. -/
theorem reprime_windows_and_bookkeeping_witness :
    demoPlaying.m_driver = some ⟨[]⟩ ∧
    demoPlaying.m_metaIterator = some ⟨[("/tmp/segment_0", demoSegment)], []⟩ ∧
    demoTarget ≥ RealTime.zeroTime ∧
    demoEnv.isPlaying ([] ++ [.stopClocks,
      .resetPlayback demoPlaying.m_songPosition demoTarget]) = true ∧
    (demoPlaying.m_transportStatus = .PLAYING ∨ demoPlaying.m_transportStatus = .RECORDING) ∧
    demoPlaying.m_loopStart ≠ demoPlaying.m_loopEnd ∧
    demoPlaying.m_loopEnd ≤ demoEnv.getSequencerTime ([] ++ [.runTasks]) ∧
    ((∃ batch s₂ audio s' d',
      fetchEvents demoEnv
        { demoPlaying with
          m_driver := some ⟨[] ++ [.initialisePlayback demoPlaying.m_songPosition]⟩
          m_lastFetchSongPosition := demoPlaying.m_songPosition + demoPlaying.m_readAhead }
        [] demoPlaying.m_songPosition (demoPlaying.m_songPosition + demoPlaying.m_readAhead) true
            = some (batch, s₂) ∧
      startPlaying demoEnv demoPlaying = some (true, s') ∧ s'.m_driver = some d' ∧
      commands d'.log = commands [] ++
        [.initialisePlayback demoPlaying.m_songPosition,
         .processEventsOut batch demoPlaying.m_songPosition (demoPlaying.m_songPosition +
             demoPlaying.m_readAhead),
         .initialiseAudioQueue audio, .startClocks] ∧
      s'.m_lastFetchSongPosition = demoPlaying.m_songPosition + demoPlaying.m_readAhead) ∧
    (demoTarget ≥ RealTime.zeroTime →
      demoEnv.isPlaying ([] ++ [.stopClocks, .resetPlayback demoPlaying.m_songPosition
          demoTarget]) = true →
      ∃ batch s₂ s' d',
        fetchEvents demoEnv
          { demoPlaying with
            m_driver := some ⟨[] ++
              [.stopClocks, .resetPlayback demoPlaying.m_songPosition demoTarget, .isPlaying]⟩
            m_songPosition := demoTarget
            m_lastFetchSongPosition := demoTarget
            positionPointer := demoTarget }
          [] demoTarget (demoTarget + demoPlaying.m_readAhead) true = some (batch, s₂) ∧
        jumpTo demoEnv demoPlaying demoTarget = some s' ∧ s'.m_driver = some d' ∧
        commands d'.log = commands [] ++
          [.stopClocks, .resetPlayback demoPlaying.m_songPosition demoTarget,
           .processEventsOut batch demoTarget (demoTarget + demoPlaying.m_readAhead),
               .startClocks] ∧
        s'.m_songPosition = demoTarget ∧ s'.m_lastFetchSongPosition = demoTarget ∧
        (demoPlaying.m_loopStart = demoPlaying.m_loopEnd → keepPlaying.fetchEnd s' = demoTarget +
            demoPlaying.m_readAhead) ∧
        ∃ batch₂ s'' d'', keepPlaying demoEnv s' = some (true, s'') ∧ s''.m_driver = some d'' ∧
          commands d''.log = commands d'.log ++
            [.processEventsOut batch₂ demoTarget (keepPlaying.fetchEnd s')]) ∧
    ((demoPlaying.m_transportStatus = .PLAYING ∨ demoPlaying.m_transportStatus = .RECORDING) →
      demoPlaying.m_loopStart ≠ demoPlaying.m_loopEnd →
      demoPlaying.m_loopEnd ≤ demoEnv.getSequencerTime ([] ++ [.runTasks]) →
      ∃ batch s₂ s' d',
        fetchEvents demoEnv
          { demoPlaying with
            m_driver := some ⟨[] ++ [.runTasks, .getSequencerTime, .stopClocks,
              .resetPlayback demoPlaying.m_songPosition demoPlaying.m_loopStart]⟩
            m_songPosition := demoPlaying.m_loopStart
            m_lastFetchSongPosition := demoPlaying.m_loopStart }
          [] demoPlaying.m_loopStart (demoPlaying.m_loopStart + demoPlaying.m_readAhead) true =
              some (batch, s₂) ∧
        updateClocks demoEnv demoPlaying = some s' ∧ s'.m_driver = some d' ∧
        commands d'.log = commands [] ++
          [.runTasks, .stopClocks, .resetPlayback demoPlaying.m_songPosition
              demoPlaying.m_loopStart,
           .processEventsOut batch demoPlaying.m_loopStart (demoPlaying.m_loopStart +
               demoPlaying.m_readAhead),
           .startClocks] ∧
        s'.m_songPosition = demoPlaying.m_loopStart ∧ s'.m_lastFetchSongPosition =
            demoPlaying.m_loopStart ∧
        ∃ batch₂ s'' d'', keepPlaying demoEnv s' = some (true, s'') ∧ s''.m_driver = some d'' ∧
          commands d''.log = commands d'.log ++
            [.processEventsOut batch₂ demoPlaying.m_loopStart (keepPlaying.fetchEnd s')])) :=
  ⟨rfl, rfl, by decide, rfl, Or.inl rfl, by decide, by decide,
    reprime_windows_and_bookkeeping demoEnv demoPlaying ⟨[]⟩
      ⟨[("/tmp/segment_0", demoSegment)], []⟩ demoTarget rfl rfl⟩

/-! ## Lemmas on filtering and on the studio -/

theorem applyFiltering_eq_filter (CONTROL_DEVICE : Nat) (mC : MappedComposition) (filter : Nat)
    (filterControlDevice : Bool) :
    applyFiltering CONTROL_DEVICE mC filter filterControlDevice =
      mC.filter (fun e => decide (¬ ((e.type &&& filter) ≠ 0 ∨
        (filterControlDevice = true ∧ e.recordedDevice = CONTROL_DEVICE)))) := by
  induction mC with
  | nil => rfl
  | cons e rest ih =>
    unfold applyFiltering
    by_cases h : (e.type &&& filter) ≠ 0 ∨
        (filterControlDevice = true ∧ e.recordedDevice = CONTROL_DEVICE)
    · rw [if_pos h, ih, List.filter_cons_of_neg]
      rw [decide_eq_true_eq]
      exact not_not.mpr h
    · rw [if_neg h, ih, List.filter_cons_of_pos]
      exact decide_eq_true h

/-- The search for a buss in two lists put together. -/
theorem Studio.getBussById.loop_append (id : BussId) (l₁ l₂ : List Buss) :
    Studio.getBussById.loop id (l₁ ++ l₂) =
      (Studio.getBussById.loop id l₁).orElse (fun _ => Studio.getBussById.loop id l₂) := by
  induction l₁ with
  | nil => rfl
  | cons b l ih =>
    simp only [List.cons_append, Studio.getBussById.loop]
    by_cases h : b.m_id = id
    · rw [if_pos h, if_pos h]; rfl
    · rw [if_neg h, if_neg h]
      exact ih

/-- Erasing a buss with one id does not change the search for another id. -/
theorem Studio.removeBuss.loop_keeps (id other : BussId) (h : id ≠ other) (l : List Buss) :
    Studio.getBussById.loop other (Studio.removeBuss.loop id l) =
      Studio.getBussById.loop other l := by
  induction l with
  | nil => rfl
  | cons b l ih =>
    simp only [Studio.removeBuss.loop]
    by_cases hb : b.m_id = id
    · rw [if_pos hb]
      simp only [Studio.getBussById.loop]
      rw [if_neg (by rw [hb]; exact h)]
    · rw [if_neg hb]
      simp only [Studio.getBussById.loop]
      rw [ih]

/-! ## Claims on filtering and on the studio -/

/-- C28: applyFiltering keeps exactly the events e of the batch for which
neither (type(e) & filter) != 0 nor (filterControlDevice and recordedDevice(e)
== CONTROL_DEVICE) holds, unmodified and in their original order (the result
is that filter of the batch, hence a sublist of it); a zero mask with
filterControlDevice false leaves the batch unchanged, and filtering twice with
the same arguments gives what filtering once gives. -/
theorem applyFiltering_removes_exactly (CONTROL_DEVICE : Nat) (mC : MappedComposition)
    (filter : Nat) (filterControlDevice : Bool) :
    applyFiltering CONTROL_DEVICE mC filter filterControlDevice =
      mC.filter (fun e => decide (¬ ((e.type &&& filter) ≠ 0 ∨
        (filterControlDevice = true ∧ e.recordedDevice = CONTROL_DEVICE)))) ∧
    (applyFiltering CONTROL_DEVICE mC filter filterControlDevice).Sublist mC ∧
    (∀ e, e ∈ applyFiltering CONTROL_DEVICE mC filter filterControlDevice ↔
      e ∈ mC ∧ ¬ ((e.type &&& filter) ≠ 0 ∨
        (filterControlDevice = true ∧ e.recordedDevice = CONTROL_DEVICE))) ∧
    applyFiltering CONTROL_DEVICE mC 0 false = mC ∧
    applyFiltering CONTROL_DEVICE
        (applyFiltering CONTROL_DEVICE mC filter filterControlDevice) filter
        filterControlDevice =
      applyFiltering CONTROL_DEVICE mC filter filterControlDevice := by
  refine ⟨applyFiltering_eq_filter _ _ _ _, ?_, ?_, ?_, ?_⟩
  · rw [applyFiltering_eq_filter]
    exact List.filter_sublist _
  · intro e
    rw [applyFiltering_eq_filter, List.mem_filter, decide_eq_true_eq]
  · rw [applyFiltering_eq_filter]
    simp
  · rw [applyFiltering_eq_filter, applyFiltering_eq_filter, List.filter_filter]
    simp

/-- C26: a freshly constructed studio has a buss with id zero, and addBuss,
clearBusses and removeBuss(id) for id other than zero keep one; removeBuss(0)
does not: on the freshly constructed studio it erases the only buss with id
zero, after which getBussById(0) is the null pointer. -/
theorem removeBuss_zero_removes_master_buss
    (newInstruments : DeviceType → DeviceId → InstrumentId → List Instrument)
    (AudioInstrumentBase SoftSynthInstrumentBase : InstrumentId) :
    (Studio.new newInstruments AudioInstrumentBase SoftSynthInstrumentBase).getBussById 0 =
      some ⟨0⟩ ∧
    ((Studio.new newInstruments AudioInstrumentBase SoftSynthInstrumentBase).removeBuss
      0).getBussById 0 = none ∧
    (∀ (st : Studio) (buss : Buss), st.getBussById 0 ≠ none →
      (st.addBuss buss).getBussById 0 ≠ none) ∧
    (∀ st : Studio, st.clearBusses.getBussById 0 ≠ none) ∧
    (∀ (st : Studio) (id : BussId), id ≠ 0 → st.getBussById 0 ≠ none →
      (st.removeBuss id).getBussById 0 ≠ none) := by
  refine ⟨rfl, rfl, ?_, ?_, ?_⟩
  · intro st buss h
    unfold Studio.getBussById Studio.addBuss at *
    simp only
    rw [Studio.getBussById.loop_append]
    cases hb : Studio.getBussById.loop 0 st.m_busses with
    | none => exact absurd hb h
    | some b => simp
  · intro st
    simp [Studio.clearBusses, Studio.getBussById, Studio.getBussById.loop]
  · intro st id hid h
    unfold Studio.getBussById Studio.removeBuss at *
    simp only
    rw [Studio.removeBuss.loop_keeps id 0 hid]
    exact h

/-- One turn of the search loop. -/
theorem Studio.getSpareDeviceId.search_eq (ids : List DeviceId) (id : DeviceId) :
    Studio.getSpareDeviceId.search ids id =
      if id ∈ ids then Studio.getSpareDeviceId.search ids (id + 1) else id := by
  rw [Studio.getSpareDeviceId.search]

/-- The search loop ends at the first id at or after its start that is not in
the set. -/
theorem Studio.getSpareDeviceId.search_spec (ids : List DeviceId) (id : DeviceId) :
    Studio.getSpareDeviceId.search ids id ∉ ids ∧
    id ≤ Studio.getSpareDeviceId.search ids id ∧
    ∀ j, id ≤ j → j < Studio.getSpareDeviceId.search ids id → j ∈ ids := by
  induction id using Studio.getSpareDeviceId.search.induct ids with
  | case1 id h ih =>
    rw [Studio.getSpareDeviceId.search_eq, if_pos h]
    refine ⟨ih.1, Nat.le_trans (Nat.le_succ id) ih.2.1, ?_⟩
    intro j hj hlt
    rcases Nat.eq_or_lt_of_le hj with e | e
    · rw [← e]; exact h
    · exact ih.2.2 j e hlt
  | case2 id h =>
    rw [Studio.getSpareDeviceId.search_eq, if_neg h]
    refine ⟨h, Nat.le_refl _, ?_⟩
    intro j hj hlt
    exact absurd hlt (Nat.not_lt.mpr hj)

/-- The instrument loop: the highest id only grows, bounds every instrument id of
the list, and the flag is set exactly when it was set before or the highest id
has grown. -/
theorem Studio.getSpareDeviceId.instruments_spec (il : List Instrument) (h : InstrumentId)
    (f : Bool) :
    h ≤ (Studio.getSpareDeviceId.instruments il (h, f)).1 ∧
    (∀ i ∈ il, i.m_id ≤ (Studio.getSpareDeviceId.instruments il (h, f)).1) ∧
    ((Studio.getSpareDeviceId.instruments il (h, f)).2 = true ↔
      (f = true ∨ h < (Studio.getSpareDeviceId.instruments il (h, f)).1)) := by
  induction il generalizing h f with
  | nil =>
    refine ⟨Nat.le_refl _, ?_, ?_⟩
    · intro i hi; cases hi
    · show f = true ↔ (f = true ∨ h < h)
      constructor
      · exact Or.inl
      · rintro (h1 | h1)
        · exact h1
        · exact absurd h1 (Nat.lt_irrefl _)
  | cons i il ih =>
    by_cases hi : i.m_id > h
    · have e : Studio.getSpareDeviceId.instruments (i :: il) (h, f) =
          Studio.getSpareDeviceId.instruments il (i.m_id, true) := by
        simp only [Studio.getSpareDeviceId.instruments, List.foldl_cons]
        rw [if_pos hi]
      rw [e]
      obtain ⟨h1, h2, h3⟩ := ih i.m_id true
      refine ⟨Nat.le_trans (Nat.le_of_lt hi) h1, ?_, ?_⟩
      · intro j hj
        rcases List.mem_cons.1 hj with e' | e'
        · rw [e']; exact h1
        · exact h2 j e'
      · constructor
        · intro _
          exact Or.inr (Nat.lt_of_lt_of_le hi h1)
        · intro _
          exact h3.2 (Or.inl rfl)
    · have e : Studio.getSpareDeviceId.instruments (i :: il) (h, f) =
          Studio.getSpareDeviceId.instruments il (h, f) := by
        simp only [Studio.getSpareDeviceId.instruments, List.foldl_cons]
        rw [if_neg hi]
      rw [e]
      obtain ⟨h1, h2, h3⟩ := ih h f
      refine ⟨h1, ?_, h3⟩
      intro j hj
      rcases List.mem_cons.1 hj with e' | e'
      · rw [e']; exact Nat.le_trans (Nat.not_lt.mp hi) h1
      · exact h2 j e'

/-- The device loop: what the instrument loop gives, over the MIDI devices, and
the set of ids is that of the devices seen. -/
theorem Studio.getSpareDeviceId.devices_spec (ds : List Device) (h : InstrumentId) (f : Bool)
    (ids : List DeviceId) :
    h ≤ (Studio.getSpareDeviceId.devices ds (h, f, ids)).1 ∧
    (∀ d ∈ ds, d.m_type = .Midi → ∀ i ∈ d.m_instruments,
      i.m_id ≤ (Studio.getSpareDeviceId.devices ds (h, f, ids)).1) ∧
    ((Studio.getSpareDeviceId.devices ds (h, f, ids)).2.1 = true ↔
      (f = true ∨ h < (Studio.getSpareDeviceId.devices ds (h, f, ids)).1)) ∧
    (∀ x, x ∈ (Studio.getSpareDeviceId.devices ds (h, f, ids)).2.2 ↔
      (x ∈ ids ∨ ∃ d ∈ ds, d.m_id = x)) := by
  induction ds generalizing h f ids with
  | nil =>
    refine ⟨Nat.le_refl _, ?_, ?_, ?_⟩
    · intro d hd; cases hd
    · show f = true ↔ (f = true ∨ h < h)
      constructor
      · exact Or.inl
      · rintro (h1 | h1)
        · exact h1
        · exact absurd h1 (Nat.lt_irrefl _)
    · intro x
      show x ∈ ids ↔ _
      simp
  | cons d ds ih =>
    by_cases hm : d.m_type = .Midi
    · have e : Studio.getSpareDeviceId.devices (d :: ds) (h, f, ids) =
          Studio.getSpareDeviceId.devices ds
            ((Studio.getSpareDeviceId.instruments d.m_instruments (h, f)).1,
             (Studio.getSpareDeviceId.instruments d.m_instruments (h, f)).2, d.m_id :: ids) := by
        simp only [Studio.getSpareDeviceId.devices, List.foldl_cons]
        rw [if_pos hm]
      rw [e]
      obtain ⟨g1, g2, g3⟩ := Studio.getSpareDeviceId.instruments_spec d.m_instruments h f
      obtain ⟨h1, h2, h3, h4⟩ := ih (Studio.getSpareDeviceId.instruments d.m_instruments (h, f)).1
        (Studio.getSpareDeviceId.instruments d.m_instruments (h, f)).2 (d.m_id :: ids)
      refine ⟨Nat.le_trans g1 h1, ?_, ?_, ?_⟩
      · intro d' hd' hm' i hi
        rcases List.mem_cons.1 hd' with e' | e'
        · rw [e'] at hi
          exact Nat.le_trans (g2 i hi) h1
        · exact h2 d' e' hm' i hi
      · rw [h3, g3]
        constructor
        · rintro ((h5 | h5) | h5)
          · exact Or.inl h5
          · exact Or.inr (Nat.lt_of_lt_of_le h5 h1)
          · exact Or.inr (Nat.lt_of_le_of_lt g1 h5)
        · rintro (h5 | h5)
          · exact Or.inl (Or.inl h5)
          · by_cases h6 : h < (Studio.getSpareDeviceId.instruments d.m_instruments (h, f)).1
            · exact Or.inl (Or.inr h6)
            · exact Or.inr (Nat.lt_of_le_of_lt (Nat.not_lt.mp h6) h5)
      · intro x
        rw [h4]
        simp only [List.mem_cons]
        constructor
        · rintro ((h5 | h5) | ⟨d', hd', h5⟩)
          · exact Or.inr ⟨d, Or.inl rfl, h5.symm⟩
          · exact Or.inl h5
          · exact Or.inr ⟨d', Or.inr hd', h5⟩
        · rintro (h5 | ⟨d', hd' | hd', h5⟩)
          · exact Or.inl (Or.inr h5)
          · rw [hd'] at h5
            exact Or.inl (Or.inl h5.symm)
          · exact Or.inr ⟨d', hd', h5⟩
    · have e : Studio.getSpareDeviceId.devices (d :: ds) (h, f, ids) =
          Studio.getSpareDeviceId.devices ds (h, f, d.m_id :: ids) := by
        simp only [Studio.getSpareDeviceId.devices, List.foldl_cons]
        rw [if_neg hm]
      rw [e]
      obtain ⟨h1, h2, h3, h4⟩ := ih h f (d.m_id :: ids)
      refine ⟨h1, ?_, h3, ?_⟩
      · intro d' hd' hm' i hi
        rcases List.mem_cons.1 hd' with e' | e'
        · rw [e'] at hm'
          exact absurd hm' hm
        · exact h2 d' e' hm' i hi
      · intro x
        rw [h4]
        simp only [List.mem_cons]
        constructor
        · rintro ((h5 | h5) | ⟨d', hd', h5⟩)
          · exact Or.inr ⟨d, Or.inl rfl, h5.symm⟩
          · exact Or.inl h5
          · exact Or.inr ⟨d', Or.inr hd', h5⟩
        · rintro (h5 | ⟨d', hd' | hd', h5⟩)
          · exact Or.inl (Or.inr h5)
          · rw [hd'] at h5
            exact Or.inl (Or.inl h5.symm)
          · exact Or.inr ⟨d', hd', h5⟩

/-- C29: getSpareDeviceId returns (the search loop ends for every device list)
the smallest device id no device has: no device of the list has the returned
id, every smaller id is the id of some device, and the studio, its device list
included, is as before.  For the sample studio, whose devices have the ids
1000 and 0, it returns 1. -/
theorem getSpareDeviceId_smallest_unused (MidiInstrumentBase : InstrumentId) (st : Studio) :
    (∀ d ∈ st.m_devices, d.m_id ≠ (st.getSpareDeviceId MidiInstrumentBase).1) ∧
    (∀ j, j < (st.getSpareDeviceId MidiInstrumentBase).1 → ∃ d ∈ st.m_devices, d.m_id = j) ∧
    (st.getSpareDeviceId MidiInstrumentBase).2.2 = st ∧
    (st.getSpareDeviceId MidiInstrumentBase).2.2.m_devices = st.m_devices ∧
    (demoStudio.getSpareDeviceId MidiInstrumentBase).1 = 1 := by
  obtain ⟨_, _, _, h4⟩ :=
    Studio.getSpareDeviceId.devices_spec st.m_devices MidiInstrumentBase false []
  obtain ⟨s1, _, s3⟩ := Studio.getSpareDeviceId.search_spec
    (Studio.getSpareDeviceId.devices st.m_devices (MidiInstrumentBase, false, [])).2.2 0
  refine ⟨?_, ?_, rfl, rfl, ?_⟩
  rotate_left 2
  · show Studio.getSpareDeviceId.search [0, 1000] 0 = 1
    rw [Studio.getSpareDeviceId.search_eq, if_pos (by decide),
      Studio.getSpareDeviceId.search_eq, if_neg (by decide)]
  · intro d hd he
    apply s1
    rw [h4]
    exact Or.inr ⟨d, hd, he⟩
  · intro j hj
    have := s3 j (Nat.zero_le _) hj
    rw [h4] at this
    rcases this with h | h
    · cases h
    · exact h

/-- The order of real times is transitive. -/
theorem RealTime.le_trans (a b c : RealTime) (h₁ : a ≤ b) (h₂ : b ≤ c) : a ≤ c := by
  have h₁' : RealTime.le a b := h₁
  have h₂' : RealTime.le b c := h₂
  show RealTime.le a c
  unfold RealTime.le at *
  omega

/-- The length in nanoseconds of a constructed real time. -/
theorem RealTime.toNanoseconds_make (s n : Int) :
    (RealTime.make s n).toNanoseconds = s * RealTime.nsPerS + n := by
  unfold RealTime.toNanoseconds RealTime.make RealTime.nsPerS
  simp only
  omega

/-- Adding a span and taking the start away again leaves the span. -/
theorem RealTime.toNanoseconds_add_sub (a : RealTime) (n : Int) :
    ((a + RealTime.make 0 n) - a).toNanoseconds = n := by
  show (RealTime.sub (RealTime.add a (RealTime.make 0 n)) a).toNanoseconds = n
  unfold RealTime.sub RealTime.add
  rw [RealTime.toNanoseconds_make]
  unfold RealTime.make RealTime.nsPerS
  simp only
  omega

/-- Integer division rounds to within one unit of the quotient. -/
theorem ediv_within_one (n d : Int) (hd : 0 < d) :
    d * (n / d) - d < n ∧ n < d * (n / d) + d := by
  have h1 := Int.emod_add_ediv n d
  have h2 := Int.emod_nonneg n (Int.ne_of_gt hd)
  have h3 := Int.emod_lt_of_pos n hd
  constructor <;> omega

/-- C24: in the flat region of a checkpoint, with the closed form of the
specification and any rounding that stays within one unit of the exact
quotient, converting a tick to real time and back gives a tick that differs
from the original by at most one, provided the tempo and the ticks per quarter
note have a positive product and a tick lasts at least one nanosecond (tempo ·
ticks per quarter note ≤ 6 · 10¹⁵). -/
theorem tick_real_time_round_trip (round₁ round₂ : Int → Int → Int) (ticksPerQuarter : Int)
    (c : TempoCheckpoint) (t : timeT)
    (h₁ : ∀ n d, 0 < d → d * round₁ n d - d < n ∧ n < d * round₁ n d + d)
    (h₂ : ∀ n d, 0 < d → d * round₂ n d - d < n ∧ n < d * round₂ n d + d)
    (hpos : 0 < c.tempo * ticksPerQuarter)
    (hns : c.tempo * ticksPerQuarter ≤ nsPerMinuteScaled) :
    t - 1 ≤ c.getElapsedTimeForRealTime round₂ ticksPerQuarter
        (c.getElapsedRealTime round₁ ticksPerQuarter t) ∧
    c.getElapsedTimeForRealTime round₂ ticksPerQuarter
        (c.getElapsedRealTime round₁ ticksPerQuarter t) ≤ t + 1 := by
  unfold TempoCheckpoint.getElapsedTimeForRealTime TempoCheckpoint.getElapsedRealTime
  rw [RealTime.toNanoseconds_add_sub]
  have g₁ := h₁ ((t - c.tick) * nsPerMinuteScaled) (c.tempo * ticksPerQuarter) hpos
  have g₂ := h₂ (round₁ ((t - c.tick) * nsPerMinuteScaled) (c.tempo * ticksPerQuarter) *
    (c.tempo * ticksPerQuarter)) nsPerMinuteScaled (by decide)
  rw [Int.mul_comm (round₁ _ _) (c.tempo * ticksPerQuarter)] at g₂ ⊢
  generalize round₂ _ nsPerMinuteScaled = y at g₂ ⊢
  generalize (c.tempo * ticksPerQuarter) *
    round₁ ((t - c.tick) * nsPerMinuteScaled) (c.tempo * ticksPerQuarter) = P at g₁ g₂
  generalize c.tempo * ticksPerQuarter = D at g₁ hpos hns
  unfold nsPerMinuteScaled at *
  generalize c.tick = k at g₁ ⊢
  have key : ∀ t k y P D : Int, 0 < D → D ≤ 6000000000000000 →
      (P - D < (t - k) * 6000000000000000 ∧ (t - k) * 6000000000000000 < P + D) →
      (6000000000000000 * y - 6000000000000000 < P ∧ P < 6000000000000000 * y +
        6000000000000000) →
      t - 1 ≤ k + y ∧ k + y ≤ t + 1 := by
    intro t k y P D _ _ _ _
    constructor <;> omega
  exact key t k y P D hpos hns g₁ g₂

/-- Witness: 120 quarter notes per minute, 960 ticks per quarter note, rounding
down both ways: tick 1 lasts 520833 ns, which is short of one tick. -/
theorem tick_real_time_round_trip_witness :
    (∀ n d : Int, 0 < d → d * (n / d) - d < n ∧ n < d * (n / d) + d) ∧
    0 < (⟨0, ⟨0, 0⟩, 12000000⟩ : TempoCheckpoint).tempo * 960 ∧
    (⟨0, ⟨0, 0⟩, 12000000⟩ : TempoCheckpoint).tempo * 960 ≤ nsPerMinuteScaled ∧
    TempoCheckpoint.getElapsedRealTime (fun n d => n / d) 960 ⟨0, ⟨0, 0⟩, 12000000⟩ 1 =
      ⟨0, 520833⟩ ∧
    TempoCheckpoint.getElapsedTimeForRealTime (fun n d => n / d) 960 ⟨0, ⟨0, 0⟩, 12000000⟩
      ⟨0, 520833⟩ = 0 ∧
    (1 : timeT) - 1 ≤ TempoCheckpoint.getElapsedTimeForRealTime (fun n d => n / d) 960
        ⟨0, ⟨0, 0⟩, 12000000⟩
        (TempoCheckpoint.getElapsedRealTime (fun n d => n / d) 960 ⟨0, ⟨0, 0⟩, 12000000⟩ 1) ∧
    TempoCheckpoint.getElapsedTimeForRealTime (fun n d => n / d) 960
        ⟨0, ⟨0, 0⟩, 12000000⟩
        (TempoCheckpoint.getElapsedRealTime (fun n d => n / d) 960 ⟨0, ⟨0, 0⟩, 12000000⟩ 1) ≤
      1 + 1 :=
  ⟨ediv_within_one, by decide, by decide, by decide, by decide,
    tick_real_time_round_trip (fun n d => n / d) (fun n d => n / d) 960
      ⟨0, ⟨0, 0⟩, 12000000⟩ 1 ediv_within_one ediv_within_one (by decide) (by decide)⟩

end Rosegarden
